import Mathlib

/-!
The iSCSI audit tool (cmd/debug-api) and its client: a shallow embedding

The development follows `src/cmd/debug-api/main.go`.

Modelling conventions.

* A Go `error` is its message (`String`); `nil` is `none`.  The errors of the mock client
  are `MockError` values, which keep the code and the message of an `APIError`.
* A Go `int` is an `Int`; counters that only ever count list entries are `Nat`.
* A value of type `interface{}` coming out of the JSON decoder is a `Value`.  The program
  uses a decoded number only through `int(v)`, so a number is represented by that integer.
* A Go map is a `GoMap`: an association list with distinct keys in which a missing key reads
  as the zero value of the element type.
* The remote appliance has a state `σ`.  `Client.Call` is used by the audit for queries only
  and reads that state; the delete operations return the next state.
* Console output (`fmt.Printf`) is not part of the model, except for the count that
  `cleanupOrphanedTargets` prints, which is returned.
* Go strings are compared and split bytewise; the only separators the program uses
  (`zvol/` and `:`) are ASCII, so the model works on the characters of the string.
* `sort.Slice` is the insertion sort; statements about it only use that its outcome is an
  ordered rearrangement.
* A method of `MockClient` (pkg/truenas/mock_client.go) takes the mock and returns its results
  together with the mock after the call; stored pointers are stored values.  A mock of the
  model has made maps; `float64(v)` of an integer is the integer value of the nearest
  float64.
-/

namespace DebugApi

/-! ## Go maps -/

/-- Go map: association list, first binding of a key is the live one. -/
def GoMap (κ ν : Type) : Type := List (κ × ν)

namespace GoMap

variable {κ ν : Type}

/-- The result of `make(map[K]V)`. -/
def empty : GoMap κ ν := []

/-- Lookup with presence flag: `v, ok := m[k]`. -/
def get? [DecidableEq κ] : GoMap κ ν → κ → Option ν
  | [], _ => none
  | (k', v) :: rest, k => if k' = k then some v else get? rest k

/-- Assignment `m[k] = v`. -/
def set [DecidableEq κ] : GoMap κ ν → κ → ν → GoMap κ ν
  | [], k, v => [(k, v)]
  | (k', v') :: rest, k, v => if k' = k then (k, v) :: rest else (k', v') :: set rest k v

/-- Plain read `m[k]`, which yields the zero value `z` for a missing key. -/
def getD [DecidableEq κ] (m : GoMap κ ν) (k : κ) (z : ν) : ν := (m.get? k).getD z

/-- The keys stored in the map. -/
def keys (m : GoMap κ ν) : List κ := m.map Prod.fst

/-- The values stored in the map. -/
def values (m : GoMap κ ν) : List ν := m.map Prod.snd

/-- Increment `m[k]++` on a counter map. -/
def incr [DecidableEq κ] (m : GoMap κ Nat) (k : κ) : GoMap κ Nat := m.set k (m.getD k 0 + 1)

end GoMap

/-! ## Dynamic values and strings -/

/-- The dynamic values that `client.Call` returns (decoded JSON). -/
inductive Value where
  | null
  | bool (b : Bool)
  | num (n : Int)
  | str (s : String)
  | list (items : List Value)
  | obj (fields : List (String × Value))

/-- Type assertion `v.(float64)` followed by `int(v)`; the argument is `m[key]`. -/
def asInt : Option Value → Option Int
  | some (.num n) => some n
  | _ => none

/-- Type assertion `v.(string)`; the argument is `m[key]`. -/
def asString : Option Value → Option String
  | some (.str s) => some s
  | _ => none

/-- Index expression `m[key]` on a `map[string]interface{}`. -/
def index (m : List (String × Value)) (key : String) : Option Value := m.lookup key

/-- Go `strings.HasPrefix`. -/
def hasPrefix (s pre : String) : Bool := pre.data.isPrefixOf s.data

/-- Go `strings.TrimPrefix`. -/
def trimPrefix (s pre : String) : String :=
  if hasPrefix s pre then String.mk (s.data.drop pre.data.length) else s

/-- Splitting a character list at every occurrence of `sep`; always at least one piece. -/
def splitChars (sep : Char) : List Char → List (List Char)
  | [] => [[]]
  | c :: cs =>
    if c = sep then [] :: splitChars sep cs
    else
      match splitChars sep cs with
      | [] => [[c]]
      | p :: ps => (c :: p) :: ps

/-- Go `strings.Split(s, sep)` for a one-character separator. -/
def split (s : String) (sep : Char) : List String := (splitChars sep s.data).map String.mk

/-! ## Records -/

/-- Stand-in for `truenas.ISCSITargetGroup`, which is declared outside the sources at hand.
The programs only pass its values through, so a value is an uninterpreted token. -/
structure ISCSITargetGroup where
  token : Nat := 0
  deriving DecidableEq, Repr

/-- The fields of `truenas.ISCSITarget` that the programs use. -/
structure ISCSITarget where
  ID : Int := 0
  Name : String := ""
  Alias : String := ""
  Mode : String := ""
  Groups : List ISCSITargetGroup := []
  deriving DecidableEq, Repr

/-- The fields of `truenas.ISCSIExtent` that the programs use. -/
structure ISCSIExtent where
  ID : Int := 0
  Name : String := ""
  Disk : String := ""
  Type_ : String := ""
  deriving DecidableEq, Repr

/-- The fields of `truenas.ISCSITargetExtent` that the programs use. -/
structure ISCSITargetExtent where
  ID : Int := 0
  Target : Int := 0
  Extent : Int := 0
  LunID : Int := 0
  deriving DecidableEq, Repr

/-- Go `TargetInfo`. -/
structure TargetInfo where
  ID : Int := 0
  Name : String := ""
  HasDataset : Bool := false
  DatasetPath : String := ""
  deriving DecidableEq, Repr

/-- Go `ExtentInfo`. -/
structure ExtentInfo where
  ID : Int := 0
  Name : String := ""
  Disk : String := ""
  deriving DecidableEq, Repr

/-- Go `TargetConnectionInfo`; the pointer field is an `Option`. -/
structure TargetConnectionInfo where
  Target : TargetInfo := {}
  HasExtent : Bool := false
  ExtentInfo : Option ExtentInfo := none
  ActiveSessions : Nat := 0
  PossibleOrphaned : Bool := false
  deriving DecidableEq, Repr

/-- Go `ISCSIAuditResult`; a nil slice is the empty list. -/
structure ISCSIAuditResult where
  TargetsWithoutExtents : List TargetInfo := []
  ExtentsWithoutTargets : List ExtentInfo := []
  TargetsWithoutConnection : List TargetConnectionInfo := []
  OrphanedExtents : List ExtentInfo := []
  OrphanedTargetsWithDataset : List TargetInfo := []
  OrphanedTargetsWithoutDataset : List TargetInfo := []
  deriving DecidableEq, Repr

/-! ## The client -/

/-- The operations of `truenas.Client` that the tool reaches, over a remote state `σ`. -/
structure Client (σ : Type) where
  /-- Generic RPC `Call(ctx, method, params...)`; the audit only issues queries with it. -/
  Call : σ → String → List Value → Except String Value
  /-- Remote `ISCSITargetDelete(ctx, id, force)`. -/
  ISCSITargetDelete : σ → Int → Bool → Option String × σ
  /-- Remote `ISCSIExtentDelete(ctx, id, remove, force)`. -/
  ISCSIExtentDelete : σ → Int → Bool → Bool → Option String × σ
  /-- Remote `ISCSITargetExtentDelete(ctx, id, force)`. -/
  ISCSITargetExtentDelete : σ → Int → Bool → Option String × σ

/-- A mutating client call, as it is seen on the wire. -/
inductive ClientCall where
  | ISCSITargetDelete (id : Int) (force : Bool)
  | ISCSIExtentDelete (id : Int) (remove : Bool) (force : Bool)
  | ISCSITargetExtentDelete (id : Int) (force : Bool)
  deriving DecidableEq, Repr

/-- One entry of a call log: the call and the error it returned. -/
structure Event where
  call : ClientCall
  err : Option String
  deriving DecidableEq, Repr

/-- The same client with every mutating call recorded, in order, next to the remote state. -/
def Client.recording {σ : Type} (c : Client σ) : Client (σ × List Event) where
  Call := fun s method params => c.Call s.1 method params
  ISCSITargetDelete := fun s id force =>
    let r := c.ISCSITargetDelete s.1 id force
    (r.1, (r.2, s.2 ++ [{ call := .ISCSITargetDelete id force, err := r.1 }]))
  ISCSIExtentDelete := fun s id remove force =>
    let r := c.ISCSIExtentDelete s.1 id remove force
    (r.1, (r.2, s.2 ++ [{ call := .ISCSIExtentDelete id remove force, err := r.1 }]))
  ISCSITargetExtentDelete := fun s id force =>
    let r := c.ISCSITargetExtentDelete s.1 id force
    (r.1, (r.2, s.2 ++ [{ call := .ISCSITargetExtentDelete id force, err := r.1 }]))

/-! ## Fetching and decoding (main.go, lines 279-379) -/

/-- Loop body of `getAllTargets`: a non-object item is skipped, a missing or ill-typed field
stays at its zero value. -/
def getAllTargets.step (targets : List ISCSITarget) (item : Value) : List ISCSITarget :=
  match item with
  | .obj m =>
    let t : ISCSITarget := {}
    let t := match asInt (index m "id") with
      | some v => { t with ID := v }
      | none => t
    let t := match asString (index m "name") with
      | some v => { t with Name := v }
      | none => t
    targets ++ [t]
  | _ => targets

/-- Go `getAllTargets`. -/
def getAllTargets {σ : Type} (client : Client σ) (s : σ) : Except String (List ISCSITarget) :=
  match client.Call s "iscsi.target.query" [.list [], .obj []] with
  | .error err => .error err
  | .ok result =>
    match result with
    | .list items => .ok (items.foldl getAllTargets.step [])
    | _ => .error "unexpected response format"

/-- Loop body of `getAllExtents`. -/
def getAllExtents.step (extents : List ISCSIExtent) (item : Value) : List ISCSIExtent :=
  match item with
  | .obj m =>
    let e : ISCSIExtent := {}
    let e := match asInt (index m "id") with
      | some v => { e with ID := v }
      | none => e
    let e := match asString (index m "name") with
      | some v => { e with Name := v }
      | none => e
    let e := match asString (index m "disk") with
      | some v => { e with Disk := v }
      | none => e
    let e := match asString (index m "type") with
      | some v => { e with Type_ := v }
      | none => e
    extents ++ [e]
  | _ => extents

/-- Go `getAllExtents`. -/
def getAllExtents {σ : Type} (client : Client σ) (s : σ) : Except String (List ISCSIExtent) :=
  match client.Call s "iscsi.extent.query" [.list [], .obj []] with
  | .error err => .error err
  | .ok result =>
    match result with
    | .list items => .ok (items.foldl getAllExtents.step [])
    | _ => .error "unexpected response format"

/-- Loop body of `getAllTargetExtents`. -/
def getAllTargetExtents.step (associations : List ISCSITargetExtent) (item : Value) :
    List ISCSITargetExtent :=
  match item with
  | .obj m =>
    let a : ISCSITargetExtent := {}
    let a := match asInt (index m "id") with
      | some v => { a with ID := v }
      | none => a
    let a := match asInt (index m "target") with
      | some v => { a with Target := v }
      | none => a
    let a := match asInt (index m "extent") with
      | some v => { a with Extent := v }
      | none => a
    associations ++ [a]
  | _ => associations

/-- Go `getAllTargetExtents`. -/
def getAllTargetExtents {σ : Type} (client : Client σ) (s : σ) :
    Except String (List ISCSITargetExtent) :=
  match client.Call s "iscsi.targetextent.query" [.list [], .obj []] with
  | .error err => .error err
  | .ok result =>
    match result with
    | .list items => .ok (items.foldl getAllTargetExtents.step [])
    | _ => .error "unexpected response format"

/-! ## Sessions (main.go, lines 421-477) -/

/-- Fourth strategy of the loop body of `getActiveSessions` (lines 463-473): the string
`target` field split on the colon. -/
def getActiveSessions.fromIQN (targetNameToID : GoMap String Int) (m : List (String × Value))
    (sessions : GoMap Int Nat) : GoMap Int Nat :=
  match asString (index m "target") with
  | some iqn =>
    if iqn ≠ "" then
      let parts := split iqn ':'
      if parts.length ≥ 2 then
        let targetName := parts.getLastD ""
        match targetNameToID.get? targetName with
        | some id => sessions.incr id
        | none => sessions
      else sessions
    else sessions
  | none => sessions

/-- Third strategy (lines 455-461): the `target_name` field; falls through to the fourth. -/
def getActiveSessions.fromTargetName (targetNameToID : GoMap String Int)
    (m : List (String × Value)) (sessions : GoMap Int Nat) : GoMap Int Nat :=
  match asString (index m "target_name") with
  | some targetName =>
    if targetName ≠ "" then
      match targetNameToID.get? targetName with
      | some id => sessions.incr id
      | none => getActiveSessions.fromIQN targetNameToID m sessions
    else getActiveSessions.fromIQN targetNameToID m sessions
  | none => getActiveSessions.fromIQN targetNameToID m sessions

/-- Second strategy (lines 447-453): the `target_alias` field; falls through to the third. -/
def getActiveSessions.fromAlias (targetNameToID : GoMap String Int)
    (m : List (String × Value)) (sessions : GoMap Int Nat) : GoMap Int Nat :=
  match asString (index m "target_alias") with
  | some targetName =>
    if targetName ≠ "" then
      match targetNameToID.get? targetName with
      | some id => sessions.incr id
      | none => getActiveSessions.fromTargetName targetNameToID m sessions
    else getActiveSessions.fromTargetName targetNameToID m sessions
  | none => getActiveSessions.fromTargetName targetNameToID m sessions

/-- Loop body of `getActiveSessions` (lines 435-474); every `continue` ends the body. -/
def getActiveSessions.step (targetNameToID : GoMap String Int) (sessions : GoMap Int Nat)
    (item : Value) : GoMap Int Nat :=
  match item with
  | .obj m =>
    match asInt (index m "target") with
    | some targetID => sessions.incr targetID
    | none => getActiveSessions.fromAlias targetNameToID m sessions
  | _ => sessions

/-- Go `getActiveSessions`: target id to session count. -/
def getActiveSessions {σ : Type} (client : Client σ) (s : σ) (targetNameToID : GoMap String Int) :
    Except String (GoMap Int Nat) :=
  match client.Call s "iscsi.global.sessions" [] with
  | .error err => .error err
  | .ok result =>
    let sessions : GoMap Int Nat := GoMap.empty
    match result with
    | .list items => .ok (items.foldl (getActiveSessions.step targetNameToID) sessions)
    | _ => .ok sessions

/-! ## Existence probes (main.go, lines 479-509) -/

/-- The filter argument `[][]interface{}{{"id", "=", path}}`. -/
def idFilter (path : String) : Value := .list [.list [.str "id", .str "=", .str path]]

/-- Go `checkZvolExists`: the pair `(exists, err)`. -/
def checkZvolExists {σ : Type} (client : Client σ) (s : σ) (datasetName : String) :
    Bool × Option String :=
  match client.Call s "pool.dataset.query" [idFilter datasetName, .obj []] with
  | .error err => (false, some err)
  | .ok result =>
    match result with
    | .list items => (decide (items.length > 0), none)
    | _ => (false, none)

/-- Go `checkDatasetExists`: the triple `(exists, datasetPath, err)`. -/
def checkDatasetExists {σ : Type} (client : Client σ) (s : σ) (targetName : String)
    (parentDataset : String) : Bool × String × Option String :=
  let datasetPath := parentDataset ++ "/" ++ targetName
  match client.Call s "pool.dataset.query" [idFilter datasetPath, .obj []] with
  | .error err => (false, datasetPath, some err)
  | .ok result =>
    match result with
    | .list items => (decide (items.length > 0), datasetPath, none)
    | _ => (false, datasetPath, none)

/-! ## The audit (main.go, lines 119-277) -/

/-- Lines 147-152: `targetMap` and `targetNameToID`. -/
def auditISCSI.indexTargets (targets : List ISCSITarget) :
    GoMap Int ISCSITarget × GoMap String Int :=
  targets.foldl (fun maps t => (maps.1.set t.ID t, maps.2.set t.Name t.ID))
    (GoMap.empty, GoMap.empty)

/-- Lines 154-157: `extentMap`. -/
def auditISCSI.indexExtents (extents : List ISCSIExtent) : GoMap Int ISCSIExtent :=
  extents.foldl (fun extentMap e => extentMap.set e.ID e) GoMap.empty

/-- The three maps of lines 170-172. -/
structure AssocIndex where
  targetsWithExtents : GoMap Int Bool := GoMap.empty
  extentsWithTargets : GoMap Int Bool := GoMap.empty
  targetToExtent : GoMap Int ISCSIExtent := GoMap.empty

/-- Loop body of lines 174-180. -/
def auditISCSI.assocStep (extentMap : GoMap Int ISCSIExtent) (ix : AssocIndex)
    (assoc : ISCSITargetExtent) : AssocIndex :=
  let ix := { ix with targetsWithExtents := ix.targetsWithExtents.set assoc.Target true }
  let ix := { ix with extentsWithTargets := ix.extentsWithTargets.set assoc.Extent true }
  match extentMap.get? assoc.Extent with
  | some e => { ix with targetToExtent := ix.targetToExtent.set assoc.Target e }
  | none => ix

/-- Lines 170-180: which targets have extents, which extents have targets, target to extent. -/
def auditISCSI.indexAssociations (extentMap : GoMap Int ISCSIExtent)
    (associations : List ISCSITargetExtent) : AssocIndex :=
  associations.foldl (auditISCSI.assocStep extentMap) {}

/-- Lines 188-198: the probe of `parentDataset/t.Name` and the entry built from its
answer.  The error of the probe is only printed, the entry is built either way. -/
def auditISCSI.targetInfo {σ : Type} (client : Client σ) (s : σ) (parentDataset : String)
    (t : ISCSITarget) : TargetInfo :=
  let probe := checkDatasetExists client s t.Name parentDataset
  let hasDataset := probe.1
  let datasetPath := probe.2.1
  { ID := t.ID, Name := t.Name, HasDataset := hasDataset, DatasetPath := datasetPath }

/-- Loop body of step 5 (lines 185-208). -/
def auditISCSI.targetStep {σ : Type} (client : Client σ) (s : σ) (parentDataset : String)
    (targetsWithExtents : GoMap Int Bool) (result : ISCSIAuditResult) (t : ISCSITarget) :
    ISCSIAuditResult :=
  if !(targetsWithExtents.getD t.ID false) then
    let info := auditISCSI.targetInfo client s parentDataset t
    let result :=
      { result with TargetsWithoutExtents := result.TargetsWithoutExtents ++ [info] }
    if info.HasDataset then
      { result with OrphanedTargetsWithDataset := result.OrphanedTargetsWithDataset ++ [info] }
    else
      { result with
        OrphanedTargetsWithoutDataset := result.OrphanedTargetsWithoutDataset ++ [info] }
  else result

/-- The literal `ExtentInfo{ID: e.ID, Name: e.Name, Disk: e.Disk}` of steps 6, 7 and 8. -/
def auditISCSI.extentInfo (e : ISCSIExtent) : ExtentInfo :=
  { ID := e.ID, Name := e.Name, Disk := e.Disk }

/-- Loop body of step 6 (lines 212-220). -/
def auditISCSI.extentStep (extentsWithTargets : GoMap Int Bool) (result : ISCSIAuditResult)
    (e : ISCSIExtent) : ISCSIAuditResult :=
  if !(extentsWithTargets.getD e.ID false) then
    { result with
      ExtentsWithoutTargets := result.ExtentsWithoutTargets ++ [auditISCSI.extentInfo e] }
  else result

/-- Lines 225-243: the entry of step 7 before the session test. -/
def auditISCSI.connectionInfo (sessions : GoMap Int Nat) (ix : AssocIndex) (t : ISCSITarget) :
    TargetConnectionInfo :=
  let sessionCount := sessions.getD t.ID 0
  let hasExtent := ix.targetsWithExtents.getD t.ID false
  let info : TargetConnectionInfo :=
    { Target := { ID := t.ID, Name := t.Name }
      HasExtent := hasExtent
      ActiveSessions := sessionCount }
  match ix.targetToExtent.get? t.ID with
  | some e => { info with ExtentInfo := some (auditISCSI.extentInfo e) }
  | none => info

/-- Loop body of step 7 (lines 224-252). -/
def auditISCSI.connectionStep (sessions : GoMap Int Nat) (ix : AssocIndex)
    (result : ISCSIAuditResult) (t : ISCSITarget) : ISCSIAuditResult :=
  let sessionCount := sessions.getD t.ID 0
  let info := auditISCSI.connectionInfo sessions ix t
  if sessionCount = 0 then
    let info := { info with PossibleOrphaned := true }
    { result with TargetsWithoutConnection := result.TargetsWithoutConnection ++ [info] }
  else result

/-- Loop body of step 8 (lines 256-273); a failed probe skips the extent (`continue`). -/
def auditISCSI.zvolStep {σ : Type} (client : Client σ) (s : σ) (result : ISCSIAuditResult)
    (e : ISCSIExtent) : ISCSIAuditResult :=
  if e.Type_ = "DISK" ∧ hasPrefix e.Disk "zvol/" = true then
    let datasetName := trimPrefix e.Disk "zvol/"
    let probe := checkZvolExists client s datasetName
    match probe.2 with
    | some _ => result
    | none =>
      if !probe.1 then
        { result with OrphanedExtents := result.OrphanedExtents ++ [auditISCSI.extentInfo e] }
      else result
  else result

/-- Lines 159-167: the session counts the audit works with; a failed fetch gives the empty
map. -/
def auditISCSI.sessions {σ : Type} (client : Client σ) (s : σ)
    (targetNameToID : GoMap String Int) : GoMap Int Nat :=
  match getActiveSessions client s targetNameToID with
  | .error _ => GoMap.empty
  | .ok sessions => sessions

/-- Go `auditISCSI`. -/
def auditISCSI {σ : Type} (client : Client σ) (s : σ) (parentDataset : String) :
    Except String ISCSIAuditResult :=
  let result : ISCSIAuditResult := {}
  match getAllTargets client s with
  | .error err => .error ("failed to get targets: " ++ err)
  | .ok targets =>
    match getAllExtents client s with
    | .error err => .error ("failed to get extents: " ++ err)
    | .ok extents =>
      match getAllTargetExtents client s with
      | .error err => .error ("failed to get associations: " ++ err)
      | .ok associations =>
        let targetNameToID := (auditISCSI.indexTargets targets).2
        let extentMap := auditISCSI.indexExtents extents
        let sessions := auditISCSI.sessions client s targetNameToID
        let ix := auditISCSI.indexAssociations extentMap associations
        let result :=
          targets.foldl (auditISCSI.targetStep client s parentDataset ix.targetsWithExtents)
            result
        let result := extents.foldl (auditISCSI.extentStep ix.extentsWithTargets) result
        let result := targets.foldl (auditISCSI.connectionStep sessions ix) result
        let result := extents.foldl (auditISCSI.zvolStep client s) result
        .ok result

/-! ## Cleanup (main.go, lines 512-535) -/

/-- Loop body of `cleanupOrphanedTargets`: the running count and the remote state. -/
def cleanupOrphanedTargets.step {σ : Type} (client : Client σ) (dryRun : Bool)
    (acc : Nat × σ) (t : TargetInfo) : Nat × σ :=
  if dryRun then (acc.1 + 1, acc.2)
  else
    match client.ISCSITargetDelete acc.2 t.ID true with
    | (some _, s) => (acc.1, s)
    | (none, s) => (acc.1 + 1, s)

/-- Go `cleanupOrphanedTargets`: the count it prints (`deleted`) and the remote state it
leaves. -/
def cleanupOrphanedTargets {σ : Type} (client : Client σ) (s : σ) (targets : List TargetInfo)
    (dryRun : Bool) : Nat × σ :=
  targets.foldl (cleanupOrphanedTargets.step client dryRun) (0, s)

/-! ## Vocabulary of the statements -/

/-- The session records of a run: the items of the response to `iscsi.global.sessions`; there
are none when the call fails or the response is not a list. -/
def sessionRecords {σ : Type} (client : Client σ) (s : σ) : List Value :=
  match client.Call s "iscsi.global.sessions" [] with
  | .ok (.list items) => items
  | _ => []

/-! ## A scripted appliance for concrete runs -/

/-- An appliance with fixed answers: one for each of the four list queries, and one per path
for `pool.dataset.query`; `failing` lists the target ids whose delete returns an error. -/
def scripted (targets extents associations sessions : Except String Value)
    (query : String → Except String Value) (failing : List Int) : Client Unit where
  Call := fun _ method params =>
    if method = "iscsi.target.query" then targets
    else if method = "iscsi.extent.query" then extents
    else if method = "iscsi.targetextent.query" then associations
    else if method = "iscsi.global.sessions" then sessions
    else if method = "pool.dataset.query" then
      match params with
      | [.list [.list [_, _, .str path]], _] => query path
      | _ => .error "invalid filter"
    else .error "unknown method"
  ISCSITargetDelete := fun s id _ => (if id ∈ failing then some "delete failed" else none, s)
  ISCSIExtentDelete := fun s _ _ _ => (none, s)
  ISCSITargetExtentDelete := fun s _ _ => (none, s)

/-- The response `[{"id": 1, "name": "pvc-a"}]` to the target query. -/
def onePvcA : Except String Value := .ok (.list [.obj [("id", .num 1), ("name", .str "pvc-a")]])

/-- An empty list response. -/
def noItems : Except String Value := .ok (.list [])

/-- Three targets, one extent behind target 3, one session on target 3; only the dataset of
`pvc-a` exists, and the volume of the extent is missing. -/
def demoClient : Client Unit :=
  scripted
    (.ok (.list [.obj [("id", .num 1), ("name", .str "pvc-a")],
                 .obj [("id", .num 2), ("name", .str "pvc-b")],
                 .obj [("id", .num 3), ("name", .str "pvc-c")]]))
    (.ok (.list [.obj [("id", .num 5), ("name", .str "e5"), ("disk", .str "zvol/tank/missing"),
                       ("type", .str "DISK")],
                 .obj [("id", .num 6), ("name", .str "e6"), ("disk", .str "zvol/tank/six"),
                       ("type", .str "DISK")]]))
    (.ok (.list [.obj [("id", .num 1), ("target", .num 3), ("extent", .num 5)]]))
    (.ok (.list [.obj [("target_alias", .str "pvc-c")]]))
    (fun path =>
      if path = "tank/k8s/pvc-a" ∨ path = "tank/six" then .ok (.list [.obj [("id", .str path)]])
      else .ok (.list []))
    [2]

/-- The targets that `demoClient` serves. -/
def demoTargets : List ISCSITarget :=
  [{ ID := 1, Name := "pvc-a" }, { ID := 2, Name := "pvc-b" }, { ID := 3, Name := "pvc-c" }]

/-- The extents that `demoClient` serves. -/
def demoExtents : List ISCSIExtent :=
  [{ ID := 5, Name := "e5", Disk := "zvol/tank/missing", Type_ := "DISK" },
   { ID := 6, Name := "e6", Disk := "zvol/tank/six", Type_ := "DISK" }]

/-- The associations that `demoClient` serves. -/
def demoAssociations : List ISCSITargetExtent := [{ ID := 1, Target := 3, Extent := 5 }]

/-- The audit result on `demoClient` with parent dataset `tank/k8s`. -/
def demoResult : ISCSIAuditResult :=
  { TargetsWithoutExtents :=
      [{ ID := 1, Name := "pvc-a", HasDataset := true, DatasetPath := "tank/k8s/pvc-a" },
       { ID := 2, Name := "pvc-b", HasDataset := false, DatasetPath := "tank/k8s/pvc-b" }]
    ExtentsWithoutTargets := [{ ID := 6, Name := "e6", Disk := "zvol/tank/six" }]
    TargetsWithoutConnection :=
      [{ Target := { ID := 1, Name := "pvc-a" }, PossibleOrphaned := true },
       { Target := { ID := 2, Name := "pvc-b" }, PossibleOrphaned := true }]
    OrphanedExtents := [{ ID := 5, Name := "e5", Disk := "zvol/tank/missing" }]
    OrphanedTargetsWithDataset :=
      [{ ID := 1, Name := "pvc-a", HasDataset := true, DatasetPath := "tank/k8s/pvc-a" }]
    OrphanedTargetsWithoutDataset :=
      [{ ID := 2, Name := "pvc-b", HasDataset := false, DatasetPath := "tank/k8s/pvc-b" }] }

/-- The single target `pvc-a` with one session that names it by alias. -/
def aliasSessionClient : Client Unit :=
  scripted onePvcA noItems noItems (.ok (.list [.obj [("target_alias", .str "pvc-a")]]))
    (fun _ => .ok (.list [])) []

/-- One session record in which the alias, the name and the qualified name each resolve, to
three different targets. -/
def ambiguousSessionClient : Client Unit :=
  scripted noItems noItems noItems
    (.ok (.list [.obj [("target_alias", .str "pvc-a"), ("target_name", .str "pvc-b"),
                       ("target", .str "iqn.2005-10.org.freenas.ctl:pvc-c")]]))
    (fun _ => .ok (.list [])) []

/-! ## Session resolution in the words of the specification -/

/-- Crediting a record: `sessions[id]++` for the id that was found, nothing otherwise. -/
def credit (sessions : GoMap Int Nat) : Option Int → GoMap Int Nat
  | some id => sessions.incr id
  | none => sessions

/-- The first strategy, in list order, that yields an id. -/
def firstOf : List (Option Int) → Option Int
  | [] => none
  | some id :: _ => some id
  | none :: rest => firstOf rest

/-- Strategies 2 and 3 as the specification words them: the field, when it is a string that
is a key of the name index. -/
def specified.byName (targetNameToID : GoMap String Int) (field : Option Value) : Option Int :=
  match asString field with
  | some name => targetNameToID.get? name
  | none => none

/-- Strategy 4 as the specification words it: the qualified name split on the colon, the
final segment matched against the name index. -/
def specified.byQualifiedName (targetNameToID : GoMap String Int) (field : Option Value) :
    Option Int :=
  match asString field with
  | some q => if q ≠ "" then targetNameToID.get? ((split q ':').getLastD "") else none
  | none => none

/-- The target id of a session record as the specification words it (section 4.2): the first
of the four strategies that yields an id. -/
def specified.resolve (targetNameToID : GoMap String Int) (m : List (String × Value)) :
    Option Int :=
  firstOf
    [asInt (index m "target"),
     specified.byName targetNameToID (index m "target_alias"),
     specified.byName targetNameToID (index m "target_name"),
     specified.byQualifiedName targetNameToID (index m "target")]

/-- Strategies 2 and 3 with the guard of the code: the field, when it is a non-empty string
that is a key of the name index. -/
def guarded.byName (targetNameToID : GoMap String Int) (field : Option Value) : Option Int :=
  match asString field with
  | some name => if name ≠ "" then targetNameToID.get? name else none
  | none => none

/-- Strategy 4 with the guards of the code: a non-empty string with at least one colon, whose
final segment is a key of the name index. -/
def guarded.byQualifiedName (targetNameToID : GoMap String Int) (field : Option Value) :
    Option Int :=
  match asString field with
  | some q =>
    if q ≠ "" ∧ ':' ∈ q.data then targetNameToID.get? ((split q ':').getLastD "") else none
  | none => none

/-- The first of the four guarded strategies that yields an id. -/
def guarded.resolve (targetNameToID : GoMap String Int) (m : List (String × Value)) :
    Option Int :=
  firstOf
    [asInt (index m "target"),
     guarded.byName targetNameToID (index m "target_alias"),
     guarded.byName targetNameToID (index m "target_name"),
     guarded.byQualifiedName targetNameToID (index m "target")]

/-- A target without a name next to `pvc-b`: the name index these two targets give. -/
def unnamedIndex : GoMap String Int := [("", 5), ("pvc-b", 2)]

/-- A session record with an empty alias and the name `pvc-b`. -/
def emptyAliasRecord : List (String × Value) :=
  [("target_alias", .str ""), ("target_name", .str "pvc-b")]

/-- An appliance whose only session is `emptyAliasRecord`. -/
def emptyAliasClient : Client Unit :=
  scripted noItems noItems noItems (.ok (.list [.obj emptyAliasRecord]))
    (fun _ => .ok (.list [])) []

/-- A session whose qualified name has no colon. -/
def bareNameClient : Client Unit :=
  scripted onePvcA noItems noItems (.ok (.list [.obj [("target", .str "pvc-a")]]))
    (fun _ => .ok (.list [])) []

/-- The target `pvc-a` with one association to extent 9, which the extent query does not
return. -/
def danglingLinkClient : Client Unit :=
  scripted onePvcA noItems
    (.ok (.list [.obj [("id", .num 1), ("target", .num 1), ("extent", .num 9)]]))
    noItems (fun _ => .ok (.list [])) []

/-- The target `pvc-a` with two associations, first to extent 5, then to extent 6. -/
def twoLinksClient : Client Unit :=
  scripted onePvcA
    (.ok (.list [.obj [("id", .num 5), ("name", .str "e5"), ("disk", .str "zvol/tank/five"),
                       ("type", .str "DISK")],
                 .obj [("id", .num 6), ("name", .str "e6"), ("disk", .str "zvol/tank/six"),
                       ("type", .str "DISK")]]))
    (.ok (.list [.obj [("id", .num 1), ("target", .num 1), ("extent", .num 5)],
                 .obj [("id", .num 2), ("target", .num 1), ("extent", .num 6)]]))
    noItems (fun _ => .ok (.list [.obj []])) []

/-- The audit result on `twoLinksClient`: the zero-session entry of `pvc-a` is annotated with
extent 6, the extent of the second association. -/
def twoLinksResult : ISCSIAuditResult :=
  { TargetsWithoutConnection :=
      [{ Target := { ID := 1, Name := "pvc-a" }
         HasExtent := true
         ExtentInfo := some { ID := 6, Name := "e6", Disk := "zvol/tank/six" }
         PossibleOrphaned := true }] }

/-- The same client with the session call answered by `answer`. -/
def Client.withSessions {σ : Type} (c : Client σ) (answer : Except String Value) : Client σ :=
  { c with
    Call := fun s method params =>
      if method = "iscsi.global.sessions" then answer else c.Call s method params }

/-- The demo appliance with a failing session call. -/
def demoNoSessions : Client Unit := demoClient.withSessions (.error "connection reset")

/-- The audit result on `demoNoSessions`: as `demoResult`, with target 3 added to the
zero-session list. -/
def demoNoSessionsResult : ISCSIAuditResult :=
  { demoResult with
    TargetsWithoutConnection :=
      [{ Target := { ID := 1, Name := "pvc-a" }, PossibleOrphaned := true },
       { Target := { ID := 2, Name := "pvc-b" }, PossibleOrphaned := true },
       { Target := { ID := 3, Name := "pvc-c" }
         HasExtent := true
         ExtentInfo := some { ID := 5, Name := "e5", Disk := "zvol/tank/missing" }
         PossibleOrphaned := true }] }

/-! ## Rendering (main.go, lines 537-677) -/

/-- Insertion of `x` in front of the first entry that `x` is less than. -/
def sortSlice.insert {α : Type} (less : α → α → Bool) (x : α) : List α → List α
  | [] => [x]
  | y :: ys => if less x y then x :: y :: ys else y :: sortSlice.insert less x ys

/-- Go `sort.Slice(x, less)`, which rearranges the slice in place into an order that agrees
with `less`.  The library does not say which of several such orders it produces when entries
compare equal; the model is the insertion sort. -/
def sortSlice {α : Type} (less : α → α → Bool) : List α → List α
  | [] => []
  | x :: xs => sortSlice.insert less x (sortSlice less xs)

/-- Go `printAuditResults`: the value of `*result` when the call returns.  Lines 543-552 sort
three of the lists in place; the rest of the function only prints. -/
def printAuditResults (result : ISCSIAuditResult) : ISCSIAuditResult :=
  { result with
    TargetsWithoutExtents :=
      sortSlice (fun a b => decide (a.ID < b.ID)) result.TargetsWithoutExtents
    ExtentsWithoutTargets :=
      sortSlice (fun a b => decide (a.ID < b.ID)) result.ExtentsWithoutTargets
    TargetsWithoutConnection :=
      sortSlice (fun a b => decide (a.Target.ID < b.Target.ID))
        result.TargetsWithoutConnection }

/-- Two targets without extents, fetched in the order 2, 1; neither has a dataset. -/
def descendingClient : Client Unit :=
  scripted
    (.ok (.list [.obj [("id", .num 2), ("name", .str "pvc-b")],
                 .obj [("id", .num 1), ("name", .str "pvc-a")]]))
    noItems noItems noItems (fun _ => .ok (.list [])) []

/-- The audit result on `descendingClient`: the lists are in fetch order, 2 before 1. -/
def descendingResult : ISCSIAuditResult :=
  { TargetsWithoutExtents :=
      [{ ID := 2, Name := "pvc-b", HasDataset := false, DatasetPath := "tank/k8s/pvc-b" },
       { ID := 1, Name := "pvc-a", HasDataset := false, DatasetPath := "tank/k8s/pvc-a" }]
    TargetsWithoutConnection :=
      [{ Target := { ID := 2, Name := "pvc-b" }, PossibleOrphaned := true },
       { Target := { ID := 1, Name := "pvc-a" }, PossibleOrphaned := true }]
    OrphanedTargetsWithoutDataset :=
      [{ ID := 2, Name := "pvc-b", HasDataset := false, DatasetPath := "tank/k8s/pvc-b" },
       { ID := 1, Name := "pvc-a", HasDataset := false, DatasetPath := "tank/k8s/pvc-a" }] }

/-! ## The in-memory client (pkg/truenas/mock_client.go) -/

instance GoMap.instDecidableEq {κ ν : Type} [DecidableEq κ] [DecidableEq ν] :
    DecidableEq (GoMap κ ν) :=
  inferInstanceAs (DecidableEq (List (κ × ν)))

instance GoMap.instRepr {κ ν : Type} [Repr κ] [Repr ν] : Repr (GoMap κ ν) :=
  inferInstanceAs (Repr (List (κ × ν)))

/-- Go `delete(m, k)`. -/
def GoMap.delete {κ ν : Type} [DecidableEq κ] (m : GoMap κ ν) (k : κ) : GoMap κ ν :=
  List.filter (fun kv => decide (kv.1 ≠ k)) m

/-- Go `len(m)`. -/
def GoMap.len {κ ν : Type} (m : GoMap κ ν) : Nat := List.length m

/-- The least `e`, counted up from the given one, with `n < 2 ^ (53 + e)`: the number of low
bits of `n` that do not fit in the 53-bit significand of a float64. -/
def float64.exponent (n : Nat) : Nat → Nat → Nat
  | 0, e => e
  | fuel + 1, e => if n < 2 ^ (53 + e) then e else float64.exponent n fuel (e + 1)

/-- Rounding of a natural number to 53 significant bits, to nearest, ties to even. -/
def float64.round (n : Nat) : Nat :=
  let e := float64.exponent n 971 0
  let q := n / 2 ^ e
  let r := n % 2 ^ e
  let half := 2 ^ e / 2
  if r > half ∨ (r = half ∧ e ≠ 0 ∧ q % 2 = 1) then (q + 1) * 2 ^ e else q * 2 ^ e

/-- Go `float64(v)` for an integer `v` (an `int64` in the mock): the value of the float64
nearest to `v`, ties to even.  That value is again an integer; it is `v` itself up to 2^53 in
magnitude and differs from `v` only above. -/
def float64 (v : Int) : Int :=
  if v < 0 then -((float64.round v.natAbs : Nat) : Int)
  else ((float64.round v.natAbs : Nat) : Int)

/-- The field of `truenas.UserProperty` that the mock uses. -/
structure UserProperty where
  Value : String := ""
  deriving DecidableEq, Repr

/-- The field of `truenas.DatasetProperty` that the mock uses.  The mock stores
`float64(size)` in it; `Parsed` is the value of that float64, which is an integer. -/
structure DatasetProperty where
  Parsed : Int := 0
  deriving DecidableEq, Repr

/-- The fields of `truenas.Dataset` that the mock uses. -/
structure Dataset where
  ID : String := ""
  Name : String := ""
  Type_ : String := ""
  UserProperties : GoMap String UserProperty := GoMap.empty
  Volsize : DatasetProperty := {}
  Refquota : DatasetProperty := {}
  deriving DecidableEq, Repr

/-- The fields of `truenas.Snapshot` that the mock uses. -/
structure Snapshot where
  ID : String := ""
  Name : String := ""
  Dataset : String := ""
  UserProperties : GoMap String UserProperty := GoMap.empty
  deriving DecidableEq, Repr

/-- The fields of `truenas.NFSShare` that the mock uses. -/
structure NFSShare where
  ID : Int := 0
  Path : String := ""
  deriving DecidableEq, Repr

/-- The fields of `truenas.NVMeoFSubsystem` that the mock uses. -/
structure NVMeoFSubsystem where
  ID : Int := 0
  NQN : String := ""
  deriving DecidableEq, Repr

/-- The fields of `truenas.NVMeoFNamespace` that the mock uses. -/
structure NVMeoFNamespace where
  ID : Int := 0
  Subsystem : Int := 0
  DevicePath : String := ""
  deriving DecidableEq, Repr

/-- The error values that the mock returns and stores: `&APIError{Code, Message}` and
`fmt.Errorf(message)`.  An injected error is any of them. -/
inductive MockError where
  | APIError (Code : Int) (Message : String)
  | Errorf (message : String)
  deriving DecidableEq, Repr

/-- Go `MockClient`: the stores of the mock and the injected error.  A value of this type is
a mock whose eight maps have been made, as `NewMockClient` makes them, and whose stored
pointers are not nil: a `GoMap` is a made map, possibly empty.  The zero value of the Go
struct, whose maps are nil and on which a storing method panics, is not a value of this
type; the mocks that the methods produce from `NewMockClient` all are. -/
structure MockClient where
  Datasets : GoMap String Dataset
  Snapshots : GoMap String Snapshot
  NFSShares : GoMap Int NFSShare
  ISCSITargets : GoMap Int ISCSITarget
  ISCSIExtents : GoMap Int ISCSIExtent
  TargetExtents : GoMap Int ISCSITargetExtent
  NVMeSubsystems : GoMap Int NVMeoFSubsystem
  NVMeNamespaces : GoMap Int NVMeoFNamespace
  PoolAvailable : Int
  InjectError : Option MockError
  deriving DecidableEq, Repr

/-- Go `NewMockClient`. -/
def NewMockClient : MockClient :=
  { Datasets := GoMap.empty
    Snapshots := GoMap.empty
    NFSShares := GoMap.empty
    ISCSITargets := GoMap.empty
    ISCSIExtents := GoMap.empty
    TargetExtents := GoMap.empty
    NVMeSubsystems := GoMap.empty
    NVMeNamespaces := GoMap.empty
    PoolAvailable := 100 * 1024 * 1024 * 1024
    InjectError := none }

/-- Go `(*MockClient).ISCSITargetCreate`: the returned pair and the mock after the call. -/
def MockClient.ISCSITargetCreate (m : MockClient) (name alias_ mode : String)
    (groups : List ISCSITargetGroup) : Except MockError ISCSITarget × MockClient :=
  let id : Int := m.ISCSITargets.len + 1
  let target : ISCSITarget :=
    { ID := id, Name := name, Alias := alias_, Mode := mode, Groups := groups }
  (.ok target, { m with ISCSITargets := m.ISCSITargets.set id target })

/-- Go `(*MockClient).ISCSITargetDelete`: the returned error and the mock after the call. -/
def MockClient.ISCSITargetDelete (m : MockClient) (id : Int) (_force : Bool) :
    Option MockError × MockClient :=
  (none, { m with ISCSITargets := m.ISCSITargets.delete id })

/-- Go `(*MockClient).ISCSITargetGet`. -/
def MockClient.ISCSITargetGet (m : MockClient) (id : Int) : Except MockError ISCSITarget :=
  match m.ISCSITargets.get? id with
  | some t => .ok t
  | none => .error (.Errorf "not found")

/-- One call of the two operations that add and remove targets. -/
inductive TargetOp where
  | create (name alias_ mode : String) (groups : List ISCSITargetGroup)
  | delete (id : Int) (force : Bool)

/-- The mock after one operation. -/
def MockClient.apply (m : MockClient) : TargetOp → MockClient
  | .create name alias_ mode groups => (m.ISCSITargetCreate name alias_ mode groups).2
  | .delete id force => (m.ISCSITargetDelete id force).2

/-- The mock after a sequence of operations on a new mock. -/
def MockClient.after (ops : List TargetOp) : MockClient :=
  ops.foldl MockClient.apply NewMockClient

/-- The calls create `a`, create `b`, delete 1. -/
def createCreateDelete : List TargetOp :=
  [.create "a" "" "ISCSI" [], .create "b" "" "ISCSI" [], .delete 1 true]

/-- The ids of the stored targets lie between 1 and the number of stored targets. -/
def MockClient.idsDense (m : MockClient) : Prop :=
  ∀ k ∈ m.ISCSITargets.keys, 1 ≤ k ∧ k ≤ (m.ISCSITargets.len : Int)

/-! ## The decoders in the words of the specification -/

/-- Whether a response item is object-shaped. -/
def isObject : Value → Bool
  | .obj _ => true
  | _ => false

/-- The target record of a response item: none for an item that is not an object; a field
that is missing or of another type is the zero value. -/
def decoded.target : Value → Option ISCSITarget
  | .obj m =>
    some { ID := (asInt (index m "id")).getD 0, Name := (asString (index m "name")).getD "" }
  | _ => none

/-- The extent record of a response item. -/
def decoded.extent : Value → Option ISCSIExtent
  | .obj m =>
    some { ID := (asInt (index m "id")).getD 0
           Name := (asString (index m "name")).getD ""
           Disk := (asString (index m "disk")).getD ""
           Type_ := (asString (index m "type")).getD "" }
  | _ => none

/-- The association record of a response item. -/
def decoded.association : Value → Option ISCSITargetExtent
  | .obj m =>
    some { ID := (asInt (index m "id")).getD 0
           Target := (asInt (index m "target")).getD 0
           Extent := (asInt (index m "extent")).getD 0 }
  | _ => none

/-- A target query answered with an object without fields, a number, and an object whose id
is a string. -/
def raggedClient : Client Unit :=
  scripted
    (.ok (.list [.obj [], .num 7, .obj [("id", .str "x"), ("name", .str "pvc-z")]]))
    noItems noItems
    (.ok (.list [.obj [("target", .num 99), ("target_alias", .str "pvc-z")]]))
    (fun _ => .ok (.list [])) []

/-! ## The dataset, snapshot and share methods of the in-memory client -/

/-- The fields of `truenas.DatasetCreateParams` that the mock reads. -/
structure DatasetCreateParams where
  Name : String := ""
  Type_ : String := ""
  Volsize : Int := 0
  Refquota : Int := 0
  deriving DecidableEq, Repr

/-- The field of `truenas.DatasetUpdateParams` that the mock reads. -/
structure DatasetUpdateParams where
  Volsize : Int := 0
  deriving DecidableEq, Repr

/-- The field of `truenas.NFSShareCreateParams` that the mock reads. -/
structure NFSShareCreateParams where
  Path : String := ""
  deriving DecidableEq, Repr

/-- Go `(*MockClient).DatasetCreate` (lines 49-69). -/
def MockClient.DatasetCreate (m : MockClient) (params : DatasetCreateParams) :
    Except MockError Dataset × MockClient :=
  match m.InjectError with
  | some err => (.error err, m)
  | none =>
    match m.Datasets.get? params.Name with
    | some stored => (.ok stored, m)
    | none =>
      let ds : Dataset :=
        { ID := params.Name
          Name := params.Name
          Type_ := params.Type_
          UserProperties := GoMap.empty
          Volsize := { Parsed := float64 params.Volsize }
          Refquota := { Parsed := float64 params.Refquota } }
      (.ok ds, { m with Datasets := m.Datasets.set params.Name ds })

/-- Go `(*MockClient).DatasetDelete` (lines 71-77). -/
def MockClient.DatasetDelete (m : MockClient) (name : String) (_recursive _force : Bool) :
    Option MockError × MockClient :=
  match m.InjectError with
  | some err => (some err, m)
  | none => (none, { m with Datasets := m.Datasets.delete name })

/-- Go `(*MockClient).DatasetGet` (lines 79-87); the mock is not written. -/
def MockClient.DatasetGet (m : MockClient) (name : String) : Except MockError Dataset :=
  match m.InjectError with
  | some err => .error err
  | none =>
    match m.Datasets.get? name with
    | some ds => .ok ds
    | none => .error (.APIError (-1) "dataset not found")

/-- Go `(*MockClient).DatasetUpdate` (lines 89-103); the stored dataset is updated in
place. -/
def MockClient.DatasetUpdate (m : MockClient) (name : String) (params : DatasetUpdateParams) :
    Except MockError Dataset × MockClient :=
  match m.InjectError with
  | some err => (.error err, m)
  | none =>
    match m.Datasets.get? name with
    | none => (.error (.APIError (-1) "dataset not found"), m)
    | some ds =>
      let ds :=
        if params.Volsize > 0 then { ds with Volsize := { Parsed := float64 params.Volsize } }
        else ds
      (.ok ds, { m with Datasets := m.Datasets.set name ds })

/-- Go `(*MockClient).DatasetSetUserProperty` (lines 113-123). -/
def MockClient.DatasetSetUserProperty (m : MockClient) (name key value : String) :
    Option MockError × MockClient :=
  match m.InjectError with
  | some err => (some err, m)
  | none =>
    match m.Datasets.get? name with
    | none => (some (.APIError (-1) "dataset not found"), m)
    | some ds =>
      let ds := { ds with UserProperties := ds.UserProperties.set key { Value := value } }
      (none, { m with Datasets := m.Datasets.set name ds })

/-- Go `(*MockClient).DatasetExpand` (lines 136-146). -/
def MockClient.DatasetExpand (m : MockClient) (name : String) (newSize : Int) :
    Option MockError × MockClient :=
  match m.InjectError with
  | some err => (some err, m)
  | none =>
    match m.Datasets.get? name with
    | none => (some (.APIError (-1) "dataset not found"), m)
    | some ds =>
      let ds := { ds with Volsize := { Parsed := float64 newSize } }
      (none, { m with Datasets := m.Datasets.set name ds })

/-- Go `(*MockClient).SnapshotCreate` (lines 153-166). -/
def MockClient.SnapshotCreate (m : MockClient) (dataset name : String) :
    Except MockError Snapshot × MockClient :=
  match m.InjectError with
  | some err => (.error err, m)
  | none =>
    let id := dataset ++ "@" ++ name
    let snap : Snapshot :=
      { ID := id, Name := name, Dataset := dataset, UserProperties := GoMap.empty }
    (.ok snap, { m with Snapshots := m.Snapshots.set id snap })

/-- Go `(*MockClient).SnapshotDelete` (lines 168-174). -/
def MockClient.SnapshotDelete (m : MockClient) (snapshotID : String)
    (_defer _recursive : Bool) : Option MockError × MockClient :=
  match m.InjectError with
  | some err => (some err, m)
  | none => (none, { m with Snapshots := m.Snapshots.delete snapshotID })

/-- Go `(*MockClient).SnapshotGet` (lines 176-184); the mock is not written. -/
def MockClient.SnapshotGet (m : MockClient) (snapshotID : String) : Except MockError Snapshot :=
  match m.InjectError with
  | some err => .error err
  | none =>
    match m.Snapshots.get? snapshotID with
    | some snap => .ok snap
    | none => .error (.APIError (-1) "snapshot not found")

/-- Go `(*MockClient).SnapshotSetUserProperty` (lines 204-214). -/
def MockClient.SnapshotSetUserProperty (m : MockClient) (snapshotID key value : String) :
    Option MockError × MockClient :=
  match m.InjectError with
  | some err => (some err, m)
  | none =>
    match m.Snapshots.get? snapshotID with
    | none => (some (.APIError (-1) "snapshot not found"), m)
    | some snap =>
      let snap := { snap with UserProperties := snap.UserProperties.set key { Value := value } }
      (none, { m with Snapshots := m.Snapshots.set snapshotID snap })

/-- Go `(*MockClient).SnapshotClone` (lines 216-227). -/
def MockClient.SnapshotClone (m : MockClient) (_snapshotID newDatasetName : String) :
    Option MockError × MockClient :=
  match m.InjectError with
  | some err => (some err, m)
  | none =>
    let ds : Dataset :=
      { ID := newDatasetName, Name := newDatasetName, UserProperties := GoMap.empty }
    (none, { m with Datasets := m.Datasets.set newDatasetName ds })

/-- Go `(*MockClient).NFSShareCreate` (lines 234-245). -/
def MockClient.NFSShareCreate (m : MockClient) (params : NFSShareCreateParams) :
    Except MockError NFSShare × MockClient :=
  match m.InjectError with
  | some err => (.error err, m)
  | none =>
    let id : Int := m.NFSShares.len + 1
    let share : NFSShare := { ID := id, Path := params.Path }
    (.ok share, { m with NFSShares := m.NFSShares.set id share })

/-- Go `(*MockClient).NFSShareDelete` (lines 247-250). -/
def MockClient.NFSShareDelete (m : MockClient) (id : Int) : Option MockError × MockClient :=
  (none, { m with NFSShares := m.NFSShares.delete id })

/-- Go `(*MockClient).ISCSIExtentCreate` (lines 305-310). -/
def MockClient.ISCSIExtentCreate (m : MockClient) (name diskPath _comment : String)
    (_blocksize : Int) (_rpm : String) : Except MockError ISCSIExtent × MockClient :=
  let id : Int := m.ISCSIExtents.len + 1
  let ext : ISCSIExtent := { ID := id, Name := name, Disk := diskPath }
  (.ok ext, { m with ISCSIExtents := m.ISCSIExtents.set id ext })

/-- Go `(*MockClient).ISCSIExtentDelete` (lines 311-314). -/
def MockClient.ISCSIExtentDelete (m : MockClient) (id : Int) (_remove _force : Bool) :
    Option MockError × MockClient :=
  (none, { m with ISCSIExtents := m.ISCSIExtents.delete id })

/-- Go `(*MockClient).ISCSITargetExtentCreate` (lines 329-334). -/
def MockClient.ISCSITargetExtentCreate (m : MockClient) (targetID extentID lunID : Int) :
    Except MockError ISCSITargetExtent × MockClient :=
  let id : Int := m.TargetExtents.len + 1
  let te : ISCSITargetExtent :=
    { ID := id, Target := targetID, Extent := extentID, LunID := lunID }
  (.ok te, { m with TargetExtents := m.TargetExtents.set id te })

/-- Go `(*MockClient).ISCSITargetExtentDelete` (lines 335-338). -/
def MockClient.ISCSITargetExtentDelete (m : MockClient) (id : Int) (_force : Bool) :
    Option MockError × MockClient :=
  (none, { m with TargetExtents := m.TargetExtents.delete id })

/-- Go `(*MockClient).NVMeoFSubsystemCreate` (lines 352-357). -/
def MockClient.NVMeoFSubsystemCreate (m : MockClient) (nqn _serial : String)
    (_allowAnyHost : Bool) (_hosts : List String) :
    Except MockError NVMeoFSubsystem × MockClient :=
  let id : Int := m.NVMeSubsystems.len + 1
  let sub : NVMeoFSubsystem := { ID := id, NQN := nqn }
  (.ok sub, { m with NVMeSubsystems := m.NVMeSubsystems.set id sub })

/-- Go `(*MockClient).NVMeoFSubsystemDelete` (lines 358-361). -/
def MockClient.NVMeoFSubsystemDelete (m : MockClient) (id : Int) :
    Option MockError × MockClient :=
  (none, { m with NVMeSubsystems := m.NVMeSubsystems.delete id })

/-- Go `(*MockClient).NVMeoFNamespaceCreate` (lines 376-381). -/
def MockClient.NVMeoFNamespaceCreate (m : MockClient) (subsystemID : Int)
    (devicePath : String) : Except MockError NVMeoFNamespace × MockClient :=
  let id : Int := m.NVMeNamespaces.len + 1
  let ns : NVMeoFNamespace := { ID := id, Subsystem := subsystemID, DevicePath := devicePath }
  (.ok ns, { m with NVMeNamespaces := m.NVMeNamespaces.set id ns })

/-- Go `(*MockClient).NVMeoFNamespaceDelete` (lines 382-385). -/
def MockClient.NVMeoFNamespaceDelete (m : MockClient) (id : Int) :
    Option MockError × MockClient :=
  (none, { m with NVMeNamespaces := m.NVMeNamespaces.delete id })

/-- One call of a method of the mock that writes one of its fields, or an assignment to
`InjectError`; the methods left out only read. -/
inductive MockOp where
  | inject (err : Option MockError)
  | datasetCreate (params : DatasetCreateParams)
  | datasetDelete (name : String) (recursive force : Bool)
  | datasetUpdate (name : String) (params : DatasetUpdateParams)
  | datasetSetUserProperty (name key value : String)
  | datasetExpand (name : String) (newSize : Int)
  | snapshotCreate (dataset name : String)
  | snapshotDelete (snapshotID : String) (defer_ recursive : Bool)
  | snapshotSetUserProperty (snapshotID key value : String)
  | snapshotClone (snapshotID newDatasetName : String)
  | nfsShareCreate (params : NFSShareCreateParams)
  | targetCreate (name alias_ mode : String) (groups : List ISCSITargetGroup)
  | targetDelete (id : Int) (force : Bool)
  | nfsShareDelete (id : Int)
  | extentCreate (name diskPath comment : String) (blocksize : Int) (rpm : String)
  | extentDelete (id : Int) (remove force : Bool)
  | targetExtentCreate (targetID extentID lunID : Int)
  | targetExtentDelete (id : Int) (force : Bool)
  | subsystemCreate (nqn serial : String) (allowAnyHost : Bool) (hosts : List String)
  | subsystemDelete (id : Int)
  | namespaceCreate (subsystemID : Int) (devicePath : String)
  | namespaceDelete (id : Int)

/-- The mock after one operation. -/
def MockClient.perform (m : MockClient) : MockOp → MockClient
  | .inject err => { m with InjectError := err }
  | .datasetCreate params => (m.DatasetCreate params).2
  | .datasetDelete name recursive force => (m.DatasetDelete name recursive force).2
  | .datasetUpdate name params => (m.DatasetUpdate name params).2
  | .datasetSetUserProperty name key value => (m.DatasetSetUserProperty name key value).2
  | .datasetExpand name newSize => (m.DatasetExpand name newSize).2
  | .snapshotCreate dataset name => (m.SnapshotCreate dataset name).2
  | .snapshotDelete snapshotID defer_ recursive =>
    (m.SnapshotDelete snapshotID defer_ recursive).2
  | .snapshotSetUserProperty snapshotID key value =>
    (m.SnapshotSetUserProperty snapshotID key value).2
  | .snapshotClone snapshotID newDatasetName => (m.SnapshotClone snapshotID newDatasetName).2
  | .nfsShareCreate params => (m.NFSShareCreate params).2
  | .targetCreate name alias_ mode groups => (m.ISCSITargetCreate name alias_ mode groups).2
  | .targetDelete id force => (m.ISCSITargetDelete id force).2
  | .nfsShareDelete id => (m.NFSShareDelete id).2
  | .extentCreate name diskPath comment blocksize rpm =>
    (m.ISCSIExtentCreate name diskPath comment blocksize rpm).2
  | .extentDelete id remove force => (m.ISCSIExtentDelete id remove force).2
  | .targetExtentCreate targetID extentID lunID =>
    (m.ISCSITargetExtentCreate targetID extentID lunID).2
  | .targetExtentDelete id force => (m.ISCSITargetExtentDelete id force).2
  | .subsystemCreate nqn serial allowAnyHost hosts =>
    (m.NVMeoFSubsystemCreate nqn serial allowAnyHost hosts).2
  | .subsystemDelete id => (m.NVMeoFSubsystemDelete id).2
  | .namespaceCreate subsystemID devicePath =>
    (m.NVMeoFNamespaceCreate subsystemID devicePath).2
  | .namespaceDelete id => (m.NVMeoFNamespaceDelete id).2

/-- The mock after a sequence of operations on a new mock. -/
def MockClient.afterOps (ops : List MockOp) : MockClient :=
  ops.foldl MockClient.perform NewMockClient

/-- The mock `oneVolumeMock` with an injected error. -/
def failingMock : MockClient :=
  MockClient.afterOps
    [.datasetCreate { Name := "tank/a", Type_ := "VOLUME", Volsize := 1073741824 },
     .inject (some (.Errorf "connection refused"))]

/-! ## Lemmas on Go maps -/

namespace GoMap

variable {κ ν : Type} [DecidableEq κ]

theorem get?_empty (k : κ) : (GoMap.empty : GoMap κ ν).get? k = none := rfl

theorem get?_set_self (m : GoMap κ ν) (k : κ) (v : ν) : (m.set k v).get? k = some v := by
  induction m with
  | nil => simp [set, get?]
  | cons hd tl ih =>
    obtain ⟨k', v'⟩ := hd
    by_cases h : k' = k
    · simp [set, get?, h]
    · simp [set, get?, h, ih]

theorem get?_set_ne (m : GoMap κ ν) (k j : κ) (v : ν) (h : k ≠ j) :
    (m.set k v).get? j = m.get? j := by
  induction m with
  | nil => simp [set, get?, h]
  | cons hd tl ih =>
    obtain ⟨k', v'⟩ := hd
    by_cases hk : k' = k
    · subst hk
      simp [set, get?, h]
    · by_cases hj : k' = j
      · subst hj
        simp [set, get?, hk]
      · simp [set, get?, hk, hj, ih]

theorem getD_set_self (m : GoMap κ ν) (k : κ) (v z : ν) : (m.set k v).getD k z = v := by
  simp [getD, get?_set_self]

theorem getD_set_ne (m : GoMap κ ν) (k j : κ) (v z : ν) (h : k ≠ j) :
    (m.set k v).getD j z = m.getD j z := by
  simp [getD, get?_set_ne m k j v h]

theorem getD_empty (k : κ) (z : ν) : (GoMap.empty : GoMap κ ν).getD k z = z := rfl

theorem getD_incr_self (m : GoMap κ Nat) (k : κ) : (m.incr k).getD k 0 = m.getD k 0 + 1 := by
  simp [incr, getD_set_self]

theorem getD_incr_ne (m : GoMap κ Nat) (k j : κ) (h : k ≠ j) :
    (m.incr k).getD j 0 = m.getD j 0 := by
  simp [incr, getD_set_ne m k j _ 0 h]

end GoMap

/-! ## Lemmas on the association index -/

theorem assocStep_targetsWithExtents (extentMap : GoMap Int ISCSIExtent) (ix : AssocIndex)
    (a : ISCSITargetExtent) :
    (auditISCSI.assocStep extentMap ix a).targetsWithExtents =
      ix.targetsWithExtents.set a.Target true := by
  unfold auditISCSI.assocStep
  cases extentMap.get? a.Extent <;> rfl

theorem assocStep_extentsWithTargets (extentMap : GoMap Int ISCSIExtent) (ix : AssocIndex)
    (a : ISCSITargetExtent) :
    (auditISCSI.assocStep extentMap ix a).extentsWithTargets =
      ix.extentsWithTargets.set a.Extent true := by
  unfold auditISCSI.assocStep
  cases extentMap.get? a.Extent <;> rfl

theorem foldl_assocStep_targetsWithExtents (extentMap : GoMap Int ISCSIExtent)
    (associations : List ISCSITargetExtent) (ix : AssocIndex) (k : Int) :
    ((associations.foldl (auditISCSI.assocStep extentMap) ix).targetsWithExtents.getD k false
        = true) ↔
      (ix.targetsWithExtents.getD k false = true ∨ ∃ a ∈ associations, a.Target = k) := by
  induction associations generalizing ix with
  | nil => simp
  | cons a rest ih =>
    rw [List.foldl_cons, ih, assocStep_targetsWithExtents]
    by_cases h : a.Target = k
    · subst h
      simp [GoMap.getD_set_self]
    · rw [GoMap.getD_set_ne _ _ _ _ _ h]
      simp [h]

theorem foldl_assocStep_extentsWithTargets (extentMap : GoMap Int ISCSIExtent)
    (associations : List ISCSITargetExtent) (ix : AssocIndex) (k : Int) :
    ((associations.foldl (auditISCSI.assocStep extentMap) ix).extentsWithTargets.getD k false
        = true) ↔
      (ix.extentsWithTargets.getD k false = true ∨ ∃ a ∈ associations, a.Extent = k) := by
  induction associations generalizing ix with
  | nil => simp
  | cons a rest ih =>
    rw [List.foldl_cons, ih, assocStep_extentsWithTargets]
    by_cases h : a.Extent = k
    · subst h
      simp [GoMap.getD_set_self]
    · rw [GoMap.getD_set_ne _ _ _ _ _ h]
      simp [h]

/-- After the association loop, `targetsWithExtents[k]` is true exactly for the ids that
some association names as its target. -/
theorem targetsWithExtents_iff (extentMap : GoMap Int ISCSIExtent)
    (associations : List ISCSITargetExtent) (k : Int) :
    ((auditISCSI.indexAssociations extentMap associations).targetsWithExtents.getD k false
        = true) ↔ ∃ a ∈ associations, a.Target = k := by
  unfold auditISCSI.indexAssociations
  rw [foldl_assocStep_targetsWithExtents]
  simp [GoMap.getD_empty]

/-- After the association loop, `extentsWithTargets[k]` is true exactly for the ids that
some association names as its extent. -/
theorem extentsWithTargets_iff (extentMap : GoMap Int ISCSIExtent)
    (associations : List ISCSITargetExtent) (k : Int) :
    ((auditISCSI.indexAssociations extentMap associations).extentsWithTargets.getD k false
        = true) ↔ ∃ a ∈ associations, a.Extent = k := by
  unfold auditISCSI.indexAssociations
  rw [foldl_assocStep_extentsWithTargets]
  simp [GoMap.getD_empty]

/-! ## The four classification loops in closed form -/

section Loops

variable {σ : Type} (client : Client σ) (s : σ) (parentDataset : String)

theorem foldl_targetStep (twe : GoMap Int Bool) (targets : List ISCSITarget)
    (r : ISCSIAuditResult) :
    targets.foldl (auditISCSI.targetStep client s parentDataset twe) r =
      { r with
        TargetsWithoutExtents := r.TargetsWithoutExtents ++
          (targets.filter (fun t => !(twe.getD t.ID false))).map
            (auditISCSI.targetInfo client s parentDataset)
        OrphanedTargetsWithDataset := r.OrphanedTargetsWithDataset ++
          ((targets.filter (fun t => !(twe.getD t.ID false))).map
            (auditISCSI.targetInfo client s parentDataset)).filter (fun i => i.HasDataset)
        OrphanedTargetsWithoutDataset := r.OrphanedTargetsWithoutDataset ++
          ((targets.filter (fun t => !(twe.getD t.ID false))).map
            (auditISCSI.targetInfo client s parentDataset)).filter (fun i => !i.HasDataset) } := by
  induction targets generalizing r with
  | nil => simp
  | cons t rest ih =>
    rw [List.foldl_cons, ih]
    unfold auditISCSI.targetStep
    by_cases h : twe.getD t.ID false = true
    · simp [h]
    · by_cases hd : (auditISCSI.targetInfo client s parentDataset t).HasDataset = true
      · simp [h, hd, List.filter_cons]
      · simp [h, hd, List.filter_cons]

theorem foldl_extentStep (ewt : GoMap Int Bool) (extents : List ISCSIExtent)
    (r : ISCSIAuditResult) :
    extents.foldl (auditISCSI.extentStep ewt) r =
      { r with
        ExtentsWithoutTargets := r.ExtentsWithoutTargets ++
          (extents.filter (fun e => !(ewt.getD e.ID false))).map auditISCSI.extentInfo } := by
  induction extents generalizing r with
  | nil => simp
  | cons e rest ih =>
    rw [List.foldl_cons, ih]
    unfold auditISCSI.extentStep
    by_cases h : ewt.getD e.ID false = true
    · simp [h]
    · simp [h, List.filter_cons]

theorem foldl_connectionStep (sessions : GoMap Int Nat) (ix : AssocIndex)
    (targets : List ISCSITarget) (r : ISCSIAuditResult) :
    targets.foldl (auditISCSI.connectionStep sessions ix) r =
      { r with
        TargetsWithoutConnection := r.TargetsWithoutConnection ++
          (targets.filter (fun t => decide (sessions.getD t.ID 0 = 0))).map
            (fun t => { auditISCSI.connectionInfo sessions ix t with PossibleOrphaned := true }) } := by
  induction targets generalizing r with
  | nil => simp
  | cons t rest ih =>
    rw [List.foldl_cons, ih]
    unfold auditISCSI.connectionStep
    by_cases h : sessions.getD t.ID 0 = 0
    · simp [h, List.filter_cons]
    · simp [h, List.filter_cons]

theorem foldl_zvolStep (extents : List ISCSIExtent) (r : ISCSIAuditResult) :
    extents.foldl (auditISCSI.zvolStep client s) r =
      { r with
        OrphanedExtents := r.OrphanedExtents ++
          (extents.filter (fun e => decide (e.Type_ = "DISK" ∧ hasPrefix e.Disk "zvol/" = true ∧
            checkZvolExists client s (trimPrefix e.Disk "zvol/") = (false, none)))).map
              auditISCSI.extentInfo } := by
  induction extents generalizing r with
  | nil => simp
  | cons e rest ih =>
    rw [List.foldl_cons, ih]
    unfold auditISCSI.zvolStep
    by_cases h : e.Type_ = "DISK" ∧ hasPrefix e.Disk "zvol/" = true
    · rcases hp : checkZvolExists client s (trimPrefix e.Disk "zvol/") with ⟨b, err⟩
      cases err with
      | some msg => simp [h, hp, List.filter_cons]
      | none =>
        cases b with
        | true => simp [h, hp, List.filter_cons]
        | false => simp [h, hp, List.filter_cons]
    · have h2 : ¬ (e.Type_ = "DISK" ∧ hasPrefix e.Disk "zvol/" = true ∧
          checkZvolExists client s (trimPrefix e.Disk "zvol/") = (false, none)) := by
        intro hc
        exact h ⟨hc.1, hc.2.1⟩
      simp [h, h2, List.filter_cons]

end Loops

/-! ## The audit in closed form -/

/-- When the three primary fetches succeed the audit returns, and its six lists are the
filtered fetch lists. -/
theorem auditISCSI_eq {σ : Type} (client : Client σ) (s : σ) (parentDataset : String)
    (targets : List ISCSITarget) (extents : List ISCSIExtent)
    (associations : List ISCSITargetExtent)
    (hT : getAllTargets client s = .ok targets)
    (hE : getAllExtents client s = .ok extents)
    (hA : getAllTargetExtents client s = .ok associations) :
    auditISCSI client s parentDataset = .ok
      { TargetsWithoutExtents :=
          (targets.filter (fun t =>
            !((auditISCSI.indexAssociations (auditISCSI.indexExtents extents)
                associations).targetsWithExtents.getD t.ID false))).map
            (auditISCSI.targetInfo client s parentDataset)
        ExtentsWithoutTargets :=
          (extents.filter (fun e =>
            !((auditISCSI.indexAssociations (auditISCSI.indexExtents extents)
                associations).extentsWithTargets.getD e.ID false))).map auditISCSI.extentInfo
        TargetsWithoutConnection :=
          (targets.filter (fun t => decide
            ((auditISCSI.sessions client s (auditISCSI.indexTargets targets).2).getD t.ID 0
              = 0))).map
            (fun t =>
              { auditISCSI.connectionInfo
                  (auditISCSI.sessions client s (auditISCSI.indexTargets targets).2)
                  (auditISCSI.indexAssociations (auditISCSI.indexExtents extents) associations)
                  t with PossibleOrphaned := true })
        OrphanedExtents :=
          (extents.filter (fun e => decide (e.Type_ = "DISK" ∧ hasPrefix e.Disk "zvol/" = true ∧
            checkZvolExists client s (trimPrefix e.Disk "zvol/") = (false, none)))).map
              auditISCSI.extentInfo
        OrphanedTargetsWithDataset :=
          ((targets.filter (fun t =>
            !((auditISCSI.indexAssociations (auditISCSI.indexExtents extents)
                associations).targetsWithExtents.getD t.ID false))).map
            (auditISCSI.targetInfo client s parentDataset)).filter (fun i => i.HasDataset)
        OrphanedTargetsWithoutDataset :=
          ((targets.filter (fun t =>
            !((auditISCSI.indexAssociations (auditISCSI.indexExtents extents)
                associations).targetsWithExtents.getD t.ID false))).map
            (auditISCSI.targetInfo client s parentDataset)).filter (fun i => !i.HasDataset) } := by
  unfold auditISCSI
  rw [hT, hE, hA]
  simp only [foldl_zvolStep, foldl_connectionStep, foldl_extentStep, foldl_targetStep]
  simp

section Fields

variable {σ : Type} {client : Client σ} {s : σ} {parentDataset : String}
  {targets : List ISCSITarget} {extents : List ISCSIExtent}
  {associations : List ISCSITargetExtent} {result : ISCSIAuditResult}

/-- Step 5 lists the targets that no association names, in fetch order. -/
theorem audit_targetsWithoutExtents
    (hT : getAllTargets client s = .ok targets)
    (hE : getAllExtents client s = .ok extents)
    (hA : getAllTargetExtents client s = .ok associations)
    (hR : auditISCSI client s parentDataset = .ok result) :
    result.TargetsWithoutExtents =
      (targets.filter (fun t => decide (¬ ∃ a ∈ associations, a.Target = t.ID))).map
        (auditISCSI.targetInfo client s parentDataset) := by
  rw [auditISCSI_eq client s parentDataset targets extents associations hT hE hA] at hR
  injection hR with hR
  subst hR
  simp only
  congr 1
  apply List.filter_congr
  intro t _
  have h := targetsWithExtents_iff (auditISCSI.indexExtents extents) associations t.ID
  by_cases hx : ∃ a ∈ associations, a.Target = t.ID
  · simp [hx, h.mpr hx]
  · have hn : ¬ ((auditISCSI.indexAssociations (auditISCSI.indexExtents extents)
        associations).targetsWithExtents.getD t.ID false = true) := fun hc => hx (h.mp hc)
    simp [hx, hn]

/-- The with-data list is the part of the no-extent list whose probe flag is set. -/
theorem audit_withDataset
    (hT : getAllTargets client s = .ok targets)
    (hE : getAllExtents client s = .ok extents)
    (hA : getAllTargetExtents client s = .ok associations)
    (hR : auditISCSI client s parentDataset = .ok result) :
    result.OrphanedTargetsWithDataset =
      result.TargetsWithoutExtents.filter (fun i => i.HasDataset) := by
  rw [auditISCSI_eq client s parentDataset targets extents associations hT hE hA] at hR
  injection hR with hR
  subst hR
  rfl

/-- The without-data list is the part of the no-extent list whose probe flag is not set. -/
theorem audit_withoutDataset
    (hT : getAllTargets client s = .ok targets)
    (hE : getAllExtents client s = .ok extents)
    (hA : getAllTargetExtents client s = .ok associations)
    (hR : auditISCSI client s parentDataset = .ok result) :
    result.OrphanedTargetsWithoutDataset =
      result.TargetsWithoutExtents.filter (fun i => !i.HasDataset) := by
  rw [auditISCSI_eq client s parentDataset targets extents associations hT hE hA] at hR
  injection hR with hR
  subst hR
  rfl

/-- Step 6 lists the extents that no association names, in fetch order. -/
theorem audit_extentsWithoutTargets
    (hT : getAllTargets client s = .ok targets)
    (hE : getAllExtents client s = .ok extents)
    (hA : getAllTargetExtents client s = .ok associations)
    (hR : auditISCSI client s parentDataset = .ok result) :
    result.ExtentsWithoutTargets =
      (extents.filter (fun e => decide (¬ ∃ a ∈ associations, a.Extent = e.ID))).map
        auditISCSI.extentInfo := by
  rw [auditISCSI_eq client s parentDataset targets extents associations hT hE hA] at hR
  injection hR with hR
  subst hR
  simp only
  congr 1
  apply List.filter_congr
  intro e _
  have h := extentsWithTargets_iff (auditISCSI.indexExtents extents) associations e.ID
  by_cases hx : ∃ a ∈ associations, a.Extent = e.ID
  · simp [hx, h.mpr hx]
  · have hn : ¬ ((auditISCSI.indexAssociations (auditISCSI.indexExtents extents)
        associations).extentsWithTargets.getD e.ID false = true) := fun hc => hx (h.mp hc)
    simp [hx, hn]

/-- Step 7 lists the targets whose session count reads zero, in fetch order. -/
theorem audit_targetsWithoutConnection
    (hT : getAllTargets client s = .ok targets)
    (hE : getAllExtents client s = .ok extents)
    (hA : getAllTargetExtents client s = .ok associations)
    (hR : auditISCSI client s parentDataset = .ok result) :
    result.TargetsWithoutConnection =
      (targets.filter (fun t => decide
        ((auditISCSI.sessions client s (auditISCSI.indexTargets targets).2).getD t.ID 0
          = 0))).map
        (fun t =>
          { auditISCSI.connectionInfo
              (auditISCSI.sessions client s (auditISCSI.indexTargets targets).2)
              (auditISCSI.indexAssociations (auditISCSI.indexExtents extents) associations)
              t with PossibleOrphaned := true }) := by
  rw [auditISCSI_eq client s parentDataset targets extents associations hT hE hA] at hR
  injection hR with hR
  subst hR
  rfl

/-- Step 8 lists the disk extents under `zvol/` whose probe answered "absent", in fetch
order. -/
theorem audit_orphanedExtents
    (hT : getAllTargets client s = .ok targets)
    (hE : getAllExtents client s = .ok extents)
    (hA : getAllTargetExtents client s = .ok associations)
    (hR : auditISCSI client s parentDataset = .ok result) :
    result.OrphanedExtents =
      (extents.filter (fun e => decide (e.Type_ = "DISK" ∧ hasPrefix e.Disk "zvol/" = true ∧
        checkZvolExists client s (trimPrefix e.Disk "zvol/") = (false, none)))).map
          auditISCSI.extentInfo := by
  rw [auditISCSI_eq client s parentDataset targets extents associations hT hE hA] at hR
  injection hR with hR
  subst hR
  rfl

end Fields

/-! ## Concrete runs -/

theorem demo_targets : getAllTargets demoClient () = .ok demoTargets := rfl

theorem demo_extents : getAllExtents demoClient () = .ok demoExtents := rfl

theorem demo_associations : getAllTargetExtents demoClient () = .ok demoAssociations := rfl

theorem demo_audit : auditISCSI demoClient () "tank/k8s" = .ok demoResult := rfl

/-! ## Targets without extents -/

theorem targetInfo_ID {σ : Type} (client : Client σ) (s : σ) (parentDataset : String)
    (t : ISCSITarget) : (auditISCSI.targetInfo client s parentDataset t).ID = t.ID := rfl

theorem targetInfo_Name {σ : Type} (client : Client σ) (s : σ) (parentDataset : String)
    (t : ISCSITarget) : (auditISCSI.targetInfo client s parentDataset t).Name = t.Name := rfl

/-- The probe flag of an entry depends on the target only through its name. -/
theorem targetInfo_HasDataset_of_name {σ : Type} (client : Client σ) (s : σ)
    (parentDataset : String) (t u : ISCSITarget) (h : t.Name = u.Name) :
    (auditISCSI.targetInfo client s parentDataset t).HasDataset =
      (auditISCSI.targetInfo client s parentDataset u).HasDataset := by
  unfold auditISCSI.targetInfo
  rw [h]

/-- Membership in the no-extent list: an entry built from a fetched target that no
association names. -/
theorem mem_targetsWithoutExtents {σ : Type} {client : Client σ} {s : σ}
    {parentDataset : String} {targets : List ISCSITarget} {extents : List ISCSIExtent}
    {associations : List ISCSITargetExtent} {result : ISCSIAuditResult}
    (hT : getAllTargets client s = .ok targets)
    (hE : getAllExtents client s = .ok extents)
    (hA : getAllTargetExtents client s = .ok associations)
    (hR : auditISCSI client s parentDataset = .ok result) (x : TargetInfo) :
    x ∈ result.TargetsWithoutExtents ↔
      ∃ t ∈ targets, (¬ ∃ a ∈ associations, a.Target = t.ID) ∧
        auditISCSI.targetInfo client s parentDataset t = x := by
  rw [audit_targetsWithoutExtents hT hE hA hR]
  simp only [List.mem_map, List.mem_filter, decide_eq_true_eq]
  constructor
  · rintro ⟨t, ⟨ht, hn⟩, rfl⟩
    exact ⟨t, ht, hn, rfl⟩
  · rintro ⟨t, ht, hn, rfl⟩
    exact ⟨t, ⟨ht, hn⟩, rfl⟩

/-- A probe that returns an error returns `false` as its flag. -/
theorem checkDatasetExists_error_flag {σ : Type} (client : Client σ) (s : σ)
    (targetName parentDataset err : String)
    (h : (checkDatasetExists client s targetName parentDataset).2.2 = some err) :
    (checkDatasetExists client s targetName parentDataset).1 = false := by
  unfold checkDatasetExists at h ⊢
  simp only at h ⊢
  cases hc : client.Call s "pool.dataset.query"
      [idFilter (parentDataset ++ "/" ++ targetName), .obj []] with
  | error e => rfl
  | ok v =>
    rw [hc] at h
    cases v <;> simp at h

/-- What the audit does on a failed dataset probe, in general: a fetched target that no
association names and whose probe returns an error is listed in
`OrphanedTargetsWithoutDataset`. -/
theorem failed_probe_target_listed {σ : Type} (client : Client σ) (s : σ)
    (parentDataset : String) (targets : List ISCSITarget) (extents : List ISCSIExtent)
    (associations : List ISCSITargetExtent) (result : ISCSIAuditResult)
    (hT : getAllTargets client s = .ok targets)
    (hE : getAllExtents client s = .ok extents)
    (hA : getAllTargetExtents client s = .ok associations)
    (hR : auditISCSI client s parentDataset = .ok result)
    (t : ISCSITarget) (ht : t ∈ targets) (hno : ¬ ∃ a ∈ associations, a.Target = t.ID)
    (err : String) (hp : (checkDatasetExists client s t.Name parentDataset).2.2 = some err) :
    auditISCSI.targetInfo client s parentDataset t ∈ result.OrphanedTargetsWithoutDataset := by
  rw [audit_withoutDataset hT hE hA hR, List.mem_filter]
  refine ⟨(mem_targetsWithoutExtents hT hE hA hR _).mpr ⟨t, ht, hno, rfl⟩, ?_⟩
  have hflag : (auditISCSI.targetInfo client s parentDataset t).HasDataset = false :=
    checkDatasetExists_error_flag client s t.Name parentDataset err hp
  simp [hflag]

/-- C1, the failing run: the single target 1 `pvc-a` has no association and its dataset probe
fails with an error; the audit nevertheless lists it in `OrphanedTargetsWithoutDataset`, the
list that `main` hands to cleanup. -/
theorem C1_failed_probe_listed_without_dataset :
    checkDatasetExists (scripted onePvcA noItems noItems noItems (fun _ => .error "timeout") [])
        () "pvc-a" "tank/k8s" = (false, "tank/k8s/pvc-a", some "timeout") ∧
    auditISCSI (scripted onePvcA noItems noItems noItems (fun _ => .error "timeout") [])
        () "tank/k8s" = .ok
      { TargetsWithoutExtents :=
          [{ ID := 1, Name := "pvc-a", HasDataset := false, DatasetPath := "tank/k8s/pvc-a" }]
        TargetsWithoutConnection :=
          [{ Target := { ID := 1, Name := "pvc-a" }, PossibleOrphaned := true }]
        OrphanedTargetsWithoutDataset :=
          [{ ID := 1, Name := "pvc-a", HasDataset := false, DatasetPath := "tank/k8s/pvc-a" }] } :=
  ⟨rfl, rfl⟩

/-- C2: in a successful audit every fetched target is in exactly one of three classes.
Has-extent: an association names its id; then no entry of `TargetsWithoutExtents`, of
`OrphanedTargetsWithDataset` or of `OrphanedTargetsWithoutDataset` carries its id.
No-extent with dataset: no association names its id, its entry is in `TargetsWithoutExtents`
and in `OrphanedTargetsWithDataset` and not in `OrphanedTargetsWithoutDataset`.  No-extent
without dataset: no association names its id, its entry is in `TargetsWithoutExtents` and in
`OrphanedTargetsWithoutDataset` and not in `OrphanedTargetsWithDataset`.
`TargetsWithoutExtents` holds exactly the entries of the fetched targets that no association
names, in fetch order.  The two orphan lists are disjoint, each is the part of
`TargetsWithoutExtents` with the probe flag set resp. unset, so together they hold exactly
its entries; and when target ids are distinct no id occurs in both orphan lists. -/
theorem C2_target_partition {σ : Type} (client : Client σ) (s : σ) (parentDataset : String)
    (targets : List ISCSITarget) (extents : List ISCSIExtent)
    (associations : List ISCSITargetExtent) (result : ISCSIAuditResult)
    (hT : getAllTargets client s = .ok targets)
    (hE : getAllExtents client s = .ok extents)
    (hA : getAllTargetExtents client s = .ok associations)
    (hR : auditISCSI client s parentDataset = .ok result) :
    result.TargetsWithoutExtents =
      (targets.filter (fun t => decide (¬ ∃ a ∈ associations, a.Target = t.ID))).map
        (auditISCSI.targetInfo client s parentDataset) ∧
    (∀ t ∈ targets,
      ((∃ a ∈ associations, a.Target = t.ID) ∧
        (∀ x ∈ result.TargetsWithoutExtents, x.ID ≠ t.ID) ∧
        (∀ x ∈ result.OrphanedTargetsWithDataset, x.ID ≠ t.ID) ∧
        (∀ x ∈ result.OrphanedTargetsWithoutDataset, x.ID ≠ t.ID)) ∨
      ((¬ ∃ a ∈ associations, a.Target = t.ID) ∧
        auditISCSI.targetInfo client s parentDataset t ∈ result.TargetsWithoutExtents ∧
        auditISCSI.targetInfo client s parentDataset t ∈ result.OrphanedTargetsWithDataset ∧
        auditISCSI.targetInfo client s parentDataset t ∉ result.OrphanedTargetsWithoutDataset) ∨
      ((¬ ∃ a ∈ associations, a.Target = t.ID) ∧
        auditISCSI.targetInfo client s parentDataset t ∈ result.TargetsWithoutExtents ∧
        auditISCSI.targetInfo client s parentDataset t ∉ result.OrphanedTargetsWithDataset ∧
        auditISCSI.targetInfo client s parentDataset t ∈ result.OrphanedTargetsWithoutDataset)) ∧
    List.Disjoint result.OrphanedTargetsWithDataset result.OrphanedTargetsWithoutDataset ∧
    result.OrphanedTargetsWithDataset =
      result.TargetsWithoutExtents.filter (fun i => i.HasDataset) ∧
    result.OrphanedTargetsWithoutDataset =
      result.TargetsWithoutExtents.filter (fun i => !i.HasDataset) ∧
    (result.OrphanedTargetsWithDataset ++ result.OrphanedTargetsWithoutDataset).Perm
      result.TargetsWithoutExtents ∧
    ((targets.map (fun t => t.ID)).Nodup →
      ∀ x ∈ result.OrphanedTargetsWithDataset, ∀ y ∈ result.OrphanedTargetsWithoutDataset,
        x.ID ≠ y.ID) := by
  have hW := audit_withDataset hT hE hA hR
  have hO := audit_withoutDataset hT hE hA hR
  have hmem := mem_targetsWithoutExtents hT hE hA hR
  have memW : ∀ x, x ∈ result.OrphanedTargetsWithDataset ↔
      x ∈ result.TargetsWithoutExtents ∧ x.HasDataset = true := by
    intro x
    rw [hW, List.mem_filter]
  have memO : ∀ x, x ∈ result.OrphanedTargetsWithoutDataset ↔
      x ∈ result.TargetsWithoutExtents ∧ x.HasDataset = false := by
    intro x
    rw [hO, List.mem_filter]
    simp
  refine ⟨audit_targetsWithoutExtents hT hE hA hR, ?_, ?_, hW, hO, ?_, ?_⟩
  · intro t ht
    by_cases hx : ∃ a ∈ associations, a.Target = t.ID
    · have hno : ∀ x ∈ result.TargetsWithoutExtents, x.ID ≠ t.ID := by
        intro x hxm hid
        obtain ⟨u, _, hu, rfl⟩ := (hmem x).mp hxm
        rw [targetInfo_ID] at hid
        exact hu (hid ▸ hx)
      left
      refine ⟨hx, hno, ?_, ?_⟩
      · intro x hc
        exact hno x ((memW x).mp hc).1
      · intro x hc
        exact hno x ((memO x).mp hc).1
    · have hin : auditISCSI.targetInfo client s parentDataset t ∈
          result.TargetsWithoutExtents := (hmem _).mpr ⟨t, ht, hx, rfl⟩
      right
      cases hd : (auditISCSI.targetInfo client s parentDataset t).HasDataset with
      | true =>
        left
        refine ⟨hx, hin, (memW _).mpr ⟨hin, hd⟩, ?_⟩
        intro hc
        have := ((memO _).mp hc).2
        rw [hd] at this
        exact Bool.noConfusion this
      | false =>
        right
        refine ⟨hx, hin, ?_, (memO _).mpr ⟨hin, hd⟩⟩
        intro hc
        have := ((memW _).mp hc).2
        rw [hd] at this
        exact Bool.noConfusion this
  · intro x hx1 hx2
    have h1 := ((memW x).mp hx1).2
    have h2 := ((memO x).mp hx2).2
    rw [h1] at h2
    exact Bool.noConfusion h2
  · rw [hW, hO]
    exact List.filter_append_perm _ _
  · intro hnd x hx1 y hy1 hid
    obtain ⟨hxm, hxd⟩ := (memW x).mp hx1
    obtain ⟨hym, hyd⟩ := (memO y).mp hy1
    obtain ⟨t, ht, _, rfl⟩ := (hmem x).mp hxm
    obtain ⟨u, hu, _, rfl⟩ := (hmem y).mp hym
    rw [targetInfo_ID, targetInfo_ID] at hid
    have htu : t = u := List.inj_on_of_nodup_map hnd ht hu hid
    subst htu
    rw [hxd] at hyd
    exact Bool.noConfusion hyd

/-- C2 at the demo appliance: the four hypotheses hold there; the no-extent list holds the
entries of the targets 1 and 2, which no association names, and not of target 3; the orphan
lists it yields, `[1]` and `[2]`, are disjoint and make up the no-extent list. -/
theorem C2_target_partition_witness :
    getAllTargets demoClient () = .ok demoTargets ∧
    getAllExtents demoClient () = .ok demoExtents ∧
    getAllTargetExtents demoClient () = .ok demoAssociations ∧
    auditISCSI demoClient () "tank/k8s" = .ok demoResult ∧
    demoResult.TargetsWithoutExtents =
      (demoTargets.filter (fun t => decide (¬ ∃ a ∈ demoAssociations, a.Target = t.ID))).map
        (auditISCSI.targetInfo demoClient () "tank/k8s") ∧
    List.Disjoint demoResult.OrphanedTargetsWithDataset
      demoResult.OrphanedTargetsWithoutDataset ∧
    (demoResult.OrphanedTargetsWithDataset ++ demoResult.OrphanedTargetsWithoutDataset).Perm
      demoResult.TargetsWithoutExtents :=
  ⟨demo_targets, demo_extents, demo_associations, demo_audit,
    (C2_target_partition demoClient () "tank/k8s" demoTargets demoExtents demoAssociations
      demoResult demo_targets demo_extents demo_associations demo_audit).1,
    (C2_target_partition demoClient () "tank/k8s" demoTargets demoExtents demoAssociations
      demoResult demo_targets demo_extents demo_associations demo_audit).2.2.1,
    (C2_target_partition demoClient () "tank/k8s" demoTargets demoExtents demoAssociations
      demoResult demo_targets demo_extents demo_associations demo_audit).2.2.2.2.2.1⟩

/-- C3: a fetched target that no association names and whose dataset probe succeeds is
listed in `TargetsWithoutExtents`; when the probe reports the dataset present its entry is in
`OrphanedTargetsWithDataset` and not in `OrphanedTargetsWithoutDataset` (which has no entry
of that name at all), and when the probe reports it absent the entry is in
`OrphanedTargetsWithoutDataset` and not in `OrphanedTargetsWithDataset`. -/
theorem C3_probe_answer_decides_orphan_list {σ : Type} (client : Client σ) (s : σ)
    (parentDataset : String) (targets : List ISCSITarget) (extents : List ISCSIExtent)
    (associations : List ISCSITargetExtent) (result : ISCSIAuditResult)
    (hT : getAllTargets client s = .ok targets)
    (hE : getAllExtents client s = .ok extents)
    (hA : getAllTargetExtents client s = .ok associations)
    (hR : auditISCSI client s parentDataset = .ok result)
    (t : ISCSITarget) (ht : t ∈ targets) (hno : ¬ ∃ a ∈ associations, a.Target = t.ID)
    (present : Bool) (path : String)
    (hp : checkDatasetExists client s t.Name parentDataset = (present, path, none)) :
    ({ ID := t.ID, Name := t.Name, HasDataset := present, DatasetPath := path } : TargetInfo)
        ∈ result.TargetsWithoutExtents ∧
    (present = true →
      ({ ID := t.ID, Name := t.Name, HasDataset := present, DatasetPath := path } : TargetInfo)
          ∈ result.OrphanedTargetsWithDataset ∧
      ({ ID := t.ID, Name := t.Name, HasDataset := present, DatasetPath := path } : TargetInfo)
          ∉ result.OrphanedTargetsWithoutDataset ∧
      ∀ y ∈ result.OrphanedTargetsWithoutDataset, y.Name ≠ t.Name) ∧
    (present = false →
      ({ ID := t.ID, Name := t.Name, HasDataset := present, DatasetPath := path } : TargetInfo)
          ∈ result.OrphanedTargetsWithoutDataset ∧
      ({ ID := t.ID, Name := t.Name, HasDataset := present, DatasetPath := path } : TargetInfo)
          ∉ result.OrphanedTargetsWithDataset ∧
      ∀ y ∈ result.OrphanedTargetsWithDataset, y.Name ≠ t.Name) := by
  have hW := audit_withDataset hT hE hA hR
  have hO := audit_withoutDataset hT hE hA hR
  have hmem := mem_targetsWithoutExtents hT hE hA hR
  have hinfo : auditISCSI.targetInfo client s parentDataset t =
      { ID := t.ID, Name := t.Name, HasDataset := present, DatasetPath := path } := by
    unfold auditISCSI.targetInfo
    rw [hp]
  have hflag : (auditISCSI.targetInfo client s parentDataset t).HasDataset = present := by
    rw [hinfo]
  have hin : ({ ID := t.ID, Name := t.Name, HasDataset := present, DatasetPath := path } :
      TargetInfo) ∈ result.TargetsWithoutExtents := (hmem _).mpr ⟨t, ht, hno, hinfo⟩
  have other : ∀ y ∈ result.TargetsWithoutExtents, y.Name = t.Name →
      y.HasDataset = present := by
    intro y hy hname
    obtain ⟨u, _, _, rfl⟩ := (hmem y).mp hy
    rw [targetInfo_Name] at hname
    rw [targetInfo_HasDataset_of_name client s parentDataset u t hname, hflag]
  refine ⟨hin, ?_, ?_⟩
  · intro hpres
    subst hpres
    have hnone : ∀ y ∈ result.OrphanedTargetsWithoutDataset, y.Name ≠ t.Name := by
      intro y hy hname
      rw [hO, List.mem_filter] at hy
      have h1 := other y hy.1 hname
      have h2 := hy.2
      rw [h1] at h2
      simp at h2
    refine ⟨?_, ?_, hnone⟩
    · rw [hW, List.mem_filter]
      exact ⟨hin, rfl⟩
    · intro hc
      exact hnone _ hc rfl
  · intro hpres
    subst hpres
    have hnone : ∀ y ∈ result.OrphanedTargetsWithDataset, y.Name ≠ t.Name := by
      intro y hy hname
      rw [hW, List.mem_filter] at hy
      have h1 := other y hy.1 hname
      have h2 := hy.2
      rw [h1] at h2
      simp at h2
    refine ⟨?_, ?_, hnone⟩
    · rw [hO, List.mem_filter]
      exact ⟨hin, rfl⟩
    · intro hc
      exact hnone _ hc rfl

/-- C3 on the example of the specification: the single target 1 `pvc-a`, no extents, no
associations, probe answer "absent".  The audit gives targets-without-extents `[1]`,
without-data `[1]` and with-data `[]`. -/
theorem C3_probe_answer_decides_orphan_list_witness :
    auditISCSI (scripted onePvcA noItems noItems noItems (fun _ => .ok (.list [])) [])
        () "tank/k8s" = .ok
      { TargetsWithoutExtents :=
          [{ ID := 1, Name := "pvc-a", HasDataset := false, DatasetPath := "tank/k8s/pvc-a" }]
        TargetsWithoutConnection :=
          [{ Target := { ID := 1, Name := "pvc-a" }, PossibleOrphaned := true }]
        OrphanedTargetsWithDataset := []
        OrphanedTargetsWithoutDataset :=
          [{ ID := 1, Name := "pvc-a", HasDataset := false, DatasetPath := "tank/k8s/pvc-a" }] } ∧
    checkDatasetExists (scripted onePvcA noItems noItems noItems (fun _ => .ok (.list [])) [])
        () "pvc-a" "tank/k8s" = (false, "tank/k8s/pvc-a", none) ∧
    (({ ID := 1, Name := "pvc-a", HasDataset := false, DatasetPath := "tank/k8s/pvc-a" } :
        TargetInfo) ∈
      [({ ID := 1, Name := "pvc-a", HasDataset := false, DatasetPath := "tank/k8s/pvc-a" } :
        TargetInfo)]) :=
  ⟨rfl, rfl,
    ((C3_probe_answer_decides_orphan_list
      (scripted onePvcA noItems noItems noItems (fun _ => .ok (.list [])) []) () "tank/k8s"
      [{ ID := 1, Name := "pvc-a" }] [] []
      { TargetsWithoutExtents :=
          [{ ID := 1, Name := "pvc-a", HasDataset := false, DatasetPath := "tank/k8s/pvc-a" }]
        TargetsWithoutConnection :=
          [{ Target := { ID := 1, Name := "pvc-a" }, PossibleOrphaned := true }]
        OrphanedTargetsWithDataset := []
        OrphanedTargetsWithoutDataset :=
          [{ ID := 1, Name := "pvc-a", HasDataset := false, DatasetPath := "tank/k8s/pvc-a" }] }
      rfl rfl rfl rfl { ID := 1, Name := "pvc-a" } (List.mem_singleton.mpr rfl)
      (by simp) false "tank/k8s/pvc-a" rfl).2.2 rfl).1⟩

/-! ## Cleanup -/

section Cleanup

variable {σ : Type} (client : Client σ)

/-- The number of logged calls that returned an error. -/
theorem failures_append (log : List Event) (e : Event) :
    ((log ++ [e]).filter (fun e => e.err.isSome)).length =
      (log.filter (fun e => e.err.isSome)).length + (if e.err.isSome then 1 else 0) := by
  rw [List.filter_append, List.length_append]
  cases h : e.err.isSome <;> simp [List.filter_cons, h]

theorem cleanup_step_live (n : Nat) (s : σ) (t : TargetInfo) :
    cleanupOrphanedTargets.step client false (n, s) t =
      (if (client.ISCSITargetDelete s t.ID true).1.isSome then n else n + 1,
        (client.ISCSITargetDelete s t.ID true).2) := by
  unfold cleanupOrphanedTargets.step
  rcases h : client.ISCSITargetDelete s t.ID true with ⟨err, s'⟩
  cases err <;> simp

theorem cleanup_step_recording (n : Nat) (s : σ) (log : List Event) (t : TargetInfo) :
    cleanupOrphanedTargets.step client.recording false (n, (s, log)) t =
      ((cleanupOrphanedTargets.step client false (n, s) t).1,
        ((cleanupOrphanedTargets.step client false (n, s) t).2,
          log ++ [{ call := .ISCSITargetDelete t.ID true,
                    err := (client.ISCSITargetDelete s t.ID true).1 }])) := by
  rw [cleanup_step_live, cleanup_step_live]
  rfl

/-- A dry run only counts: no client operation is reached, the state is returned as is. -/
theorem cleanup_dry_foldl (targets : List TargetInfo) (n : Nat) (s : σ) :
    targets.foldl (cleanupOrphanedTargets.step client true) (n, s) =
      (n + targets.length, s) := by
  induction targets generalizing n with
  | nil => rfl
  | cons t rest ih =>
    rw [List.foldl_cons]
    have hstep : cleanupOrphanedTargets.step client true (n, s) t = (n + 1, s) := rfl
    rw [hstep, ih, List.length_cons]
    congr 1
    omega

/-- Recording does not change what a live run computes, and the log grows by one
target-delete entry per input entry, in input order. -/
theorem cleanup_live_foldl (targets : List TargetInfo) (n : Nat) (s : σ) (log : List Event) :
    (targets.foldl (cleanupOrphanedTargets.step client.recording false) (n, (s, log))).1 =
        (targets.foldl (cleanupOrphanedTargets.step client false) (n, s)).1 ∧
    (targets.foldl (cleanupOrphanedTargets.step client.recording false) (n, (s, log))).2.1 =
        (targets.foldl (cleanupOrphanedTargets.step client false) (n, s)).2 ∧
    (targets.foldl (cleanupOrphanedTargets.step client.recording false) (n, (s, log))).2.2.map
        Event.call =
      log.map Event.call ++ targets.map (fun t => ClientCall.ISCSITargetDelete t.ID true) ∧
    (targets.foldl (cleanupOrphanedTargets.step client.recording false) (n, (s, log))).1 +
        ((targets.foldl (cleanupOrphanedTargets.step client.recording false)
          (n, (s, log))).2.2.filter (fun e => e.err.isSome)).length =
      n + (log.filter (fun e => e.err.isSome)).length + targets.length := by
  induction targets generalizing n s log with
  | nil => simp
  | cons t rest ih =>
    rw [List.foldl_cons, List.foldl_cons, cleanup_step_recording]
    obtain ⟨h1, h2, h3, h4⟩ := ih (cleanupOrphanedTargets.step client false (n, s) t).1
      (cleanupOrphanedTargets.step client false (n, s) t).2
      (log ++ [{ call := .ISCSITargetDelete t.ID true,
                 err := (client.ISCSITargetDelete s t.ID true).1 }])
    refine ⟨h1, h2, ?_, ?_⟩
    · rw [h3]
      simp
    · rw [h4, failures_append, cleanup_step_live]
      simp only [List.length_cons]
      cases (client.ISCSITargetDelete s t.ID true).1 <;> simp <;> omega

end Cleanup

/-- C4: with `dryRun = true`, on every list of targets, cleanup issues no delete call: run
against the recording client the call log stays as it was (empty), the remote state is
untouched, and the count it reports is the length of the input list. -/
theorem C4_dry_run_issues_no_delete {σ : Type} (client : Client σ) (s : σ)
    (targets : List TargetInfo) :
    cleanupOrphanedTargets client.recording (s, []) targets true = (targets.length, (s, [])) ∧
    cleanupOrphanedTargets client s targets true = (targets.length, s) := by
  unfold cleanupOrphanedTargets
  rw [cleanup_dry_foldl, cleanup_dry_foldl]
  simp

/-- C5: with `dryRun = false`, on every list of `N` targets and whatever the delete
operation answers, cleanup returns (it is a total function), the log of the run holds `N`
delete calls, and when `K` of them returned an error the reported count is `N - K`; the
count is the same with and without recording. -/
theorem C5_live_run_counts_successes {σ : Type} (client : Client σ) (s : σ)
    (targets : List TargetInfo) (K : Nat)
    (hK : ((cleanupOrphanedTargets client.recording (s, []) targets false).2.2.filter
      (fun e => e.err.isSome)).length = K) :
    (cleanupOrphanedTargets client.recording (s, []) targets false).2.2.length
      = targets.length ∧
    K ≤ targets.length ∧
    (cleanupOrphanedTargets client s targets false).1 = targets.length - K ∧
    (cleanupOrphanedTargets client.recording (s, []) targets false).1 = targets.length - K := by
  unfold cleanupOrphanedTargets at *
  obtain ⟨h1, _, h3, h4⟩ := cleanup_live_foldl client targets 0 s []
  have hlen := congrArg List.length h3
  simp only [List.length_map, List.map_nil, List.nil_append] at hlen
  rw [hK] at h4
  simp only [List.filter_nil, List.length_nil] at h4
  refine ⟨hlen, by omega, ?_, by omega⟩
  rw [← h1]
  omega

/-- C5 on the example of the specification: one target `{1, pvc-a}` whose delete succeeds
gives attempted = 1 and succeeded = 1; and with targets 1, 2, 3 of which the delete of 2
fails, 3 attempts and 2 successes. -/
theorem C5_live_run_counts_successes_witness :
    ((cleanupOrphanedTargets demoClient.recording ((), []) [{ ID := 1, Name := "pvc-a" }]
        false).2.2.length = 1 ∧
      0 ≤ 1 ∧
      (cleanupOrphanedTargets demoClient () [{ ID := 1, Name := "pvc-a" }] false).1 = 1 - 0 ∧
      (cleanupOrphanedTargets demoClient.recording ((), []) [{ ID := 1, Name := "pvc-a" }]
        false).1 = 1 - 0) ∧
    (cleanupOrphanedTargets demoClient ()
      [{ ID := 1, Name := "pvc-a" }, { ID := 2, Name := "pvc-b" }, { ID := 3, Name := "pvc-c" }]
      false).1 = 3 - 1 :=
  ⟨C5_live_run_counts_successes demoClient () [{ ID := 1, Name := "pvc-a" }] 0 rfl,
    (C5_live_run_counts_successes demoClient ()
      [{ ID := 1, Name := "pvc-a" }, { ID := 2, Name := "pvc-b" }, { ID := 3, Name := "pvc-c" }]
      1 rfl).2.2.1⟩

/-- C6: with `dryRun = false`, on every input list, the calls that reach the client are
exactly one `ISCSITargetDelete(id, force = true)` per input entry, in input order, and
nothing else: the logged sequence of calls is the input list mapped to its delete calls, so
the deleted ids are the ids of the input list. -/
theorem C6_live_run_deletes_each_target_once {σ : Type} (client : Client σ) (s : σ)
    (targets : List TargetInfo) :
    (cleanupOrphanedTargets client.recording (s, []) targets false).2.2.map Event.call =
      targets.map (fun t => ClientCall.ISCSITargetDelete t.ID true) ∧
    (cleanupOrphanedTargets client.recording (s, []) targets false).2.1 =
      (cleanupOrphanedTargets client s targets false).2 := by
  unfold cleanupOrphanedTargets
  obtain ⟨_, h2, h3, _⟩ := cleanup_live_foldl client targets 0 s []
  exact ⟨by simpa using h3, h2⟩

/-! ## Extents -/

/-- A string with the given prefix is the prefix followed by what `trimPrefix` returns. -/
theorem trimPrefix_append (str pre : String) (h : hasPrefix str pre = true) :
    str = pre ++ trimPrefix str pre := by
  unfold hasPrefix at h
  have hp : pre.data <+: str.data := List.isPrefixOf_iff_prefix.mp h
  obtain ⟨rest, hrest⟩ := hp
  apply String.ext
  unfold trimPrefix hasPrefix
  rw [if_pos h, String.data_append, ← hrest]
  simp

theorem extentInfo_ID (e : ISCSIExtent) : (auditISCSI.extentInfo e).ID = e.ID := rfl

/-- C7: in a successful audit `OrphanedExtents` holds, in fetch order, one entry (id, name,
disk) for each fetched extent whose type is `DISK`, whose disk starts with `zvol/`, and whose
volume probe on the disk without that prefix returned "absent" without error, and nothing
else.  So such an extent is listed, every listed entry comes from such an extent, and with
distinct extent ids a fetched extent is listed if and only if it is such an extent. -/
theorem C7_orphaned_extents {σ : Type} (client : Client σ) (s : σ) (parentDataset : String)
    (targets : List ISCSITarget) (extents : List ISCSIExtent)
    (associations : List ISCSITargetExtent) (result : ISCSIAuditResult)
    (hT : getAllTargets client s = .ok targets)
    (hE : getAllExtents client s = .ok extents)
    (hA : getAllTargetExtents client s = .ok associations)
    (hR : auditISCSI client s parentDataset = .ok result) :
    result.OrphanedExtents =
      (extents.filter (fun e => decide (e.Type_ = "DISK" ∧ hasPrefix e.Disk "zvol/" = true ∧
        checkZvolExists client s (trimPrefix e.Disk "zvol/") = (false, none)))).map
          (fun e => { ID := e.ID, Name := e.Name, Disk := e.Disk }) ∧
    (∀ e ∈ extents,
      (e.Type_ = "DISK" ∧ hasPrefix e.Disk "zvol/" = true ∧
        checkZvolExists client s (trimPrefix e.Disk "zvol/") = (false, none)) →
      ({ ID := e.ID, Name := e.Name, Disk := e.Disk } : ExtentInfo) ∈ result.OrphanedExtents) ∧
    (∀ x ∈ result.OrphanedExtents, ∃ e ∈ extents,
      (e.Type_ = "DISK" ∧ hasPrefix e.Disk "zvol/" = true ∧
        checkZvolExists client s (trimPrefix e.Disk "zvol/") = (false, none)) ∧
      x = { ID := e.ID, Name := e.Name, Disk := e.Disk }) ∧
    ((extents.map (fun e => e.ID)).Nodup → ∀ e ∈ extents,
      (({ ID := e.ID, Name := e.Name, Disk := e.Disk } : ExtentInfo) ∈ result.OrphanedExtents ↔
        (e.Type_ = "DISK" ∧ hasPrefix e.Disk "zvol/" = true ∧
          checkZvolExists client s (trimPrefix e.Disk "zvol/") = (false, none)))) := by
  have hOE := audit_orphanedExtents hT hE hA hR
  have hmem : ∀ x, x ∈ result.OrphanedExtents ↔ ∃ e ∈ extents,
      (e.Type_ = "DISK" ∧ hasPrefix e.Disk "zvol/" = true ∧
        checkZvolExists client s (trimPrefix e.Disk "zvol/") = (false, none)) ∧
      x = { ID := e.ID, Name := e.Name, Disk := e.Disk } := by
    intro x
    rw [hOE]
    simp only [List.mem_map, List.mem_filter, decide_eq_true_eq]
    constructor
    · rintro ⟨e, ⟨he, hc⟩, rfl⟩
      exact ⟨e, he, hc, rfl⟩
    · rintro ⟨e, he, hc, rfl⟩
      exact ⟨e, ⟨he, hc⟩, rfl⟩
  refine ⟨hOE, ?_, ?_, ?_⟩
  · intro e he hc
    exact (hmem _).mpr ⟨e, he, hc, rfl⟩
  · intro x hx
    exact (hmem x).mp hx
  · intro hnd e he
    constructor
    · intro hin
      obtain ⟨u, hu, hc, heq⟩ := (hmem _).mp hin
      have hid : e.ID = u.ID := congrArg ExtentInfo.ID heq
      have heu : e = u := List.inj_on_of_nodup_map hnd he hu hid
      rw [heu]
      exact hc
    · intro hc
      exact (hmem _).mpr ⟨e, he, hc, rfl⟩

/-- C7 on the example of the specification: extent 5 `e5` of type `DISK` on
`zvol/tank/missing`, whose probe of `tank/missing` answers "absent", is the one entry of the
list; extent 6, whose volume exists, is not listed. -/
theorem C7_orphaned_extents_witness :
    auditISCSI demoClient () "tank/k8s" = .ok demoResult ∧
    checkZvolExists demoClient () "tank/missing" = (false, none) ∧
    demoResult.OrphanedExtents = [{ ID := 5, Name := "e5", Disk := "zvol/tank/missing" }] ∧
    (({ ID := 5, Name := "e5", Disk := "zvol/tank/missing" } : ExtentInfo)
      ∈ demoResult.OrphanedExtents) :=
  ⟨demo_audit, rfl, rfl,
    (C7_orphaned_extents demoClient () "tank/k8s" demoTargets demoExtents demoAssociations
      demoResult demo_targets demo_extents demo_associations demo_audit).2.1
      { ID := 5, Name := "e5", Disk := "zvol/tank/missing", Type_ := "DISK" }
      (List.mem_cons_self _ _) ⟨rfl, rfl, rfl⟩⟩

/-- Filtering by a predicate and by its negation splits the list. -/
theorem length_filter_add_length_filter_not {α : Type} (p : α → Prop) [DecidablePred p]
    (l : List α) :
    (l.filter (fun x => decide (p x))).length + (l.filter (fun x => decide (¬ p x))).length =
      l.length := by
  induction l with
  | nil => rfl
  | cons x rest ih =>
    by_cases h : p x
    · simp [List.filter_cons, h] at ih ⊢
      omega
    · simp [List.filter_cons, h] at ih ⊢
      omega

/-- C8: in a successful audit `ExtentsWithoutTargets` holds, in fetch order, the id, name and
disk of each fetched extent whose id no association names as its extent; its length is the
number of fetched extents minus the number of fetched extents that some association
names. -/
theorem C8_extents_without_targets {σ : Type} (client : Client σ) (s : σ)
    (parentDataset : String) (targets : List ISCSITarget) (extents : List ISCSIExtent)
    (associations : List ISCSITargetExtent) (result : ISCSIAuditResult)
    (hT : getAllTargets client s = .ok targets)
    (hE : getAllExtents client s = .ok extents)
    (hA : getAllTargetExtents client s = .ok associations)
    (hR : auditISCSI client s parentDataset = .ok result) :
    result.ExtentsWithoutTargets =
      (extents.filter (fun e => decide (¬ ∃ a ∈ associations, a.Extent = e.ID))).map
        (fun e => { ID := e.ID, Name := e.Name, Disk := e.Disk }) ∧
    result.ExtentsWithoutTargets.length =
      extents.length -
        (extents.filter (fun e => decide (∃ a ∈ associations, a.Extent = e.ID))).length := by
  have h := audit_extentsWithoutTargets hT hE hA hR
  refine ⟨h, ?_⟩
  rw [h, List.length_map]
  have hsplit := length_filter_add_length_filter_not
    (fun e : ISCSIExtent => ∃ a ∈ associations, a.Extent = e.ID) extents
  omega

/-- C8 at the demo appliance: two fetched extents, extent 5 is named by the association,
extent 6 is the one entry. -/
theorem C8_extents_without_targets_witness :
    auditISCSI demoClient () "tank/k8s" = .ok demoResult ∧
    demoResult.ExtentsWithoutTargets = [{ ID := 6, Name := "e6", Disk := "zvol/tank/six" }] ∧
    demoResult.ExtentsWithoutTargets.length =
      demoExtents.length -
        (demoExtents.filter
          (fun e => decide (∃ a ∈ demoAssociations, a.Extent = e.ID))).length :=
  ⟨demo_audit, rfl,
    (C8_extents_without_targets demoClient () "tank/k8s" demoTargets demoExtents
      demoAssociations demoResult demo_targets demo_extents demo_associations demo_audit).2⟩

/-! ## Session counting -/

namespace GoMap

variable {κ ν : Type} [DecidableEq κ]

theorem values_sum_set (m : GoMap κ Nat) (k : κ) (v : Nat) :
    (m.set k v).values.sum + m.getD k 0 = m.values.sum + v := by
  induction m with
  | nil => simp [set, values, getD, get?]
  | cons hd tl ih =>
    obtain ⟨k', v'⟩ := hd
    by_cases h : k' = k
    · simp [set, values, getD, get?, h]
      omega
    · simp only [set, values, getD, get?, h, if_false, List.map_cons, List.sum_cons] at ih ⊢
      omega

/-- An increment raises the sum of the counters by exactly one. -/
theorem values_sum_incr (m : GoMap κ Nat) (k : κ) :
    (m.incr k).values.sum = m.values.sum + 1 := by
  have h := values_sum_set m k (m.getD k 0 + 1)
  unfold incr
  omega

theorem keys_set (m : GoMap κ ν) (k : κ) (v : ν) :
    (m.set k v).keys = if k ∈ m.keys then m.keys else m.keys ++ [k] := by
  induction m with
  | nil => simp [set, keys]
  | cons hd tl ih =>
    obtain ⟨k', v'⟩ := hd
    by_cases h : k' = k
    · subst h
      simp [set, keys]
    · have hne : ¬ k = k' := fun hc => h hc.symm
      simp only [keys] at ih
      simp only [set, keys, h, if_false, List.map_cons, List.mem_cons, hne, false_or, ih]
      split <;> simp

/-- Assignment keeps the keys of a map distinct. -/
theorem keys_nodup_set (m : GoMap κ ν) (k : κ) (v : ν) (h : m.keys.Nodup) :
    (m.set k v).keys.Nodup := by
  rw [keys_set]
  split
  · exact h
  · rename_i hk
    rw [List.nodup_append]
    refine ⟨h, List.nodup_singleton k, ?_⟩
    intro a ha hb
    rw [List.mem_singleton] at hb
    exact hk (hb ▸ ha)

end GoMap

section Sessions

variable (targetNameToID : GoMap String Int)

/-- The fourth strategy either leaves the counters alone or increments one of them, and
which of the two does not depend on the counters. -/
theorem fromIQN_cases (m : List (String × Value)) :
    (∀ sessions, getActiveSessions.fromIQN targetNameToID m sessions = sessions) ∨
    (∃ id, ∀ sessions, getActiveSessions.fromIQN targetNameToID m sessions
      = sessions.incr id) := by
  unfold getActiveSessions.fromIQN
  cases asString (index m "target") with
  | none => exact Or.inl (fun _ => rfl)
  | some iqn =>
    by_cases h1 : iqn ≠ ""
    · by_cases h2 : (split iqn ':').length ≥ 2
      · cases h3 : targetNameToID.get? ((split iqn ':').getLastD "") with
        | none =>
          rw [List.getLastD_eq_getLast?] at h3
          exact Or.inl (fun _ => by simp [h1, h2, h3])
        | some id =>
          rw [List.getLastD_eq_getLast?] at h3
          exact Or.inr ⟨id, fun _ => by simp [h1, h2, h3]⟩
      · exact Or.inl (fun _ => by simp [h1, h2])
    · exact Or.inl (fun _ => by simp [h1])

theorem fromTargetName_cases (m : List (String × Value)) :
    (∀ sessions, getActiveSessions.fromTargetName targetNameToID m sessions = sessions) ∨
    (∃ id, ∀ sessions, getActiveSessions.fromTargetName targetNameToID m sessions
      = sessions.incr id) := by
  unfold getActiveSessions.fromTargetName
  cases asString (index m "target_name") with
  | none => exact fromIQN_cases targetNameToID m
  | some name =>
    by_cases h1 : name ≠ ""
    · cases h3 : targetNameToID.get? name with
      | none => simpa [h1, h3] using fromIQN_cases targetNameToID m
      | some id => exact Or.inr ⟨id, fun _ => by simp [h1, h3]⟩
    · simpa [h1] using fromIQN_cases targetNameToID m

theorem fromAlias_cases (m : List (String × Value)) :
    (∀ sessions, getActiveSessions.fromAlias targetNameToID m sessions = sessions) ∨
    (∃ id, ∀ sessions, getActiveSessions.fromAlias targetNameToID m sessions
      = sessions.incr id) := by
  unfold getActiveSessions.fromAlias
  cases asString (index m "target_alias") with
  | none => exact fromTargetName_cases targetNameToID m
  | some name =>
    by_cases h1 : name ≠ ""
    · cases h3 : targetNameToID.get? name with
      | none => simpa [h1, h3] using fromTargetName_cases targetNameToID m
      | some id => exact Or.inr ⟨id, fun _ => by simp [h1, h3]⟩
    · simpa [h1] using fromTargetName_cases targetNameToID m

/-- One pass of the loop body either leaves the counters alone or increments exactly one of
them, and which of the two depends on the record and the name index only. -/
theorem step_cases (item : Value) :
    (∀ sessions, getActiveSessions.step targetNameToID sessions item = sessions) ∨
    (∃ id, ∀ sessions, getActiveSessions.step targetNameToID sessions item
      = sessions.incr id) := by
  unfold getActiveSessions.step
  cases item with
  | obj m =>
    cases h : asInt (index m "target") with
    | some id => exact Or.inr ⟨id, fun _ => by simp only [h]⟩
    | none => simpa only [h] using fromAlias_cases targetNameToID m
  | _ => exact Or.inl (fun _ => rfl)

/-- The count of `k` after a record is its count before plus what the record alone
contributes to `k`. -/
theorem getD_step (sessions : GoMap Int Nat) (item : Value) (k : Int) :
    (getActiveSessions.step targetNameToID sessions item).getD k 0 =
      sessions.getD k 0 +
        (getActiveSessions.step targetNameToID GoMap.empty item).getD k 0 := by
  rcases step_cases targetNameToID item with h | ⟨id, h⟩
  · rw [h, h]
    simp [GoMap.getD_empty]
  · rw [h, h]
    by_cases hk : id = k
    · subst hk
      rw [GoMap.getD_incr_self, GoMap.getD_incr_self, GoMap.getD_empty]
    · rw [GoMap.getD_incr_ne _ _ _ hk, GoMap.getD_incr_ne _ _ _ hk, GoMap.getD_empty]
      rfl

theorem getD_foldl_step (items : List Value) (sessions : GoMap Int Nat) (k : Int) :
    (items.foldl (getActiveSessions.step targetNameToID) sessions).getD k 0 =
      sessions.getD k 0 +
        (items.map (fun item =>
          (getActiveSessions.step targetNameToID GoMap.empty item).getD k 0)).sum := by
  induction items generalizing sessions with
  | nil => simp
  | cons item rest ih =>
    rw [List.foldl_cons, ih, getD_step, List.map_cons, List.sum_cons]
    omega

theorem values_sum_foldl_step (items : List Value) (sessions : GoMap Int Nat) :
    (items.foldl (getActiveSessions.step targetNameToID) sessions).values.sum ≤
      sessions.values.sum + items.length := by
  induction items generalizing sessions with
  | nil => simp
  | cons item rest ih =>
    rw [List.foldl_cons, List.length_cons]
    refine Nat.le_trans (ih _) ?_
    rcases step_cases targetNameToID item with h | ⟨id, h⟩
    · rw [h]
      omega
    · rw [h, GoMap.values_sum_incr]
      omega

theorem keys_nodup_foldl_step (items : List Value) (sessions : GoMap Int Nat)
    (hnd : sessions.keys.Nodup) :
    (items.foldl (getActiveSessions.step targetNameToID) sessions).keys.Nodup := by
  induction items generalizing sessions with
  | nil => exact hnd
  | cons item rest ih =>
    rw [List.foldl_cons]
    apply ih
    rcases step_cases targetNameToID item with h | ⟨id, h⟩
    · rw [h]
      exact hnd
    · rw [h]
      exact GoMap.keys_nodup_set _ _ _ hnd

/-- The count the audit reads for `k` is the number of contributions to `k` over the session
records of the run. -/
theorem sessions_getD {σ : Type} (client : Client σ) (s : σ) (k : Int) :
    (auditISCSI.sessions client s targetNameToID).getD k 0 =
      ((sessionRecords client s).map (fun item =>
        (getActiveSessions.step targetNameToID GoMap.empty item).getD k 0)).sum := by
  unfold auditISCSI.sessions getActiveSessions sessionRecords
  cases client.Call s "iscsi.global.sessions" [] with
  | error err => simp [GoMap.getD_empty]
  | ok v =>
    cases v with
    | list items =>
      simp only
      rw [getD_foldl_step, GoMap.getD_empty]
      omega
    | _ => simp [GoMap.getD_empty]

end Sessions

theorem connectionInfo_Target (sessions : GoMap Int Nat) (ix : AssocIndex) (t : ISCSITarget) :
    (auditISCSI.connectionInfo sessions ix t).Target = { ID := t.ID, Name := t.Name } := by
  unfold auditISCSI.connectionInfo
  cases ix.targetToExtent.get? t.ID <;> rfl

/-- C9: in a successful audit `TargetsWithoutConnection` holds, in fetch order, the fetched
targets whose session count reads 0.  A fetched target has an entry (by id and name) if and
only if its count is 0, and the count of an id is 0 if and only if no session record of the
run contributes to that id; so a target to which a session resolved has no entry. -/
theorem C9_zero_session_targets {σ : Type} (client : Client σ) (s : σ) (parentDataset : String)
    (targets : List ISCSITarget) (extents : List ISCSIExtent)
    (associations : List ISCSITargetExtent) (result : ISCSIAuditResult)
    (hT : getAllTargets client s = .ok targets)
    (hE : getAllExtents client s = .ok extents)
    (hA : getAllTargetExtents client s = .ok associations)
    (hR : auditISCSI client s parentDataset = .ok result) :
    result.TargetsWithoutConnection.map (fun x => x.Target) =
      (targets.filter (fun t => decide
        ((auditISCSI.sessions client s (auditISCSI.indexTargets targets).2).getD t.ID 0
          = 0))).map (fun t => { ID := t.ID, Name := t.Name }) ∧
    (∀ t ∈ targets,
      ((∃ x ∈ result.TargetsWithoutConnection, x.Target.ID = t.ID ∧ x.Target.Name = t.Name) ↔
        (auditISCSI.sessions client s (auditISCSI.indexTargets targets).2).getD t.ID 0 = 0)) ∧
    (∀ t ∈ targets,
      ((∃ x ∈ result.TargetsWithoutConnection, x.Target.ID = t.ID) ↔
        (auditISCSI.sessions client s (auditISCSI.indexTargets targets).2).getD t.ID 0 = 0)) ∧
    (∀ k : Int,
      ((auditISCSI.sessions client s (auditISCSI.indexTargets targets).2).getD k 0 = 0 ↔
        ∀ item ∈ sessionRecords client s,
          (getActiveSessions.step (auditISCSI.indexTargets targets).2 GoMap.empty item).getD k 0
            = 0)) := by
  have hC := audit_targetsWithoutConnection hT hE hA hR
  have hmem : ∀ x, x ∈ result.TargetsWithoutConnection → ∃ u ∈ targets,
      (auditISCSI.sessions client s (auditISCSI.indexTargets targets).2).getD u.ID 0 = 0 ∧
      x.Target = { ID := u.ID, Name := u.Name } := by
    intro x hx
    rw [hC] at hx
    simp only [List.mem_map, List.mem_filter, decide_eq_true_eq] at hx
    obtain ⟨u, ⟨hu, hz⟩, rfl⟩ := hx
    exact ⟨u, hu, hz, connectionInfo_Target _ _ u⟩
  have hentry : ∀ t ∈ targets,
      (auditISCSI.sessions client s (auditISCSI.indexTargets targets).2).getD t.ID 0 = 0 →
      ∃ x ∈ result.TargetsWithoutConnection, x.Target.ID = t.ID ∧ x.Target.Name = t.Name := by
    intro t ht hz
    refine ⟨{ auditISCSI.connectionInfo
        (auditISCSI.sessions client s (auditISCSI.indexTargets targets).2)
        (auditISCSI.indexAssociations (auditISCSI.indexExtents extents) associations)
        t with PossibleOrphaned := true }, ?_, ?_, ?_⟩
    · rw [hC]
      simp only [List.mem_map, List.mem_filter, decide_eq_true_eq]
      exact ⟨t, ⟨ht, hz⟩, rfl⟩
    · simp only [connectionInfo_Target]
    · simp only [connectionInfo_Target]
  refine ⟨?_, ?_, ?_, ?_⟩
  · rw [hC, List.map_map]
    apply List.map_congr_left
    intro t _
    simp only [Function.comp, connectionInfo_Target]
  · intro t ht
    constructor
    · rintro ⟨x, hx, hid, _⟩
      obtain ⟨u, _, hz, hxu⟩ := hmem x hx
      rw [hxu] at hid
      simp only at hid
      rw [← hid]
      exact hz
    · exact hentry t ht
  · intro t ht
    constructor
    · rintro ⟨x, hx, hid⟩
      obtain ⟨u, _, hz, hxu⟩ := hmem x hx
      rw [hxu] at hid
      simp only at hid
      rw [← hid]
      exact hz
    · intro hz
      obtain ⟨x, hx, hid, _⟩ := hentry t ht hz
      exact ⟨x, hx, hid⟩
  · intro k
    rw [sessions_getD, List.sum_eq_zero_iff]
    simp only [List.mem_map]
    constructor
    · intro h item hitem
      exact h _ ⟨item, hitem, rfl⟩
    · rintro h n ⟨item, hitem, rfl⟩
      exact h item hitem

/-- C9 on the example of the specification: sessions `[{target_alias: pvc-a}]` with the name
index `{pvc-a: 1}` give the counts `{1: 1}`, and target 1 has no entry in the zero-session
list. -/
theorem C9_zero_session_targets_witness :
    (auditISCSI.indexTargets [{ ID := 1, Name := "pvc-a" }]).2 = [("pvc-a", 1)] ∧
    getActiveSessions aliasSessionClient () [("pvc-a", 1)] = .ok [(1, 1)] ∧
    (auditISCSI aliasSessionClient () "tank/k8s").toOption.map
      (fun r => r.TargetsWithoutConnection) = some [] ∧
    ¬ (∃ x ∈ ([] : List TargetConnectionInfo), x.Target.ID = 1) :=
  ⟨rfl, rfl, rfl,
    fun h => absurd
      (((C9_zero_session_targets aliasSessionClient () "tank/k8s" [{ ID := 1, Name := "pvc-a" }]
        [] []
        { TargetsWithoutExtents :=
            [{ ID := 1, Name := "pvc-a", HasDataset := false, DatasetPath := "tank/k8s/pvc-a" }]
          OrphanedTargetsWithoutDataset :=
            [{ ID := 1, Name := "pvc-a", HasDataset := false,
               DatasetPath := "tank/k8s/pvc-a" }] }
        rfl rfl rfl rfl).2.2.1 { ID := 1, Name := "pvc-a" } (List.mem_singleton.mpr rfl)).mp h)
      (by decide)⟩

/-- C10: whatever the session records and the name index, one record changes the counters
by at most one increment of one key (the map is left as it is or it is `sessions[id]++` for
one id, which adds one to that count, leaves the others, and adds one to the sum of the
counts); and when the session call returns a list, `getActiveSessions` returns a map with
distinct keys whose counts sum to at most the number of records. -/
theorem C10_one_increment_per_record {σ : Type} (client : Client σ) (s : σ)
    (targetNameToID : GoMap String Int) (items : List Value)
    (hcall : client.Call s "iscsi.global.sessions" [] = .ok (.list items)) :
    (∀ (sessions : GoMap Int Nat) (item : Value),
      getActiveSessions.step targetNameToID sessions item = sessions ∨
      ∃ id, getActiveSessions.step targetNameToID sessions item = sessions.incr id) ∧
    (∀ (sessions : GoMap Int Nat) (id : Int),
      (sessions.incr id).getD id 0 = sessions.getD id 0 + 1 ∧
      (∀ k, k ≠ id → (sessions.incr id).getD k 0 = sessions.getD k 0) ∧
      (sessions.incr id).values.sum = sessions.values.sum + 1) ∧
    (∃ m, getActiveSessions client s targetNameToID = .ok m ∧
      m.keys.Nodup ∧ m.values.sum ≤ items.length) := by
  refine ⟨?_, ?_, ?_⟩
  · intro sessions item
    rcases step_cases targetNameToID item with h | ⟨id, h⟩
    · exact Or.inl (h sessions)
    · exact Or.inr ⟨id, h sessions⟩
  · intro sessions id
    refine ⟨GoMap.getD_incr_self _ _, ?_, GoMap.values_sum_incr _ _⟩
    intro k hk
    exact GoMap.getD_incr_ne _ _ _ (fun hc => hk hc.symm)
  · refine ⟨items.foldl (getActiveSessions.step targetNameToID) GoMap.empty, ?_, ?_, ?_⟩
    · unfold getActiveSessions
      rw [hcall]
    · exact keys_nodup_foldl_step targetNameToID items GoMap.empty List.nodup_nil
    · have h := values_sum_foldl_step targetNameToID items GoMap.empty
      have h0 : (GoMap.empty : GoMap Int Nat).values.sum = 0 := rfl
      omega

/-- C10 on a record in which the alias, the name and the qualified name all resolve (to
targets 1, 2 and 3): the record is counted once, under target 1. -/
theorem C10_one_increment_per_record_witness :
    getActiveSessions ambiguousSessionClient () [("pvc-a", 1), ("pvc-b", 2), ("pvc-c", 3)]
      = .ok [(1, 1)] ∧
    (∃ m, getActiveSessions ambiguousSessionClient ()
        [("pvc-a", 1), ("pvc-b", 2), ("pvc-c", 3)] = .ok m ∧
      m.keys.Nodup ∧ m.values.sum ≤ 1) :=
  ⟨rfl,
    (C10_one_increment_per_record ambiguousSessionClient ()
      [("pvc-a", 1), ("pvc-b", 2), ("pvc-c", 3)]
      [.obj [("target_alias", .str "pvc-a"), ("target_name", .str "pvc-b"),
             ("target", .str "iqn.2005-10.org.freenas.ctl:pvc-c")]] rfl).2.2⟩

/-! ## Session resolution -/

/-- The pieces of a split: there are as many as separators, plus one. -/
theorem length_splitChars (sep : Char) (cs : List Char) :
    (splitChars sep cs).length = cs.count sep + 1 := by
  induction cs with
  | nil => rfl
  | cons c rest ih =>
    unfold splitChars
    by_cases h : c = sep
    · subst h
      simp [ih]
    · have hne : ¬ (c == sep) = true := by simpa using h
      rw [if_neg h, List.count_cons]
      cases hs : splitChars sep rest with
      | nil => rw [hs] at ih; simp at ih
      | cons p ps =>
        rw [hs] at ih
        simp only [List.length_cons] at ih ⊢
        simp [hne]
        omega

/-- No piece of a split contains the separator. -/
theorem not_mem_of_mem_splitChars (sep : Char) (cs : List Char) :
    ∀ p ∈ splitChars sep cs, sep ∉ p := by
  induction cs with
  | nil =>
    intro p hp
    simp [splitChars] at hp
    subst hp
    simp
  | cons c rest ih =>
    intro p hp
    unfold splitChars at hp
    by_cases h : c = sep
    · rw [if_pos h] at hp
      rcases List.mem_cons.mp hp with rfl | hp
      · simp
      · exact ih p hp
    · rw [if_neg h] at hp
      cases hs : splitChars sep rest with
      | nil =>
        rw [hs] at hp
        simp at hp
        subst hp
        simpa using fun hc => h hc.symm
      | cons q qs =>
        rw [hs] at hp ih
        rcases List.mem_cons.mp hp with rfl | hp
        · intro hc
          rcases List.mem_cons.mp hc with hc | hc
          · exact h hc.symm
          · exact ih q (List.mem_cons_self _ _) hc
        · exact ih p (List.mem_cons_of_mem _ hp)

/-- Joining the pieces of a split with the separator gives the string back. -/
theorem intercalate_splitChars (sep : Char) (cs : List Char) :
    List.intercalate [sep] (splitChars sep cs) = cs := by
  induction cs with
  | nil => rfl
  | cons c rest ih =>
    unfold splitChars
    by_cases h : c = sep
    · subst h
      rw [if_pos rfl]
      cases hs : splitChars c rest with
      | nil =>
        have := length_splitChars c rest
        rw [hs] at this
        simp at this
      | cons p ps =>
        rw [hs] at ih
        simp [List.intercalate] at ih ⊢
        exact ih
    · rw [if_neg h]
      cases hs : splitChars sep rest with
      | nil =>
        have := length_splitChars sep rest
        rw [hs] at this
        simp at this
      | cons p ps =>
        rw [hs] at ih
        cases ps with
        | nil => simp [List.intercalate] at ih ⊢; exact ih
        | cons q qs => simp [List.intercalate] at ih ⊢; exact ih

/-- A string splits in two or more pieces exactly when it contains the separator. -/
theorem length_split_ge_two (q : String) (sep : Char) :
    (split q sep).length ≥ 2 ↔ sep ∈ q.data := by
  unfold split
  rw [List.length_map, length_splitChars]
  constructor
  · intro h
    exact List.count_pos_iff.mp (by omega)
  · intro h
    have := List.count_pos_iff.mpr h
    omega

theorem firstOf_single (o : Option Int) : firstOf [o] = o := by
  cases o <;> rfl

theorem fromIQN_eq_credit (targetNameToID : GoMap String Int) (m : List (String × Value))
    (sessions : GoMap Int Nat) :
    getActiveSessions.fromIQN targetNameToID m sessions =
      credit sessions (guarded.byQualifiedName targetNameToID (index m "target")) := by
  unfold getActiveSessions.fromIQN guarded.byQualifiedName
  cases asString (index m "target") with
  | none => rfl
  | some q =>
    by_cases h1 : q ≠ ""
    · by_cases h2 : (split q ':').length ≥ 2
      · have h3 : ':' ∈ q.data := (length_split_ge_two q ':').mp h2
        simp only [h1, h2, h3, and_self, if_true, not_false_eq_true, ne_eq]
        cases targetNameToID.get? ((split q ':').getLastD "") <;> rfl
      · have h3 : ¬ ':' ∈ q.data := fun hc => h2 ((length_split_ge_two q ':').mpr hc)
        simp only [h1, h2, h3, and_false, if_false, if_true, not_false_eq_true, ne_eq]
        rfl
    · simp only [h1, false_and, if_false]
      rfl

theorem fromTargetName_eq_credit (targetNameToID : GoMap String Int)
    (m : List (String × Value)) (sessions : GoMap Int Nat) :
    getActiveSessions.fromTargetName targetNameToID m sessions =
      credit sessions (firstOf
        [guarded.byName targetNameToID (index m "target_name"),
         guarded.byQualifiedName targetNameToID (index m "target")]) := by
  unfold getActiveSessions.fromTargetName guarded.byName
  cases asString (index m "target_name") with
  | none =>
    simp only [firstOf, firstOf_single]
    exact fromIQN_eq_credit targetNameToID m sessions
  | some name =>
    by_cases h1 : name ≠ ""
    · cases h3 : targetNameToID.get? name with
      | none =>
        simp only [h1, h3, if_true, not_false_eq_true, ne_eq, firstOf, firstOf_single]
        exact fromIQN_eq_credit targetNameToID m sessions
      | some id =>
        simp only [h1, h3, if_true, not_false_eq_true, ne_eq, firstOf]
        rfl
    · simp only [h1, if_false, firstOf, firstOf_single]
      exact fromIQN_eq_credit targetNameToID m sessions

theorem fromAlias_eq_credit (targetNameToID : GoMap String Int)
    (m : List (String × Value)) (sessions : GoMap Int Nat) :
    getActiveSessions.fromAlias targetNameToID m sessions =
      credit sessions (firstOf
        [guarded.byName targetNameToID (index m "target_alias"),
         guarded.byName targetNameToID (index m "target_name"),
         guarded.byQualifiedName targetNameToID (index m "target")]) := by
  unfold getActiveSessions.fromAlias
  rw [fromTargetName_eq_credit]
  unfold guarded.byName
  cases asString (index m "target_alias") with
  | none => rfl
  | some name =>
    by_cases h1 : name ≠ ""
    · cases h3 : targetNameToID.get? name with
      | none =>
        simp only [h1, h3, if_true, not_false_eq_true, ne_eq, firstOf]
      | some id =>
        simp only [h1, h3, if_true, not_false_eq_true, ne_eq, firstOf]
        rfl
    · simp only [h1, if_false, firstOf]

/-- The loop body of `getActiveSessions` on an object credits the first guarded strategy that
yields an id. -/
theorem step_obj_eq_credit (targetNameToID : GoMap String Int) (m : List (String × Value))
    (sessions : GoMap Int Nat) :
    getActiveSessions.step targetNameToID sessions (.obj m) =
      credit sessions (guarded.resolve targetNameToID m) := by
  unfold getActiveSessions.step guarded.resolve
  simp only
  cases h : asInt (index m "target") with
  | some id => rfl
  | none =>
    simp only [firstOf]
    exact fromAlias_eq_credit targetNameToID m sessions

/-- C11, as stated, fails on a record whose alias is the empty string when the name index
has the empty string as a key (a target without a name): the specification's order gives
target 5 through the alias, the code skips the empty alias and credits target 2 through the
name. -/
theorem C11_empty_alias_not_looked_up :
    (auditISCSI.indexTargets [{ ID := 5 }, { ID := 2, Name := "pvc-b" }]).2 = unnamedIndex ∧
    unnamedIndex.get? "" = some 5 ∧
    specified.resolve unnamedIndex emptyAliasRecord = some 5 ∧
    (getActiveSessions.step unnamedIndex GoMap.empty (.obj emptyAliasRecord)).getD 5 0 = 0 ∧
    (getActiveSessions.step unnamedIndex GoMap.empty (.obj emptyAliasRecord)).getD 2 0 = 1 ∧
    getActiveSessions emptyAliasClient () unnamedIndex = .ok [(2, 1)] ∧
    getActiveSessions.step unnamedIndex GoMap.empty (.obj emptyAliasRecord) ≠
      credit GoMap.empty (specified.resolve unnamedIndex emptyAliasRecord) :=
  ⟨rfl, rfl, rfl, rfl, rfl, rfl,
    fun h => absurd (congrArg (fun m => GoMap.getD m 5 0) h) (by decide)⟩

/-- C11, amended: for every session record (an object), name index and counter map, the
loop body of `getActiveSessions` credits the record to the id given by the first strategy
that yields one, in the order (1) numeric `target`, (2) `target_alias` when it is a non-empty
string that is a key of the name index, (3) `target_name` likewise, (4) the string `target`
when it is non-empty, contains a colon and its final segment is a key of the name index; a
record for which none yields an id, and an item that is not an object, change nothing; and
`getActiveSessions` is this loop over the records that the session call returns. -/
theorem C11_first_guarded_strategy_wins {σ : Type} (client : Client σ) (s : σ)
    (targetNameToID : GoMap String Int) (items : List Value)
    (hcall : client.Call s "iscsi.global.sessions" [] = .ok (.list items)) :
    (∀ (sessions : GoMap Int Nat) (m : List (String × Value)),
      getActiveSessions.step targetNameToID sessions (.obj m) =
        credit sessions (firstOf
          [asInt (index m "target"),
           guarded.byName targetNameToID (index m "target_alias"),
           guarded.byName targetNameToID (index m "target_name"),
           guarded.byQualifiedName targetNameToID (index m "target")])) ∧
    (∀ (sessions : GoMap Int Nat) (m : List (String × Value)),
      guarded.resolve targetNameToID m = none →
        getActiveSessions.step targetNameToID sessions (.obj m) = sessions) ∧
    (∀ (sessions : GoMap Int Nat) (item : Value), (∀ m, item ≠ .obj m) →
      getActiveSessions.step targetNameToID sessions item = sessions) ∧
    getActiveSessions client s targetNameToID =
      .ok (items.foldl (getActiveSessions.step targetNameToID) GoMap.empty) := by
  refine ⟨?_, ?_, ?_, ?_⟩
  · intro sessions m
    exact step_obj_eq_credit targetNameToID m sessions
  · intro sessions m h
    rw [step_obj_eq_credit, h]
    rfl
  · intro sessions item h
    cases item with
    | obj m => exact absurd rfl (h m)
    | _ => rfl
  · unfold getActiveSessions
    rw [hcall]

/-- C11 at a record whose alias is not in the index and whose name is: the alias does not
stop the third strategy, the record is credited to target 2. -/
theorem C11_first_guarded_strategy_wins_witness :
    demoClient.Call () "iscsi.global.sessions" [] =
      .ok (.list [.obj [("target_alias", .str "pvc-c")]]) ∧
    getActiveSessions.step [("pvc-b", 2)] GoMap.empty
      (.obj [("target_alias", .str "unknown"), ("target_name", .str "pvc-b")]) = [(2, 1)] ∧
    getActiveSessions.step [("pvc-b", 2)] GoMap.empty
        (.obj [("target_alias", .str "unknown"), ("target_name", .str "pvc-b")]) =
      credit GoMap.empty (firstOf
        [asInt (index [("target_alias", .str "unknown"), ("target_name", .str "pvc-b")]
          "target"),
         guarded.byName [("pvc-b", 2)]
          (index [("target_alias", .str "unknown"), ("target_name", .str "pvc-b")]
            "target_alias"),
         guarded.byName [("pvc-b", 2)]
          (index [("target_alias", .str "unknown"), ("target_name", .str "pvc-b")]
            "target_name"),
         guarded.byQualifiedName [("pvc-b", 2)]
          (index [("target_alias", .str "unknown"), ("target_name", .str "pvc-b")]
            "target")]) :=
  ⟨rfl, rfl,
    (C11_first_guarded_strategy_wins demoClient () [("pvc-b", 2)]
      [.obj [("target_alias", .str "pvc-c")]] rfl).1 GoMap.empty
      [("target_alias", .str "unknown"), ("target_name", .str "pvc-b")]⟩

/-- C12, as stated, fails on a qualified name without a colon: the session record
`{target: "pvc-a"}` with the name index `{pvc-a: 1}` reaches the fourth strategy, its final
segment `pvc-a` is a key of the index, and yet no count is recorded. -/
theorem C12_bare_name_not_credited :
    bareNameClient.Call () "iscsi.global.sessions" [] =
      .ok (.list [.obj [("target", .str "pvc-a")]]) ∧
    (split "pvc-a" ':').getLastD "" = "pvc-a" ∧
    GoMap.get? [("pvc-a", (1 : Int))] "pvc-a" = some 1 ∧
    getActiveSessions bareNameClient () [("pvc-a", 1)] = .ok GoMap.empty ∧
    (getActiveSessions.step [("pvc-a", 1)] GoMap.empty (.obj [("target", .str "pvc-a")])).getD
      1 0 = 0 :=
  ⟨rfl, rfl, rfl, rfl, rfl⟩

/-- C12, amended: for a session record that reaches the fourth strategy (no numeric target,
neither alias nor name resolved) with a non-empty qualified name `q`: when `q` contains a
colon the record is credited to the target whose name is the final segment of `q` split on
the colon, if that segment is a key of the name index, and changes nothing if it is not;
when `q` contains no colon the record changes nothing. -/
theorem C12_qualified_name_needs_colon (targetNameToID : GoMap String Int)
    (sessions : GoMap Int Nat) (m : List (String × Value)) (q : String)
    (hq : asString (index m "target") = some q) (hne : q ≠ "")
    (halias : guarded.byName targetNameToID (index m "target_alias") = none)
    (hname : guarded.byName targetNameToID (index m "target_name") = none) :
    (':' ∈ q.data →
      (∀ id, targetNameToID.get? ((split q ':').getLastD "") = some id →
        getActiveSessions.step targetNameToID sessions (.obj m) = sessions.incr id) ∧
      (targetNameToID.get? ((split q ':').getLastD "") = none →
        getActiveSessions.step targetNameToID sessions (.obj m) = sessions)) ∧
    (':' ∉ q.data → getActiveSessions.step targetNameToID sessions (.obj m) = sessions) := by
  have hnum : asInt (index m "target") = none := by
    cases hv : index m "target" with
    | none => rfl
    | some v =>
      rw [hv] at hq
      cases v <;> first | rfl | simp [asString] at hq
  have hstep : getActiveSessions.step targetNameToID sessions (.obj m) =
      credit sessions (guarded.byQualifiedName targetNameToID (index m "target")) := by
    rw [step_obj_eq_credit]
    unfold guarded.resolve
    rw [hnum, halias, hname]
    simp only [firstOf, firstOf_single]
  rw [hstep]
  unfold guarded.byQualifiedName
  rw [hq]
  refine ⟨fun hc => ⟨?_, ?_⟩, ?_⟩
  · intro id hid
    simp only [hne, hc, and_self, if_true, not_false_eq_true, ne_eq, hid]
    rfl
  · intro hnone
    simp only [hne, hc, and_self, if_true, not_false_eq_true, ne_eq, hnone]
    rfl
  · intro hc
    simp only [hc, and_false, if_false]
    rfl

/-- C12 at the record `{target: "iqn.2005-10.org.freenas.ctl:pvc-a"}` with the name index
`{pvc-a: 1}`: the final segment is `pvc-a` and the record is credited to target 1. -/
theorem C12_qualified_name_needs_colon_witness :
    (split "iqn.2005-10.org.freenas.ctl:pvc-a" ':').getLastD "" = "pvc-a" ∧
    getActiveSessions.step [("pvc-a", 1)] GoMap.empty
      (.obj [("target", .str "iqn.2005-10.org.freenas.ctl:pvc-a")]) =
        GoMap.incr GoMap.empty 1 :=
  ⟨rfl,
    ((C12_qualified_name_needs_colon [("pvc-a", 1)] GoMap.empty
      [("target", .str "iqn.2005-10.org.freenas.ctl:pvc-a")]
      "iqn.2005-10.org.freenas.ctl:pvc-a" rfl (by decide) rfl rfl).1 (by decide)).1 1 rfl⟩

/-! ## The target-to-extent link -/

/-- A list with an element satisfying `p` splits at the last such element. -/
theorem exists_last_split {α : Type} (p : α → Prop) (l : List α) (h : ∃ x ∈ l, p x) :
    ∃ pre x post, l = pre ++ x :: post ∧ p x ∧ ∀ y ∈ post, ¬ p y := by
  induction l with
  | nil =>
    obtain ⟨x, hx, _⟩ := h
    exact absurd hx (List.not_mem_nil x)
  | cons a rest ih =>
    by_cases hr : ∃ x ∈ rest, p x
    · obtain ⟨pre, x, post, hl, hx, hpost⟩ := ih hr
      exact ⟨a :: pre, x, post, by rw [hl]; rfl, hx, hpost⟩
    · obtain ⟨x, hx, hpx⟩ := h
      rcases List.mem_cons.mp hx with rfl | hx
      · exact ⟨[], x, rest, rfl, hpx, fun y hy hpy => hr ⟨y, hy, hpy⟩⟩
      · exact absurd ⟨x, hx, hpx⟩ hr

theorem foldl_indexExtents_of_ne (extents : List ISCSIExtent) (m : GoMap Int ISCSIExtent)
    (k : Int) (h : ∀ e ∈ extents, e.ID ≠ k) :
    (extents.foldl (fun extentMap e => GoMap.set extentMap e.ID e) m).get? k = m.get? k := by
  induction extents generalizing m with
  | nil => rfl
  | cons e rest ih =>
    rw [List.foldl_cons, ih _ (fun e' he' => h e' (List.mem_cons_of_mem _ he'))]
    exact GoMap.get?_set_ne _ _ _ _ (h e (List.mem_cons_self _ _))

/-- In `extentMap` the last fetched extent with a given id is the one that is kept. -/
theorem indexExtents_last (pre post : List ISCSIExtent) (e : ISCSIExtent)
    (hpost : ∀ e' ∈ post, e'.ID ≠ e.ID) :
    (auditISCSI.indexExtents (pre ++ e :: post)).get? e.ID = some e := by
  unfold auditISCSI.indexExtents
  rw [List.foldl_append, List.foldl_cons, foldl_indexExtents_of_ne _ _ _ hpost]
  exact GoMap.get?_set_self _ _ _

/-- What `extentMap` holds under an id is a fetched extent with that id, and an id is bound
exactly when some fetched extent has it. -/
theorem indexExtents_get? (extents : List ISCSIExtent) (k : Int) :
    (∀ e, (auditISCSI.indexExtents extents).get? k = some e → e ∈ extents ∧ e.ID = k) ∧
    ((auditISCSI.indexExtents extents).get? k = none ↔ ∀ e ∈ extents, e.ID ≠ k) := by
  by_cases h : ∃ e ∈ extents, e.ID = k
  · obtain ⟨pre, x, post, hl, hx, hpost⟩ := exists_last_split (fun e => e.ID = k) extents h
    subst hx
    have hget := indexExtents_last pre post x hpost
    rw [← hl] at hget
    constructor
    · intro e he
      rw [hget] at he
      injection he with he
      subst he
      exact ⟨by rw [hl]; simp, rfl⟩
    · rw [hget]
      constructor
      · intro hc
        exact Option.noConfusion hc
      · intro hc
        exact absurd rfl (hc x (by rw [hl]; simp))
  · have hne : ∀ e ∈ extents, e.ID ≠ k := fun e he hc => h ⟨e, he, hc⟩
    have hget : (auditISCSI.indexExtents extents).get? k = none := by
      unfold auditISCSI.indexExtents
      rw [foldl_indexExtents_of_ne _ _ _ hne]
      rfl
    constructor
    · intro e he
      rw [hget] at he
      exact Option.noConfusion he
    · rw [hget]
      exact ⟨fun _ => hne, fun _ => rfl⟩

theorem assocStep_targetToExtent (extentMap : GoMap Int ISCSIExtent) (ix : AssocIndex)
    (a : ISCSITargetExtent) :
    (auditISCSI.assocStep extentMap ix a).targetToExtent =
      match extentMap.get? a.Extent with
      | some e => ix.targetToExtent.set a.Target e
      | none => ix.targetToExtent := by
  unfold auditISCSI.assocStep
  cases extentMap.get? a.Extent <;> rfl

/-- Associations that do not write the link of `k` leave it as it was. -/
theorem foldl_assocStep_targetToExtent_of_skip (extentMap : GoMap Int ISCSIExtent)
    (associations : List ISCSITargetExtent) (ix : AssocIndex) (k : Int)
    (h : ∀ a ∈ associations, a.Target = k → extentMap.get? a.Extent = none) :
    (associations.foldl (auditISCSI.assocStep extentMap) ix).targetToExtent.get? k =
      ix.targetToExtent.get? k := by
  induction associations generalizing ix with
  | nil => rfl
  | cons a rest ih =>
    rw [List.foldl_cons, ih _ (fun b hb => h b (List.mem_cons_of_mem _ hb)),
      assocStep_targetToExtent]
    cases he : extentMap.get? a.Extent with
    | none => rfl
    | some e =>
      have hne : a.Target ≠ k := by
        intro hc
        have := h a (List.mem_cons_self _ _) hc
        rw [he] at this
        exact Option.noConfusion this
      exact GoMap.get?_set_ne _ _ _ _ hne

/-- Last write wins: the link of `k` is the extent of the last association of `k` whose
extent id is bound in `extentMap`. -/
theorem indexAssociations_last (extentMap : GoMap Int ISCSIExtent)
    (pre post : List ISCSITargetExtent) (a : ISCSITargetExtent) (e : ISCSIExtent)
    (he : extentMap.get? a.Extent = some e)
    (hpost : ∀ b ∈ post, b.Target = a.Target → extentMap.get? b.Extent = none) :
    (auditISCSI.indexAssociations extentMap (pre ++ a :: post)).targetToExtent.get? a.Target =
      some e := by
  unfold auditISCSI.indexAssociations
  rw [List.foldl_append, List.foldl_cons,
    foldl_assocStep_targetToExtent_of_skip _ _ _ _ hpost, assocStep_targetToExtent, he]
  exact GoMap.get?_set_self _ _ _

/-- The link of `k`, when there is one, is the extent that `extentMap` holds for an
association of `k`; there is none exactly when no association of `k` has its extent id bound
in `extentMap`. -/
theorem indexAssociations_targetToExtent (extentMap : GoMap Int ISCSIExtent)
    (associations : List ISCSITargetExtent) (k : Int) :
    (∀ e, (auditISCSI.indexAssociations extentMap associations).targetToExtent.get? k = some e →
      ∃ a ∈ associations, a.Target = k ∧ extentMap.get? a.Extent = some e) ∧
    ((auditISCSI.indexAssociations extentMap associations).targetToExtent.get? k = none ↔
      ∀ a ∈ associations, a.Target = k → extentMap.get? a.Extent = none) := by
  by_cases h : ∃ a ∈ associations, a.Target = k ∧ extentMap.get? a.Extent ≠ none
  · obtain ⟨pre, a, post, hl, ⟨hak, hae⟩, hpost⟩ :=
      exists_last_split (fun a => a.Target = k ∧ extentMap.get? a.Extent ≠ none)
        associations h
    subst hak
    obtain ⟨e, he⟩ := Option.ne_none_iff_exists'.mp hae
    have hlast := indexAssociations_last extentMap pre post a e he (by
      intro b hb hbt
      by_contra hc
      exact hpost b hb ⟨hbt, hc⟩)
    rw [← hl] at hlast
    constructor
    · intro e' he'
      rw [hlast] at he'
      injection he' with he'
      subst he'
      exact ⟨a, by rw [hl]; simp, rfl, he⟩
    · rw [hlast]
      constructor
      · intro hc
        exact Option.noConfusion hc
      · intro hc
        exact absurd (hc a (by rw [hl]; simp) rfl) hae
  · have hskip : ∀ a ∈ associations, a.Target = k → extentMap.get? a.Extent = none := by
      intro a ha hak
      by_contra hc
      exact h ⟨a, ha, hak, hc⟩
    have hget : (auditISCSI.indexAssociations extentMap associations).targetToExtent.get? k
        = none := by
      unfold auditISCSI.indexAssociations
      rw [foldl_assocStep_targetToExtent_of_skip _ _ _ _ hskip]
      rfl
    constructor
    · intro e he
      rw [hget] at he
      exact Option.noConfusion he
    · rw [hget]
      exact ⟨fun _ => hskip, fun _ => rfl⟩

theorem connectionInfo_ExtentInfo (sessions : GoMap Int Nat) (ix : AssocIndex)
    (t : ISCSITarget) :
    (auditISCSI.connectionInfo sessions ix t).ExtentInfo =
      (ix.targetToExtent.get? t.ID).map auditISCSI.extentInfo := by
  unfold auditISCSI.connectionInfo
  cases ix.targetToExtent.get? t.ID <;> rfl

theorem connectionInfo_HasExtent (sessions : GoMap Int Nat) (ix : AssocIndex)
    (t : ISCSITarget) :
    (auditISCSI.connectionInfo sessions ix t).HasExtent =
      ix.targetsWithExtents.getD t.ID false := by
  unfold auditISCSI.connectionInfo
  cases ix.targetToExtent.get? t.ID <;> rfl

theorem connectionInfo_ActiveSessions (sessions : GoMap Int Nat) (ix : AssocIndex)
    (t : ISCSITarget) :
    (auditISCSI.connectionInfo sessions ix t).ActiveSessions = sessions.getD t.ID 0 := by
  unfold auditISCSI.connectionInfo
  cases ix.targetToExtent.get? t.ID <;> rfl

/-- Every entry of the zero-session list is built from a fetched target whose count reads
zero: its target part, extent flag and extent annotation are those of that target. -/
theorem mem_targetsWithoutConnection {σ : Type} {client : Client σ} {s : σ}
    {parentDataset : String} {targets : List ISCSITarget} {extents : List ISCSIExtent}
    {associations : List ISCSITargetExtent} {result : ISCSIAuditResult}
    (hT : getAllTargets client s = .ok targets)
    (hE : getAllExtents client s = .ok extents)
    (hA : getAllTargetExtents client s = .ok associations)
    (hR : auditISCSI client s parentDataset = .ok result) (x : TargetConnectionInfo)
    (hx : x ∈ result.TargetsWithoutConnection) :
    ∃ t ∈ targets,
      (auditISCSI.sessions client s (auditISCSI.indexTargets targets).2).getD t.ID 0 = 0 ∧
      x.Target = { ID := t.ID, Name := t.Name } ∧
      x.HasExtent = (auditISCSI.indexAssociations (auditISCSI.indexExtents extents)
        associations).targetsWithExtents.getD t.ID false ∧
      x.ExtentInfo = ((auditISCSI.indexAssociations (auditISCSI.indexExtents extents)
        associations).targetToExtent.get? t.ID).map auditISCSI.extentInfo ∧
      x.ActiveSessions = 0 ∧ x.PossibleOrphaned = true := by
  rw [audit_targetsWithoutConnection hT hE hA hR] at hx
  simp only [List.mem_map, List.mem_filter, decide_eq_true_eq] at hx
  obtain ⟨t, ⟨ht, hz⟩, rfl⟩ := hx
  refine ⟨t, ht, hz, connectionInfo_Target _ _ t, connectionInfo_HasExtent _ _ t,
    connectionInfo_ExtentInfo _ _ t, ?_, rfl⟩
  simp only [connectionInfo_ActiveSessions]
  exact hz

/-- C13, as stated, fails when an association references an extent id that the extent query
did not return: target 1 `pvc-a` with the association (target 1, extent 9) and no fetched
extent has a zero-session entry with `HasExtent = true` and no `ExtentInfo`. -/
theorem C13_dangling_association_without_extent_info :
    auditISCSI danglingLinkClient () "tank/k8s" = .ok
      { TargetsWithoutConnection :=
          [{ Target := { ID := 1, Name := "pvc-a" }
             HasExtent := true
             ExtentInfo := none
             ActiveSessions := 0
             PossibleOrphaned := true }] } :=
  rfl

/-- C13, amended: in a successful audit, for every entry of `TargetsWithoutConnection` with
`HasExtent = true` some association names its target; if one of the associations of that
target references the id of a fetched extent, `ExtentInfo` is present and carries the id,
name and disk of a fetched extent that an association links to that target; if none does,
`ExtentInfo` is absent. -/
theorem C13_extent_info_of_fetched_extent {σ : Type} (client : Client σ) (s : σ)
    (parentDataset : String) (targets : List ISCSITarget) (extents : List ISCSIExtent)
    (associations : List ISCSITargetExtent) (result : ISCSIAuditResult)
    (hT : getAllTargets client s = .ok targets)
    (hE : getAllExtents client s = .ok extents)
    (hA : getAllTargetExtents client s = .ok associations)
    (hR : auditISCSI client s parentDataset = .ok result)
    (x : TargetConnectionInfo) (hx : x ∈ result.TargetsWithoutConnection)
    (hflag : x.HasExtent = true) :
    (∃ a ∈ associations, a.Target = x.Target.ID) ∧
    ((∃ a ∈ associations, a.Target = x.Target.ID ∧ ∃ e ∈ extents, e.ID = a.Extent) →
      ∃ a ∈ associations, ∃ e ∈ extents, a.Target = x.Target.ID ∧ e.ID = a.Extent ∧
        x.ExtentInfo = some { ID := e.ID, Name := e.Name, Disk := e.Disk }) ∧
    ((∀ a ∈ associations, a.Target = x.Target.ID → ∀ e ∈ extents, e.ID ≠ a.Extent) →
      x.ExtentInfo = none) := by
  obtain ⟨t, _, _, hxt, hxh, hxe, _, _⟩ := mem_targetsWithoutConnection hT hE hA hR x hx
  have hid : x.Target.ID = t.ID := by rw [hxt]
  rw [hid]
  have hlink := indexAssociations_targetToExtent (auditISCSI.indexExtents extents)
    associations t.ID
  refine ⟨?_, ?_, ?_⟩
  · rw [hxh] at hflag
    exact (targetsWithExtents_iff _ associations t.ID).mp hflag
  · rintro ⟨a, ha, hat, e, he, hea⟩
    cases hget : (auditISCSI.indexAssociations (auditISCSI.indexExtents extents)
        associations).targetToExtent.get? t.ID with
    | none =>
      have hnone := hlink.2.mp hget a ha hat
      exact absurd hea (((indexExtents_get? extents a.Extent).2.mp hnone) e he)
    | some e' =>
      obtain ⟨b, hb, hbt, hbe⟩ := hlink.1 e' hget
      obtain ⟨he', hid'⟩ := (indexExtents_get? extents b.Extent).1 e' hbe
      refine ⟨b, hb, e', he', hbt, hid', ?_⟩
      rw [hxe, hget]
      rfl
  · intro hnone
    have : (auditISCSI.indexAssociations (auditISCSI.indexExtents extents)
        associations).targetToExtent.get? t.ID = none := by
      apply hlink.2.mpr
      intro a ha hat
      exact (indexExtents_get? extents a.Extent).2.mpr (hnone a ha hat)
    rw [hxe, this]
    rfl

/-- C13 at the demo appliance with both associations of `twoLinksClient`: the entry of
`pvc-a` has `HasExtent = true` and carries a fetched extent of one of its associations. -/
theorem C13_extent_info_of_fetched_extent_witness :
    auditISCSI twoLinksClient () "tank/k8s" = .ok twoLinksResult ∧
    (∃ a ∈ ([{ ID := 1, Target := 1, Extent := 5 }, { ID := 2, Target := 1, Extent := 6 }] :
        List ISCSITargetExtent), a.Target = 1) :=
  ⟨rfl,
    (C13_extent_info_of_fetched_extent twoLinksClient () "tank/k8s" [{ ID := 1, Name := "pvc-a" }]
      [{ ID := 5, Name := "e5", Disk := "zvol/tank/five", Type_ := "DISK" },
       { ID := 6, Name := "e6", Disk := "zvol/tank/six", Type_ := "DISK" }]
      [{ ID := 1, Target := 1, Extent := 5 }, { ID := 2, Target := 1, Extent := 6 }]
      twoLinksResult rfl rfl rfl rfl
      { Target := { ID := 1, Name := "pvc-a" }
        HasExtent := true
        ExtentInfo := some { ID := 6, Name := "e6", Disk := "zvol/tank/six" }
        PossibleOrphaned := true }
      (List.mem_singleton.mpr rfl) rfl).1⟩

/-- C14: in a successful audit, let `a` be the last association in list order that names
its target, and let every association reference the id of a fetched extent.  Then the
target-to-extent link of that target is the fetched extent with the id `a.Extent` (the last
one in fetch order, should the id occur twice), and every entry of
`TargetsWithoutConnection` for that target carries the id, name and disk of that extent. -/
theorem C14_last_association_wins {σ : Type} (client : Client σ) (s : σ)
    (parentDataset : String) (targets : List ISCSITarget) (extents : List ISCSIExtent)
    (associations : List ISCSITargetExtent) (result : ISCSIAuditResult)
    (hT : getAllTargets client s = .ok targets)
    (hE : getAllExtents client s = .ok extents)
    (hA : getAllTargetExtents client s = .ok associations)
    (hR : auditISCSI client s parentDataset = .ok result)
    (pre post : List ISCSITargetExtent) (a : ISCSITargetExtent)
    (hsplit : associations = pre ++ a :: post)
    (hlast : ∀ b ∈ post, b.Target ≠ a.Target)
    (hpresent : ∀ b ∈ associations, ∃ e ∈ extents, e.ID = b.Extent) :
    ∃ epre e epost, extents = epre ++ e :: epost ∧ e.ID = a.Extent ∧
      (∀ e' ∈ epost, e'.ID ≠ a.Extent) ∧
      (auditISCSI.indexAssociations (auditISCSI.indexExtents extents)
        associations).targetToExtent.get? a.Target = some e ∧
      ∀ x ∈ result.TargetsWithoutConnection, x.Target.ID = a.Target →
        x.HasExtent = true ∧
        x.ExtentInfo = some { ID := e.ID, Name := e.Name, Disk := e.Disk } := by
  have hmemA : a ∈ associations := by rw [hsplit]; simp
  obtain ⟨epre, e, epost, hes, heid, hepost⟩ :=
    exists_last_split (fun e => e.ID = a.Extent) extents (hpresent a hmemA)
  have hem : (auditISCSI.indexExtents extents).get? a.Extent = some e := by
    have := indexExtents_last epre epost e (by
      intro e' he'
      rw [heid]
      exact hepost e' he')
    rw [← hes, heid] at this
    exact this
  have hlink : (auditISCSI.indexAssociations (auditISCSI.indexExtents extents)
      associations).targetToExtent.get? a.Target = some e := by
    rw [hsplit]
    exact indexAssociations_last _ pre post a e hem
      (fun b hb hbt => absurd hbt (hlast b hb))
  refine ⟨epre, e, epost, hes, heid, hepost, hlink, ?_⟩
  intro x hx hxid
  obtain ⟨t, _, _, hxt, hxh, hxe, _, _⟩ := mem_targetsWithoutConnection hT hE hA hR x hx
  have hid : t.ID = a.Target := by
    rw [hxt] at hxid
    exact hxid
  rw [hid] at hxh hxe
  constructor
  · rw [hxh]
    exact (targetsWithExtents_iff _ associations a.Target).mpr ⟨a, hmemA, rfl⟩
  · rw [hxe, hlink]
    rfl

/-- C14 on target `pvc-a` with the associations to extent 5 and then to extent 6: the link
and the annotation are extent 6. -/
theorem C14_last_association_wins_witness :
    auditISCSI twoLinksClient () "tank/k8s" = .ok twoLinksResult ∧
    ∃ epre e epost,
      ([{ ID := 5, Name := "e5", Disk := "zvol/tank/five", Type_ := "DISK" },
        { ID := 6, Name := "e6", Disk := "zvol/tank/six", Type_ := "DISK" }] :
          List ISCSIExtent) = epre ++ e :: epost ∧
      e.ID = 6 ∧
      (∀ e' ∈ epost, e'.ID ≠ 6) ∧
      (auditISCSI.indexAssociations
        (auditISCSI.indexExtents
          [{ ID := 5, Name := "e5", Disk := "zvol/tank/five", Type_ := "DISK" },
           { ID := 6, Name := "e6", Disk := "zvol/tank/six", Type_ := "DISK" }])
        [{ ID := 1, Target := 1, Extent := 5 },
         { ID := 2, Target := 1, Extent := 6 }]).targetToExtent.get? 1 = some e ∧
      ∀ x ∈ twoLinksResult.TargetsWithoutConnection, x.Target.ID = 1 →
        x.HasExtent = true ∧
        x.ExtentInfo = some { ID := e.ID, Name := e.Name, Disk := e.Disk } :=
  ⟨rfl,
    C14_last_association_wins twoLinksClient () "tank/k8s" [{ ID := 1, Name := "pvc-a" }]
      [{ ID := 5, Name := "e5", Disk := "zvol/tank/five", Type_ := "DISK" },
       { ID := 6, Name := "e6", Disk := "zvol/tank/six", Type_ := "DISK" }]
      [{ ID := 1, Target := 1, Extent := 5 }, { ID := 2, Target := 1, Extent := 6 }]
      twoLinksResult rfl rfl rfl rfl
      [{ ID := 1, Target := 1, Extent := 5 }] [] { ID := 2, Target := 1, Extent := 6 } rfl
      (by simp) (by decide)⟩

/-! ## Dependence of the audit on the client -/

/-- The session counts of the audit are the loop of `getActiveSessions` over the session
records of the run. -/
theorem sessions_eq_foldl {σ : Type} (client : Client σ) (s : σ)
    (targetNameToID : GoMap String Int) :
    auditISCSI.sessions client s targetNameToID =
      (sessionRecords client s).foldl (getActiveSessions.step targetNameToID) GoMap.empty := by
  unfold auditISCSI.sessions getActiveSessions sessionRecords
  cases client.Call s "iscsi.global.sessions" [] with
  | error err => rfl
  | ok v => cases v <;> rfl

/-- The audit result depends on the client only through the three fetched lists, the session
counts, the dataset probes of the targets without association and the volume probes of the
`DISK` extents under `zvol/`. -/
theorem auditISCSI_congr {σ₁ σ₂ : Type} (c₁ : Client σ₁) (s₁ : σ₁) (c₂ : Client σ₂) (s₂ : σ₂)
    (parentDataset : String) (targets : List ISCSITarget) (extents : List ISCSIExtent)
    (associations : List ISCSITargetExtent)
    (hT₁ : getAllTargets c₁ s₁ = .ok targets) (hT₂ : getAllTargets c₂ s₂ = .ok targets)
    (hE₁ : getAllExtents c₁ s₁ = .ok extents) (hE₂ : getAllExtents c₂ s₂ = .ok extents)
    (hA₁ : getAllTargetExtents c₁ s₁ = .ok associations)
    (hA₂ : getAllTargetExtents c₂ s₂ = .ok associations)
    (hS : auditISCSI.sessions c₁ s₁ (auditISCSI.indexTargets targets).2 =
      auditISCSI.sessions c₂ s₂ (auditISCSI.indexTargets targets).2)
    (hD : ∀ t ∈ targets, (¬ ∃ a ∈ associations, a.Target = t.ID) →
      checkDatasetExists c₁ s₁ t.Name parentDataset =
        checkDatasetExists c₂ s₂ t.Name parentDataset)
    (hZ : ∀ e ∈ extents, e.Type_ = "DISK" → hasPrefix e.Disk "zvol/" = true →
      checkZvolExists c₁ s₁ (trimPrefix e.Disk "zvol/") =
        checkZvolExists c₂ s₂ (trimPrefix e.Disk "zvol/")) :
    auditISCSI c₁ s₁ parentDataset = auditISCSI c₂ s₂ parentDataset := by
  rw [auditISCSI_eq c₁ s₁ parentDataset targets extents associations hT₁ hE₁ hA₁,
    auditISCSI_eq c₂ s₂ parentDataset targets extents associations hT₂ hE₂ hA₂, hS]
  have hinfo : (targets.filter (fun t =>
      !((auditISCSI.indexAssociations (auditISCSI.indexExtents extents)
          associations).targetsWithExtents.getD t.ID false))).map
        (auditISCSI.targetInfo c₁ s₁ parentDataset) =
      (targets.filter (fun t =>
      !((auditISCSI.indexAssociations (auditISCSI.indexExtents extents)
          associations).targetsWithExtents.getD t.ID false))).map
        (auditISCSI.targetInfo c₂ s₂ parentDataset) := by
    apply List.map_congr_left
    intro t ht
    rw [List.mem_filter] at ht
    have hno : ¬ ∃ a ∈ associations, a.Target = t.ID := by
      intro hc
      have := (targetsWithExtents_iff (auditISCSI.indexExtents extents) associations t.ID).mpr hc
      rw [this] at ht
      exact Bool.noConfusion ht.2
    unfold auditISCSI.targetInfo
    rw [hD t ht.1 hno]
  have hzvol : extents.filter (fun e => decide (e.Type_ = "DISK" ∧
        hasPrefix e.Disk "zvol/" = true ∧
        checkZvolExists c₁ s₁ (trimPrefix e.Disk "zvol/") = (false, none))) =
      extents.filter (fun e => decide (e.Type_ = "DISK" ∧
        hasPrefix e.Disk "zvol/" = true ∧
        checkZvolExists c₂ s₂ (trimPrefix e.Disk "zvol/") = (false, none))) := by
    apply List.filter_congr
    intro e he
    by_cases h1 : e.Type_ = "DISK"
    · by_cases h2 : hasPrefix e.Disk "zvol/" = true
      · rw [hZ e he h1 h2]
      · simp [h2]
    · simp [h1]
  rw [hinfo, hzvol]

section WithSessions

variable {σ : Type} (client : Client σ) (s : σ) (answer : Except String Value)

theorem withSessions_call_other (method : String) (params : List Value)
    (h : method ≠ "iscsi.global.sessions") :
    (client.withSessions answer).Call s method params = client.Call s method params := by
  unfold Client.withSessions
  simp only [if_neg h]

theorem withSessions_call_sessions (params : List Value) :
    (client.withSessions answer).Call s "iscsi.global.sessions" params = answer := by
  unfold Client.withSessions
  simp only [if_true]

theorem withSessions_getAllTargets :
    getAllTargets (client.withSessions answer) s = getAllTargets client s := by
  unfold getAllTargets
  rw [withSessions_call_other client s answer _ _ (by decide)]

theorem withSessions_getAllExtents :
    getAllExtents (client.withSessions answer) s = getAllExtents client s := by
  unfold getAllExtents
  rw [withSessions_call_other client s answer _ _ (by decide)]

theorem withSessions_getAllTargetExtents :
    getAllTargetExtents (client.withSessions answer) s = getAllTargetExtents client s := by
  unfold getAllTargetExtents
  rw [withSessions_call_other client s answer _ _ (by decide)]

theorem withSessions_checkDatasetExists (targetName parentDataset : String) :
    checkDatasetExists (client.withSessions answer) s targetName parentDataset =
      checkDatasetExists client s targetName parentDataset := by
  unfold checkDatasetExists
  simp only [withSessions_call_other client s answer _ _
    (by decide : "pool.dataset.query" ≠ "iscsi.global.sessions")]

theorem withSessions_checkZvolExists (datasetName : String) :
    checkZvolExists (client.withSessions answer) s datasetName =
      checkZvolExists client s datasetName := by
  unfold checkZvolExists
  rw [withSessions_call_other client s answer _ _ (by decide)]

end WithSessions

/-- C15: when the three primary fetches succeed and the session call fails, the audit
returns a result; it is computed with the empty session map, so every fetched target has an
entry with `ActiveSessions = 0` in `TargetsWithoutConnection` (the list is the fetch list, in
order), and the result is, in all six lists, the result of the same appliance answering the
session call with an empty list. -/
theorem C15_failed_session_fetch_degrades {σ : Type} (client : Client σ) (s : σ)
    (parentDataset : String) (targets : List ISCSITarget) (extents : List ISCSIExtent)
    (associations : List ISCSITargetExtent) (err : String)
    (hT : getAllTargets client s = .ok targets)
    (hE : getAllExtents client s = .ok extents)
    (hA : getAllTargetExtents client s = .ok associations)
    (hS : client.Call s "iscsi.global.sessions" [] = .error err) :
    ∃ result, auditISCSI client s parentDataset = .ok result ∧
      auditISCSI.sessions client s (auditISCSI.indexTargets targets).2 = GoMap.empty ∧
      (∀ t ∈ targets, ∃ x ∈ result.TargetsWithoutConnection,
        x.Target = { ID := t.ID, Name := t.Name } ∧ x.ActiveSessions = 0) ∧
      result.TargetsWithoutConnection.map (fun x => x.Target) =
        targets.map (fun t => { ID := t.ID, Name := t.Name }) ∧
      auditISCSI (client.withSessions (.ok (.list []))) s parentDataset = .ok result := by
  have hempty : ∀ idx, auditISCSI.sessions client s idx = GoMap.empty := by
    intro idx
    unfold auditISCSI.sessions getActiveSessions
    rw [hS]
  have hempty2 : ∀ idx,
      auditISCSI.sessions (client.withSessions (.ok (.list []))) s idx = GoMap.empty := by
    intro idx
    unfold auditISCSI.sessions getActiveSessions
    rw [withSessions_call_sessions]
    rfl
  have hR := auditISCSI_eq client s parentDataset targets extents associations hT hE hA
  refine ⟨_, hR, hempty _, ?_, ?_, ?_⟩
  · intro t ht
    refine ⟨{ auditISCSI.connectionInfo
        (auditISCSI.sessions client s (auditISCSI.indexTargets targets).2)
        (auditISCSI.indexAssociations (auditISCSI.indexExtents extents) associations)
        t with PossibleOrphaned := true }, ?_, ?_, ?_⟩
    · simp only [List.mem_map, List.mem_filter, decide_eq_true_eq]
      refine ⟨t, ⟨ht, ?_⟩, rfl⟩
      rw [hempty]
      rfl
    · simp only [connectionInfo_Target]
    · simp only [connectionInfo_ActiveSessions]
      rw [hempty]
      rfl
  · simp only [hempty, GoMap.getD_empty, decide_True, List.filter_true, List.map_map]
    apply List.map_congr_left
    intro t _
    simp only [Function.comp, connectionInfo_Target]
  · rw [← hR]
    apply auditISCSI_congr _ _ _ _ parentDataset targets extents associations
    · rw [withSessions_getAllTargets, hT]
    · exact hT
    · rw [withSessions_getAllExtents, hE]
    · exact hE
    · rw [withSessions_getAllTargetExtents, hA]
    · exact hA
    · rw [hempty, hempty2]
    · intro t _ _
      exact withSessions_checkDatasetExists client s _ t.Name parentDataset
    · intro e _ _ _
      exact withSessions_checkZvolExists client s _ _

/-- C15 at the demo appliance with a failing session call: the audit returns, all three
targets are in the zero-session list, and the result is the one for an empty session
list. -/
theorem C15_failed_session_fetch_degrades_witness :
    demoNoSessions.Call () "iscsi.global.sessions" [] = .error "connection reset" ∧
    auditISCSI demoNoSessions () "tank/k8s" = .ok demoNoSessionsResult ∧
    ∃ result, auditISCSI demoNoSessions () "tank/k8s" = .ok result ∧
      auditISCSI.sessions demoNoSessions () (auditISCSI.indexTargets demoTargets).2
        = GoMap.empty ∧
      (∀ t ∈ demoTargets, ∃ x ∈ result.TargetsWithoutConnection,
        x.Target = { ID := t.ID, Name := t.Name } ∧ x.ActiveSessions = 0) ∧
      result.TargetsWithoutConnection.map (fun x => x.Target) =
        demoTargets.map (fun t => { ID := t.ID, Name := t.Name }) ∧
      auditISCSI (demoNoSessions.withSessions (.ok (.list []))) () "tank/k8s" = .ok result :=
  ⟨rfl, rfl,
    C15_failed_session_fetch_degrades demoNoSessions () "tank/k8s" demoTargets demoExtents
      demoAssociations "connection reset" rfl rfl rfl rfl⟩

/-- C16: `auditISCSI` returns an error exactly when one of the three primary fetches
(targets, extents, associations) returns an error, and returns a result exactly when all
three succeed; the session call and the dataset and volume probes do not enter the
condition. -/
theorem C16_error_iff_primary_fetch_fails {σ : Type} (client : Client σ) (s : σ)
    (parentDataset : String) :
    ((∃ err, auditISCSI client s parentDataset = .error err) ↔
      ((∃ err, getAllTargets client s = .error err) ∨
       (∃ err, getAllExtents client s = .error err) ∨
       (∃ err, getAllTargetExtents client s = .error err))) ∧
    ((∃ result, auditISCSI client s parentDataset = .ok result) ↔
      ((∃ targets, getAllTargets client s = .ok targets) ∧
       (∃ extents, getAllExtents client s = .ok extents) ∧
       (∃ associations, getAllTargetExtents client s = .ok associations))) := by
  cases hT : getAllTargets client s with
  | error e =>
    have hR : auditISCSI client s parentDataset = .error ("failed to get targets: " ++ e) := by
      unfold auditISCSI
      simp only [hT]
    rw [hR]
    simp
  | ok targets =>
    cases hE : getAllExtents client s with
    | error e =>
      have hR : auditISCSI client s parentDataset =
          .error ("failed to get extents: " ++ e) := by
        unfold auditISCSI
        simp only [hT, hE]
      rw [hR]
      simp
    | ok extents =>
      cases hA : getAllTargetExtents client s with
      | error e =>
        have hR : auditISCSI client s parentDataset =
            .error ("failed to get associations: " ++ e) := by
          unfold auditISCSI
          simp only [hT, hE, hA]
        rw [hR]
        simp
      | ok associations =>
        rw [auditISCSI_eq client s parentDataset targets extents associations hT hE hA]
        simp

/-- C17: two runs of the audit, on any two clients and remote states, that fetch the same
three lists and the same session records and get the same answers from the dataset probes
(of the targets without association) and from the volume probes (of the `DISK` extents under
`zvol/`) both return, and return the same result: all six lists are equal, entry by entry
and in order. -/
theorem C17_same_answers_same_result {σ₁ σ₂ : Type} (c₁ : Client σ₁) (s₁ : σ₁)
    (c₂ : Client σ₂) (s₂ : σ₂) (parentDataset : String) (targets : List ISCSITarget)
    (extents : List ISCSIExtent) (associations : List ISCSITargetExtent)
    (hT₁ : getAllTargets c₁ s₁ = .ok targets) (hT₂ : getAllTargets c₂ s₂ = .ok targets)
    (hE₁ : getAllExtents c₁ s₁ = .ok extents) (hE₂ : getAllExtents c₂ s₂ = .ok extents)
    (hA₁ : getAllTargetExtents c₁ s₁ = .ok associations)
    (hA₂ : getAllTargetExtents c₂ s₂ = .ok associations)
    (hS : sessionRecords c₁ s₁ = sessionRecords c₂ s₂)
    (hD : ∀ t ∈ targets, (¬ ∃ a ∈ associations, a.Target = t.ID) →
      checkDatasetExists c₁ s₁ t.Name parentDataset =
        checkDatasetExists c₂ s₂ t.Name parentDataset)
    (hZ : ∀ e ∈ extents, e.Type_ = "DISK" → hasPrefix e.Disk "zvol/" = true →
      checkZvolExists c₁ s₁ (trimPrefix e.Disk "zvol/") =
        checkZvolExists c₂ s₂ (trimPrefix e.Disk "zvol/")) :
    ∃ result, auditISCSI c₁ s₁ parentDataset = .ok result ∧
      auditISCSI c₂ s₂ parentDataset = .ok result := by
  refine ⟨_, auditISCSI_eq c₁ s₁ parentDataset targets extents associations hT₁ hE₁ hA₁, ?_⟩
  rw [← auditISCSI_eq c₁ s₁ parentDataset targets extents associations hT₁ hE₁ hA₁]
  symm
  apply auditISCSI_congr c₁ s₁ c₂ s₂ parentDataset targets extents associations
    hT₁ hT₂ hE₁ hE₂ hA₁ hA₂ _ hD hZ
  rw [sessions_eq_foldl, sessions_eq_foldl, hS]

/-- C17 on the demo appliance and its recording twin, which has another state type and
gives the same answers: both runs return `demoResult`. -/
theorem C17_same_answers_same_result_witness :
    ∃ result, auditISCSI demoClient () "tank/k8s" = .ok result ∧
      auditISCSI demoClient.recording ((), []) "tank/k8s" = .ok result :=
  C17_same_answers_same_result demoClient () demoClient.recording ((), []) "tank/k8s"
    demoTargets demoExtents demoAssociations rfl rfl rfl rfl rfl rfl rfl
    (fun _ _ _ => rfl) (fun _ _ _ _ => rfl)

/-- C18: for every parent dataset `p` and target name `n`, `checkDatasetExists` queries
`pool.dataset.query` with the filter on the path `p/n`, and returns that path as its second
result whether the call fails, answers with a list, or answers with something else; and in
a successful audit every entry of `TargetsWithoutExtents` has `DatasetPath` equal to the
parent dataset, a slash and its `Name`, and `HasDataset` equal to the flag of the probe. -/
theorem C18_dataset_path_of_entry {σ : Type} (client : Client σ) (s : σ)
    (parentDataset : String) (targets : List ISCSITarget) (extents : List ISCSIExtent)
    (associations : List ISCSITargetExtent) (result : ISCSIAuditResult)
    (hT : getAllTargets client s = .ok targets)
    (hE : getAllExtents client s = .ok extents)
    (hA : getAllTargetExtents client s = .ok associations)
    (hR : auditISCSI client s parentDataset = .ok result) :
    (∀ p n : String, (checkDatasetExists client s n p).2.1 = p ++ "/" ++ n) ∧
    (∀ p n : String, checkDatasetExists client s n p =
      match client.Call s "pool.dataset.query" [idFilter (p ++ "/" ++ n), .obj []] with
      | .error err => (false, p ++ "/" ++ n, some err)
      | .ok (.list items) => (decide (items.length > 0), p ++ "/" ++ n, none)
      | .ok _ => (false, p ++ "/" ++ n, none)) ∧
    (∀ x ∈ result.TargetsWithoutExtents,
      x.DatasetPath = parentDataset ++ "/" ++ x.Name ∧
      x.HasDataset = (checkDatasetExists client s x.Name parentDataset).1) := by
  have hpath : ∀ p n : String, (checkDatasetExists client s n p).2.1 = p ++ "/" ++ n := by
    intro p n
    unfold checkDatasetExists
    simp only
    cases client.Call s "pool.dataset.query" [idFilter (p ++ "/" ++ n), .obj []] with
    | error err => rfl
    | ok v => cases v <;> rfl
  refine ⟨hpath, ?_, ?_⟩
  · intro p n
    unfold checkDatasetExists
    simp only
    cases client.Call s "pool.dataset.query" [idFilter (p ++ "/" ++ n), .obj []] with
    | error err => rfl
    | ok v => cases v <;> rfl
  · intro x hx
    obtain ⟨t, _, _, rfl⟩ := (mem_targetsWithoutExtents hT hE hA hR x).mp hx
    exact ⟨hpath parentDataset t.Name, rfl⟩

/-- C18 at the demo appliance: the entries of targets 1 and 2 carry `tank/k8s/pvc-a` and
`tank/k8s/pvc-b`. -/
theorem C18_dataset_path_of_entry_witness :
    checkDatasetExists demoClient () "pvc-a" "tank/k8s" = (true, "tank/k8s/pvc-a", none) ∧
    (∀ x ∈ demoResult.TargetsWithoutExtents,
      x.DatasetPath = "tank/k8s" ++ "/" ++ x.Name ∧
      x.HasDataset = (checkDatasetExists demoClient () x.Name "tank/k8s").1) :=
  ⟨rfl,
    (C18_dataset_path_of_entry demoClient () "tank/k8s" demoTargets demoExtents
      demoAssociations demoResult demo_targets demo_extents demo_associations demo_audit).2.2⟩

/-! ## Rendering -/

section Sorting

variable {α : Type}

theorem sortSlice_insert_perm (less : α → α → Bool) (x : α) (l : List α) :
    (sortSlice.insert less x l).Perm (x :: l) := by
  induction l with
  | nil => exact List.Perm.refl _
  | cons y ys ih =>
    unfold sortSlice.insert
    cases less x y with
    | true => exact List.Perm.refl _
    | false =>
      simp only [Bool.false_eq_true, if_false]
      exact (List.Perm.cons y ih).trans (List.Perm.swap x y ys)

/-- Sorting keeps the entries of the list. -/
theorem sortSlice_perm (less : α → α → Bool) (l : List α) : (sortSlice less l).Perm l := by
  induction l with
  | nil => exact List.Perm.refl _
  | cons x xs ih =>
    unfold sortSlice
    exact (sortSlice_insert_perm less x _).trans (List.Perm.cons x ih)

theorem sortSlice_insert_pairwise (key : α → Int) (x : α) (l : List α)
    (h : l.Pairwise (fun a b => key a ≤ key b)) :
    (sortSlice.insert (fun a b => decide (key a < key b)) x l).Pairwise
      (fun a b => key a ≤ key b) := by
  induction l with
  | nil => exact List.pairwise_singleton _ _
  | cons y ys ih =>
    unfold sortSlice.insert
    rw [List.pairwise_cons] at h
    by_cases hxy : key x < key y
    · simp only [hxy, decide_True, if_true]
      rw [List.pairwise_cons, List.pairwise_cons]
      refine ⟨?_, h.1, h.2⟩
      intro z hz
      rcases List.mem_cons.mp hz with rfl | hz
      · omega
      · have := h.1 z hz
        omega
    · simp only [hxy, decide_False, Bool.false_eq_true, if_false]
      rw [List.pairwise_cons]
      refine ⟨?_, ih h.2⟩
      intro z hz
      have hz' := (sortSlice_insert_perm (fun a b => decide (key a < key b)) x ys).subset hz
      rcases List.mem_cons.mp hz' with rfl | hz'
      · omega
      · exact h.1 z hz'

/-- Sorting by `key a < key b` leaves the list in ascending order of the key. -/
theorem sortSlice_pairwise (key : α → Int) (l : List α) :
    (sortSlice (fun a b => decide (key a < key b)) l).Pairwise
      (fun a b => key a ≤ key b) := by
  induction l with
  | nil => exact List.Pairwise.nil
  | cons x xs ih =>
    unfold sortSlice
    exact sortSlice_insert_pairwise key x _ ih

end Sorting

/-- C19, as stated, fails when the audit lists are not in ascending id order: for targets
fetched in the order 2, 1 the audit returns `TargetsWithoutExtents` and
`TargetsWithoutConnection` in that order, and `printAuditResults` leaves them in the order
1, 2. -/
theorem C19_rendering_reorders_lists :
    auditISCSI descendingClient () "tank/k8s" = .ok descendingResult ∧
    (printAuditResults descendingResult).TargetsWithoutExtents =
      [{ ID := 1, Name := "pvc-a", HasDataset := false, DatasetPath := "tank/k8s/pvc-a" },
       { ID := 2, Name := "pvc-b", HasDataset := false, DatasetPath := "tank/k8s/pvc-b" }] ∧
    (printAuditResults descendingResult).TargetsWithoutExtents ≠
      descendingResult.TargetsWithoutExtents ∧
    (printAuditResults descendingResult).TargetsWithoutConnection ≠
      descendingResult.TargetsWithoutConnection :=
  ⟨rfl, rfl, by decide, by decide⟩

/-- C19, amended: for every result, `printAuditResults` leaves `OrphanedExtents`,
`OrphanedTargetsWithDataset` and `OrphanedTargetsWithoutDataset` (the list that `main` hands
to cleanup) exactly as they were, and leaves `TargetsWithoutExtents`,
`ExtentsWithoutTargets` and `TargetsWithoutConnection` with the same entries, rearranged in
ascending order of the (target) id. -/
theorem C19_rendering_keeps_orphan_lists (result : ISCSIAuditResult) :
    (printAuditResults result).OrphanedExtents = result.OrphanedExtents ∧
    (printAuditResults result).OrphanedTargetsWithDataset =
      result.OrphanedTargetsWithDataset ∧
    (printAuditResults result).OrphanedTargetsWithoutDataset =
      result.OrphanedTargetsWithoutDataset ∧
    ((printAuditResults result).TargetsWithoutExtents.Perm result.TargetsWithoutExtents ∧
      (printAuditResults result).TargetsWithoutExtents.Pairwise (fun a b => a.ID ≤ b.ID)) ∧
    ((printAuditResults result).ExtentsWithoutTargets.Perm result.ExtentsWithoutTargets ∧
      (printAuditResults result).ExtentsWithoutTargets.Pairwise (fun a b => a.ID ≤ b.ID)) ∧
    ((printAuditResults result).TargetsWithoutConnection.Perm
        result.TargetsWithoutConnection ∧
      (printAuditResults result).TargetsWithoutConnection.Pairwise
        (fun a b => a.Target.ID ≤ b.Target.ID)) :=
  ⟨rfl, rfl, rfl,
    ⟨sortSlice_perm _ _, sortSlice_pairwise (fun a : TargetInfo => a.ID) _⟩,
    ⟨sortSlice_perm _ _, sortSlice_pairwise (fun a : ExtentInfo => a.ID) _⟩,
    ⟨sortSlice_perm _ _, sortSlice_pairwise (fun a : TargetConnectionInfo => a.Target.ID) _⟩⟩

theorem GoMap.len_eq_length_keys {κ ν : Type} (m : GoMap κ ν) : m.len = m.keys.length := by
  unfold GoMap.len GoMap.keys
  rw [List.length_map]

/-- On a mock whose target ids are dense, `ISCSITargetCreate` returns an id that no stored
target has, the store grows by one, and the ids stay dense. -/
theorem create_fresh_of_idsDense (m : MockClient) (h : m.idsDense) (name alias_ mode : String)
    (groups : List ISCSITargetGroup) :
    (m.ISCSITargetCreate name alias_ mode groups).1 =
      .ok { ID := m.ISCSITargets.len + 1, Name := name, Alias := alias_, Mode := mode,
            Groups := groups } ∧
    ((m.ISCSITargets.len : Int) + 1) ∉ m.ISCSITargets.keys ∧
    (m.ISCSITargetCreate name alias_ mode groups).2.ISCSITargets.len =
      m.ISCSITargets.len + 1 ∧
    (m.ISCSITargetCreate name alias_ mode groups).2.idsDense := by
  have hfresh : ((m.ISCSITargets.len : Int) + 1) ∉ m.ISCSITargets.keys := by
    intro hc
    have := (h _ hc).2
    omega
  have hkeys : (m.ISCSITargetCreate name alias_ mode groups).2.ISCSITargets.keys =
      m.ISCSITargets.keys ++ [(m.ISCSITargets.len : Int) + 1] := by
    unfold MockClient.ISCSITargetCreate
    simp only
    rw [GoMap.keys_set, if_neg hfresh]
  have hlen : (m.ISCSITargetCreate name alias_ mode groups).2.ISCSITargets.len =
      m.ISCSITargets.len + 1 := by
    rw [GoMap.len_eq_length_keys, hkeys, List.length_append, ← GoMap.len_eq_length_keys]
    rfl
  refine ⟨rfl, hfresh, hlen, ?_⟩
  intro k hk
  rw [hkeys, List.mem_append, List.mem_singleton] at hk
  rw [hlen]
  rcases hk with hk | hk
  · have := h k hk
    omega
  · subst hk
    omega

/-- Without a delete the ids stay dense: after any sequence of creates on a new mock,
`ISCSITargetCreate` returns a fresh id. -/
theorem idsDense_after_creates (ops : List TargetOp)
    (h : ∀ op ∈ ops, ∃ name alias_ mode groups, op = TargetOp.create name alias_ mode groups) :
    (MockClient.after ops).idsDense := by
  unfold MockClient.after
  have base : NewMockClient.idsDense := by
    intro k hk
    exact absurd hk (List.not_mem_nil k)
  generalize NewMockClient = m at base
  induction ops generalizing m with
  | nil => exact base
  | cons op rest ih =>
    rw [List.foldl_cons]
    apply ih (fun o ho => h o (List.mem_cons_of_mem _ ho))
    obtain ⟨name, alias_, mode, groups, rfl⟩ := h op (List.mem_cons_self _ _)
    exact (create_fresh_of_idsDense m base name alias_ mode groups).2.2.2

/-! ## The in-memory client -/

/-- C20, the failing run: after create `a`, create `b`, delete 1 the mock stores target `b`
under id 2 and nothing else; the next `ISCSITargetCreate` returns id 2 again, replaces `b`,
and the number of stored targets stays 1. -/
theorem C20_create_after_delete_reuses_id :
    (MockClient.after createCreateDelete).ISCSITargets =
      [(2, { ID := 2, Name := "b", Mode := "ISCSI" })] ∧
    ((MockClient.after createCreateDelete).ISCSITargetCreate "c" "" "ISCSI" []).1 =
      .ok { ID := 2, Name := "c", Mode := "ISCSI" } ∧
    ((MockClient.after createCreateDelete).ISCSITargetCreate "c" "" "ISCSI" []).2.ISCSITargets =
      [(2, { ID := 2, Name := "c", Mode := "ISCSI" })] ∧
    ((MockClient.after createCreateDelete).ISCSITargetCreate "c" "" "ISCSI"
        []).2.ISCSITargets.len =
      (MockClient.after createCreateDelete).ISCSITargets.len :=
  ⟨rfl, rfl, rfl, rfl⟩

/-! ## The zero-session list and the no-extent list -/

/-- C21: in a successful audit an entry of `TargetsWithoutConnection` has `HasExtent = false`
if and only if its target id is the id of an entry of `TargetsWithoutExtents`; and every
entry of `TargetsWithoutExtents` whose session count is 0 has an entry in
`TargetsWithoutConnection` (same id and name) with `HasExtent = false`. -/
theorem C21_extent_flag_agrees_with_no_extent_list {σ : Type} (client : Client σ) (s : σ)
    (parentDataset : String) (targets : List ISCSITarget) (extents : List ISCSIExtent)
    (associations : List ISCSITargetExtent) (result : ISCSIAuditResult)
    (hT : getAllTargets client s = .ok targets)
    (hE : getAllExtents client s = .ok extents)
    (hA : getAllTargetExtents client s = .ok associations)
    (hR : auditISCSI client s parentDataset = .ok result) :
    (∀ x ∈ result.TargetsWithoutConnection,
      (x.HasExtent = false ↔ ∃ y ∈ result.TargetsWithoutExtents, y.ID = x.Target.ID)) ∧
    (∀ y ∈ result.TargetsWithoutExtents,
      (auditISCSI.sessions client s (auditISCSI.indexTargets targets).2).getD y.ID 0 = 0 →
      ∃ x ∈ result.TargetsWithoutConnection,
        x.Target.ID = y.ID ∧ x.Target.Name = y.Name ∧ x.HasExtent = false) := by
  have hmemE := mem_targetsWithoutExtents hT hE hA hR
  have hflag : ∀ k : Int,
      ((auditISCSI.indexAssociations (auditISCSI.indexExtents extents)
        associations).targetsWithExtents.getD k false = false ↔
      ¬ ∃ a ∈ associations, a.Target = k) := by
    intro k
    rw [← targetsWithExtents_iff (auditISCSI.indexExtents extents) associations k]
    cases (auditISCSI.indexAssociations (auditISCSI.indexExtents extents)
      associations).targetsWithExtents.getD k false <;> simp
  constructor
  · intro x hx
    obtain ⟨t, ht, _, hxt, hxh, _, _, _⟩ := mem_targetsWithoutConnection hT hE hA hR x hx
    have hid : x.Target.ID = t.ID := by rw [hxt]
    rw [hxh, hid, hflag]
    constructor
    · intro hno
      exact ⟨_, (hmemE _).mpr ⟨t, ht, hno, rfl⟩, rfl⟩
    · rintro ⟨y, hy, hyid⟩ hc
      obtain ⟨u, _, hu, rfl⟩ := (hmemE y).mp hy
      rw [targetInfo_ID] at hyid
      exact hu (hyid ▸ hc)
  · intro y hy hz
    obtain ⟨u, hu, hno, rfl⟩ := (hmemE y).mp hy
    rw [targetInfo_ID] at hz
    refine ⟨{ auditISCSI.connectionInfo
        (auditISCSI.sessions client s (auditISCSI.indexTargets targets).2)
        (auditISCSI.indexAssociations (auditISCSI.indexExtents extents) associations)
        u with PossibleOrphaned := true }, ?_, ?_, ?_, ?_⟩
    · rw [audit_targetsWithoutConnection hT hE hA hR]
      simp only [List.mem_map, List.mem_filter, decide_eq_true_eq]
      exact ⟨u, ⟨hu, hz⟩, rfl⟩
    · simp only [connectionInfo_Target]
      rfl
    · simp only [connectionInfo_Target]
      rfl
    · simp only [connectionInfo_HasExtent]
      exact (hflag u.ID).mpr hno

/-- C21 on the demo appliance: targets 1 and 2 are in both lists, with `HasExtent = false`
in the zero-session list. -/
theorem C21_extent_flag_agrees_with_no_extent_list_witness :
    auditISCSI demoClient () "tank/k8s" = .ok demoResult ∧
    (∀ x ∈ demoResult.TargetsWithoutConnection,
      (x.HasExtent = false ↔ ∃ y ∈ demoResult.TargetsWithoutExtents, y.ID = x.Target.ID)) :=
  ⟨demo_audit,
    (C21_extent_flag_agrees_with_no_extent_list demoClient () "tank/k8s" demoTargets
      demoExtents demoAssociations demoResult demo_targets demo_extents demo_associations
      demo_audit).1⟩

/-- C22: in a successful audit every entry of `TargetsWithoutConnection` has
`ActiveSessions = 0` and `PossibleOrphaned = true`; and if its `ExtentInfo` is present, then
`HasExtent` is true and the `ExtentInfo` is the id, name and disk of a fetched extent whose
id an association of that target references. -/
theorem C22_zero_session_entry_shape {σ : Type} (client : Client σ) (s : σ)
    (parentDataset : String) (targets : List ISCSITarget) (extents : List ISCSIExtent)
    (associations : List ISCSITargetExtent) (result : ISCSIAuditResult)
    (hT : getAllTargets client s = .ok targets)
    (hE : getAllExtents client s = .ok extents)
    (hA : getAllTargetExtents client s = .ok associations)
    (hR : auditISCSI client s parentDataset = .ok result)
    (x : TargetConnectionInfo) (hx : x ∈ result.TargetsWithoutConnection) :
    x.ActiveSessions = 0 ∧ x.PossibleOrphaned = true ∧
    (∀ info, x.ExtentInfo = some info →
      x.HasExtent = true ∧
      ∃ a ∈ associations, ∃ e ∈ extents, a.Target = x.Target.ID ∧ a.Extent = e.ID ∧
        info.ID = e.ID ∧ info = { ID := e.ID, Name := e.Name, Disk := e.Disk }) := by
  obtain ⟨t, _, _, hxt, hxh, hxe, hxa, hxp⟩ := mem_targetsWithoutConnection hT hE hA hR x hx
  refine ⟨hxa, hxp, ?_⟩
  intro info hinfo
  have hid : x.Target.ID = t.ID := by rw [hxt]
  rw [hxe] at hinfo
  cases hget : (auditISCSI.indexAssociations (auditISCSI.indexExtents extents)
      associations).targetToExtent.get? t.ID with
  | none =>
    rw [hget] at hinfo
    exact Option.noConfusion hinfo
  | some e =>
    rw [hget] at hinfo
    simp only [Option.map_some', Option.some.injEq] at hinfo
    obtain ⟨a, ha, hat, hae⟩ :=
      (indexAssociations_targetToExtent (auditISCSI.indexExtents extents) associations t.ID).1
        e hget
    obtain ⟨he, heid⟩ := (indexExtents_get? extents a.Extent).1 e hae
    constructor
    · rw [hxh]
      exact (targetsWithExtents_iff _ associations t.ID).mpr ⟨a, ha, hat⟩
    · refine ⟨a, ha, e, he, by rw [hid, hat], heid.symm, ?_, ?_⟩
      · rw [← hinfo]
        rfl
      · rw [← hinfo]
        rfl

/-- C22 on the run with a failing session call: the entry of target 3 carries extent 5,
which the association of target 3 references. -/
theorem C22_zero_session_entry_shape_witness :
    auditISCSI demoNoSessions () "tank/k8s" = .ok demoNoSessionsResult ∧
    ∃ a ∈ demoAssociations, ∃ e ∈ demoExtents, a.Target = 3 ∧ a.Extent = e.ID ∧
      ({ ID := 5, Name := "e5", Disk := "zvol/tank/missing" } : ExtentInfo).ID = e.ID ∧
      ({ ID := 5, Name := "e5", Disk := "zvol/tank/missing" } : ExtentInfo) =
        { ID := e.ID, Name := e.Name, Disk := e.Disk } :=
  ⟨rfl,
    ((C22_zero_session_entry_shape demoNoSessions () "tank/k8s" demoTargets demoExtents
      demoAssociations demoNoSessionsResult rfl rfl rfl rfl
      { Target := { ID := 3, Name := "pvc-c" }
        HasExtent := true
        ExtentInfo := some { ID := 5, Name := "e5", Disk := "zvol/tank/missing" }
        PossibleOrphaned := true }
      (by decide)).2.2 { ID := 5, Name := "e5", Disk := "zvol/tank/missing" } rfl).2⟩

/-- The count read for a stored key is a stored count. -/
theorem GoMap.getD_pos_of_mem_keys {κ : Type} [DecidableEq κ] (m : GoMap κ Nat) (k : κ)
    (h : ∀ v ∈ m.values, 1 ≤ v) (hk : k ∈ m.keys) : 1 ≤ m.getD k 0 := by
  induction m with
  | nil => exact absurd hk (List.not_mem_nil k)
  | cons hd tl ih =>
    obtain ⟨k', v'⟩ := hd
    by_cases hkk : k' = k
    · simp only [GoMap.getD, GoMap.get?, hkk, if_true, Option.getD_some]
      exact h v' (by simp [GoMap.values])
    · simp only [GoMap.getD, GoMap.get?, hkk, if_false]
      apply ih
      · intro v hv
        exact h v (by simp only [GoMap.values, List.map_cons, List.mem_cons]; exact Or.inr hv)
      · simp only [GoMap.keys, List.map_cons, List.mem_cons] at hk
        rcases hk with hk | hk
        · exact absurd hk.symm hkk
        · exact hk

/-! ## Unvalidated numeric targets -/

theorem GoMap.mem_values_set {κ ν : Type} [DecidableEq κ] (m : GoMap κ ν) (k : κ) (v w : ν)
    (h : w ∈ (m.set k v).values) : w = v ∨ w ∈ m.values := by
  induction m with
  | nil =>
    simp [GoMap.set, GoMap.values] at h
    exact Or.inl h
  | cons hd tl ih =>
    obtain ⟨k', v'⟩ := hd
    by_cases hk : k' = k
    · simp only [GoMap.set, hk, if_true, GoMap.values, List.map_cons, List.mem_cons] at h ⊢
      rcases h with h | h
      · exact Or.inl h
      · exact Or.inr (Or.inr h)
    · simp only [GoMap.set, hk, if_false, GoMap.values, List.map_cons, List.mem_cons] at h ⊢
      rcases h with h | h
      · exact Or.inr (Or.inl h)
      · rcases ih h with h | h
        · exact Or.inl h
        · exact Or.inr (Or.inr h)

/-- An increment keeps every stored count at 1 or more. -/
theorem GoMap.values_pos_incr {κ : Type} [DecidableEq κ] (m : GoMap κ Nat) (k : κ)
    (h : ∀ v ∈ m.values, 1 ≤ v) : ∀ v ∈ (m.incr k).values, 1 ≤ v := by
  intro v hv
  rcases GoMap.mem_values_set m k _ v hv with rfl | hv
  · omega
  · exact h v hv

/-- An increment stores its key and keeps the keys that were stored. -/
theorem GoMap.mem_keys_incr {κ : Type} [DecidableEq κ] (m : GoMap κ Nat) (k j : κ) :
    j ∈ (m.incr k).keys ↔ j = k ∨ j ∈ m.keys := by
  unfold GoMap.incr
  rw [GoMap.keys_set]
  by_cases hk : k ∈ m.keys
  · rw [if_pos hk]
    constructor
    · exact Or.inr
    · rintro (rfl | h)
      · exact hk
      · exact h
  · rw [if_neg hk, List.mem_append, List.mem_singleton]
    constructor
    · rintro (h | h)
      · exact Or.inr h
      · exact Or.inl h
    · rintro (h | h)
      · exact Or.inr h
      · exact Or.inl h

theorem values_pos_foldl_step (targetNameToID : GoMap String Int) (items : List Value)
    (sessions : GoMap Int Nat) (h : ∀ v ∈ sessions.values, 1 ≤ v) :
    ∀ v ∈ (items.foldl (getActiveSessions.step targetNameToID) sessions).values, 1 ≤ v := by
  induction items generalizing sessions with
  | nil => exact h
  | cons item rest ih =>
    rw [List.foldl_cons]
    apply ih
    rcases step_cases targetNameToID item with hs | ⟨id, hs⟩
    · rw [hs]
      exact h
    · rw [hs]
      exact GoMap.values_pos_incr _ _ h

theorem keys_mono_foldl_step (targetNameToID : GoMap String Int) (items : List Value)
    (sessions : GoMap Int Nat) (k : Int) (h : k ∈ sessions.keys) :
    k ∈ (items.foldl (getActiveSessions.step targetNameToID) sessions).keys := by
  induction items generalizing sessions with
  | nil => exact h
  | cons item rest ih =>
    rw [List.foldl_cons]
    apply ih
    rcases step_cases targetNameToID item with hs | ⟨id, hs⟩
    · rw [hs]
      exact h
    · rw [hs]
      exact (GoMap.mem_keys_incr _ _ _).mpr (Or.inr h)

/-- A record with a numeric target leaves its number as a key of the final map. -/
theorem numeric_target_key_foldl (targetNameToID : GoMap String Int) (items : List Value)
    (sessions : GoMap Int Nat) (m : List (String × Value)) (n : Int)
    (hitem : Value.obj m ∈ items) (hn : asInt (index m "target") = some n) :
    n ∈ (items.foldl (getActiveSessions.step targetNameToID) sessions).keys := by
  induction items generalizing sessions with
  | nil => exact absurd hitem (List.not_mem_nil _)
  | cons item rest ih =>
    rw [List.foldl_cons]
    rcases List.mem_cons.mp hitem with h | h
    · apply keys_mono_foldl_step
      rw [← h]
      unfold getActiveSessions.step
      simp only [hn]
      exact (GoMap.mem_keys_incr _ _ _).mpr (Or.inl rfl)
    · exact ih _ h

/-- C23: a session record whose `target` field is a number `n` is counted under key `n`,
whatever the name index (no fetched target need have the id `n`) and whatever its alias and
name fields hold; when the session call returns a list, `getActiveSessions` returns a map in
which every stored count is at least 1 and in which the number of every such record is a
key. -/
theorem C23_numeric_target_not_validated {σ : Type} (client : Client σ) (s : σ)
    (targetNameToID : GoMap String Int) (items : List Value)
    (hcall : client.Call s "iscsi.global.sessions" [] = .ok (.list items)) :
    (∀ (sessions : GoMap Int Nat) (m : List (String × Value)) (n : Int),
      asInt (index m "target") = some n →
      getActiveSessions.step targetNameToID sessions (.obj m) = sessions.incr n ∧
      (getActiveSessions.step targetNameToID sessions (.obj m)).getD n 0 =
        sessions.getD n 0 + 1) ∧
    (∃ result, getActiveSessions client s targetNameToID = .ok result ∧
      (∀ v ∈ result.values, 1 ≤ v) ∧
      (∀ k ∈ result.keys, 1 ≤ result.getD k 0) ∧
      (∀ (m : List (String × Value)) (n : Int), Value.obj m ∈ items →
        asInt (index m "target") = some n → n ∈ result.keys)) := by
  constructor
  · intro sessions m n hn
    have hstep : getActiveSessions.step targetNameToID sessions (.obj m) = sessions.incr n := by
      unfold getActiveSessions.step
      simp only [hn]
    exact ⟨hstep, by rw [hstep, GoMap.getD_incr_self]⟩
  · have hpos := values_pos_foldl_step targetNameToID items GoMap.empty
      (fun v hv => absurd hv (List.not_mem_nil v))
    refine ⟨items.foldl (getActiveSessions.step targetNameToID) GoMap.empty, ?_, hpos, ?_, ?_⟩
    · unfold getActiveSessions
      rw [hcall]
    · intro k hk
      exact GoMap.getD_pos_of_mem_keys _ k hpos hk
    · intro m n hitem hn
      exact numeric_target_key_foldl targetNameToID items GoMap.empty m n hitem hn

/-- C23 on a record with the numeric target 99 and the alias `pvc-z`, with a name index in
which `pvc-z` resolves to target 0 and no target has the id 99: the record is counted under
99. -/
theorem C23_numeric_target_not_validated_witness :
    getAllTargets raggedClient () = .ok [{ ID := 0 }, { ID := 0, Name := "pvc-z" }] ∧
    (auditISCSI.indexTargets [{ ID := 0 }, { ID := 0, Name := "pvc-z" }]).2
      = [("", 0), ("pvc-z", 0)] ∧
    getActiveSessions raggedClient () [("", 0), ("pvc-z", 0)] = .ok [(99, 1)] ∧
    ∃ result, getActiveSessions raggedClient () [("", 0), ("pvc-z", 0)] = .ok result ∧
      (∀ v ∈ result.values, 1 ≤ v) ∧
      (∀ k ∈ result.keys, 1 ≤ result.getD k 0) ∧
      (∀ (m : List (String × Value)) (n : Int),
        Value.obj m ∈ [Value.obj [("target", .num 99), ("target_alias", .str "pvc-z")]] →
        asInt (index m "target") = some n → n ∈ result.keys) :=
  ⟨rfl, rfl, rfl,
    (C23_numeric_target_not_validated raggedClient () [("", 0), ("pvc-z", 0)]
      [Value.obj [("target", .num 99), ("target_alias", .str "pvc-z")]] rfl).2⟩

/-! ## The decoders -/

theorem getAllTargets_step_eq (targets : List ISCSITarget) (item : Value) :
    getAllTargets.step targets item = targets ++ (decoded.target item).toList := by
  cases item with
  | obj m =>
    dsimp only [getAllTargets.step, decoded.target]
    cases asInt (index m "id") <;> cases asString (index m "name") <;> rfl
  | _ => simp [getAllTargets.step, decoded.target]

theorem getAllExtents_step_eq (extents : List ISCSIExtent) (item : Value) :
    getAllExtents.step extents item = extents ++ (decoded.extent item).toList := by
  cases item with
  | obj m =>
    dsimp only [getAllExtents.step, decoded.extent]
    cases asInt (index m "id") <;> cases asString (index m "name") <;>
      cases asString (index m "disk") <;> cases asString (index m "type") <;> rfl
  | _ => simp [getAllExtents.step, decoded.extent]

theorem getAllTargetExtents_step_eq (associations : List ISCSITargetExtent) (item : Value) :
    getAllTargetExtents.step associations item =
      associations ++ (decoded.association item).toList := by
  cases item with
  | obj m =>
    dsimp only [getAllTargetExtents.step, decoded.association]
    cases asInt (index m "id") <;> cases asInt (index m "target") <;>
      cases asInt (index m "extent") <;> rfl
  | _ => simp [getAllTargetExtents.step, decoded.association]

/-- A loop that appends at most one record per item is a `filterMap`. -/
theorem foldl_append_toList {α β : Type} (step : List β → α → List β) (f : α → Option β)
    (h : ∀ acc item, step acc item = acc ++ (f item).toList) (items : List α) (acc : List β) :
    items.foldl step acc = acc ++ items.filterMap f := by
  induction items generalizing acc with
  | nil => simp
  | cons item rest ih =>
    rw [List.foldl_cons, ih, h]
    cases hf : f item <;> simp [List.filterMap_cons, hf]

/-- One record per object-shaped item. -/
theorem length_filterMap_of_isObject {β : Type} (f : Value → Option β)
    (h : ∀ item, (f item).isSome = isObject item) (items : List Value) :
    (items.filterMap f).length = (items.filter isObject).length := by
  induction items with
  | nil => rfl
  | cons item rest ih =>
    have hi := h item
    cases hf : f item with
    | none =>
      rw [hf] at hi
      simp [List.filterMap_cons, hf, List.filter_cons, ← hi, ih]
    | some b =>
      rw [hf] at hi
      simp [List.filterMap_cons, hf, List.filter_cons, ← hi, ih]

theorem decoded_target_isSome (item : Value) : (decoded.target item).isSome = isObject item := by
  cases item <;> rfl

theorem decoded_extent_isSome (item : Value) : (decoded.extent item).isSome = isObject item := by
  cases item <;> rfl

theorem decoded_association_isSome (item : Value) :
    (decoded.association item).isSome = isObject item := by
  cases item <;> rfl

/-- C24: each of the three list decoders returns the error of the call when the call fails,
the error `unexpected response format` when the response is not a list, and otherwise
succeeds with one record per object-shaped item of the response, in response order, items of
another shape being skipped; in a record a field that is missing or of another type is the
zero value (0, the empty string). -/
theorem C24_list_decoders {σ : Type} (client : Client σ) (s : σ) :
    ((∀ err, client.Call s "iscsi.target.query" [.list [], .obj []] = .error err →
        getAllTargets client s = .error err) ∧
      (∀ v, client.Call s "iscsi.target.query" [.list [], .obj []] = .ok v →
        (∀ items, v ≠ .list items) →
        getAllTargets client s = .error "unexpected response format") ∧
      (∀ items, client.Call s "iscsi.target.query" [.list [], .obj []] = .ok (.list items) →
        getAllTargets client s = .ok (items.filterMap decoded.target) ∧
        (items.filterMap decoded.target).length = (items.filter isObject).length)) ∧
    ((∀ err, client.Call s "iscsi.extent.query" [.list [], .obj []] = .error err →
        getAllExtents client s = .error err) ∧
      (∀ v, client.Call s "iscsi.extent.query" [.list [], .obj []] = .ok v →
        (∀ items, v ≠ .list items) →
        getAllExtents client s = .error "unexpected response format") ∧
      (∀ items, client.Call s "iscsi.extent.query" [.list [], .obj []] = .ok (.list items) →
        getAllExtents client s = .ok (items.filterMap decoded.extent) ∧
        (items.filterMap decoded.extent).length = (items.filter isObject).length)) ∧
    ((∀ err, client.Call s "iscsi.targetextent.query" [.list [], .obj []] = .error err →
        getAllTargetExtents client s = .error err) ∧
      (∀ v, client.Call s "iscsi.targetextent.query" [.list [], .obj []] = .ok v →
        (∀ items, v ≠ .list items) →
        getAllTargetExtents client s = .error "unexpected response format") ∧
      (∀ items,
        client.Call s "iscsi.targetextent.query" [.list [], .obj []] = .ok (.list items) →
        getAllTargetExtents client s = .ok (items.filterMap decoded.association) ∧
        (items.filterMap decoded.association).length = (items.filter isObject).length)) := by
  refine ⟨⟨?_, ?_, ?_⟩, ⟨?_, ?_, ?_⟩, ⟨?_, ?_, ?_⟩⟩
  · intro err h
    unfold getAllTargets
    rw [h]
  · intro v h hv
    unfold getAllTargets
    rw [h]
    cases v with
    | list items => exact absurd rfl (hv items)
    | _ => rfl
  · intro items h
    refine ⟨?_, length_filterMap_of_isObject _ decoded_target_isSome items⟩
    unfold getAllTargets
    rw [h]
    simp only [foldl_append_toList _ _ getAllTargets_step_eq, List.nil_append]
  · intro err h
    unfold getAllExtents
    rw [h]
  · intro v h hv
    unfold getAllExtents
    rw [h]
    cases v with
    | list items => exact absurd rfl (hv items)
    | _ => rfl
  · intro items h
    refine ⟨?_, length_filterMap_of_isObject _ decoded_extent_isSome items⟩
    unfold getAllExtents
    rw [h]
    simp only [foldl_append_toList _ _ getAllExtents_step_eq, List.nil_append]
  · intro err h
    unfold getAllTargetExtents
    rw [h]
  · intro v h hv
    unfold getAllTargetExtents
    rw [h]
    cases v with
    | list items => exact absurd rfl (hv items)
    | _ => rfl
  · intro items h
    refine ⟨?_, length_filterMap_of_isObject _ decoded_association_isSome items⟩
    unfold getAllTargetExtents
    rw [h]
    simp only [foldl_append_toList _ _ getAllTargetExtents_step_eq, List.nil_append]

/-- C24 on a target response with an object without fields, a number, and an object whose
id is a string: two records, the number is skipped, the missing and the ill-typed fields are
zero values. -/
theorem C24_list_decoders_witness :
    getAllTargets raggedClient () = .ok [{ ID := 0, Name := "" }, { ID := 0, Name := "pvc-z" }] ∧
    (getAllTargets raggedClient () =
        .ok ([Value.obj [], .num 7, .obj [("id", .str "x"), ("name", .str "pvc-z")]].filterMap
          decoded.target) ∧
      ([Value.obj [], .num 7, .obj [("id", .str "x"), ("name", .str "pvc-z")]].filterMap
          decoded.target).length =
        ([Value.obj [], .num 7, .obj [("id", .str "x"), ("name", .str "pvc-z")]].filter
          isObject).length) :=
  ⟨rfl, (C24_list_decoders raggedClient ()).1.2.2 _ rfl⟩

/-! ## Datasets of the in-memory client -/

section Keyed

end Keyed

theorem float64.exponent_of_lt (n fuel : Nat) (h : n < 2 ^ 53) :
    float64.exponent n (fuel + 1) 0 = 0 := by
  have h0 : n < 2 ^ (53 + 0) := h
  simp only [float64.exponent, if_pos h0]

/-- The conversion to float64 is exact below 2^53 in magnitude. -/
theorem float64_of_natAbs_lt (v : Int) (h : v.natAbs < 2 ^ 53) : float64 v = v := by
  have hr : float64.round v.natAbs = v.natAbs := by
    unfold float64.round
    rw [show (971 : Nat) = 970 + 1 from rfl, float64.exponent_of_lt _ _ h]
    simp [Nat.mod_one]
  unfold float64
  rw [hr]
  split <;> omega

/-- The conversion at and above 2^53: ties go to the even significand, the largest `int64`
becomes 2^63. -/
theorem float64_examples :
    float64 1073741824 = 1073741824 ∧
    float64 9007199254740992 = 9007199254740992 ∧
    float64 9007199254740993 = 9007199254740992 ∧
    float64 9007199254740995 = 9007199254740996 ∧
    float64 (-9007199254740993) = -9007199254740992 ∧
    float64 9223372036854775295 = 9223372036854774784 ∧
    float64 9223372036854775296 = 9223372036854775808 ∧
    float64 9223372036854775807 = 9223372036854775808 ∧
    float64 (-9223372036854775808) = -9223372036854775808 := by
  refine ⟨?_, ?_, ?_, ?_, ?_, ?_, ?_, ?_, ?_⟩ <;> rfl

/-- C26: when `InjectError` is set, each of the twelve methods returns exactly that error,
and the mock after the call is the mock before it, so none of its stores has changed
(`DatasetGet` and `SnapshotGet` do not write the mock at all). -/
theorem C26_injected_error_returned (m : MockClient) (err : MockError)
    (hinj : m.InjectError = some err) :
    (∀ params, m.DatasetCreate params = (.error err, m)) ∧
    (∀ name recursive force, m.DatasetDelete name recursive force = (some err, m)) ∧
    (∀ name, m.DatasetGet name = .error err) ∧
    (∀ name params, m.DatasetUpdate name params = (.error err, m)) ∧
    (∀ name key value, m.DatasetSetUserProperty name key value = (some err, m)) ∧
    (∀ name newSize, m.DatasetExpand name newSize = (some err, m)) ∧
    (∀ dataset name, m.SnapshotCreate dataset name = (.error err, m)) ∧
    (∀ snapshotID defer_ recursive,
      m.SnapshotDelete snapshotID defer_ recursive = (some err, m)) ∧
    (∀ snapshotID, m.SnapshotGet snapshotID = .error err) ∧
    (∀ snapshotID key value, m.SnapshotSetUserProperty snapshotID key value = (some err, m)) ∧
    (∀ snapshotID newDatasetName,
      m.SnapshotClone snapshotID newDatasetName = (some err, m)) ∧
    (∀ params, m.NFSShareCreate params = (.error err, m)) := by
  refine ⟨?_, ?_, ?_, ?_, ?_, ?_, ?_, ?_, ?_, ?_, ?_, ?_⟩
  · intro params
    simp only [MockClient.DatasetCreate, hinj]
  · intro name recursive force
    simp only [MockClient.DatasetDelete, hinj]
  · intro name
    simp only [MockClient.DatasetGet, hinj]
  · intro name params
    simp only [MockClient.DatasetUpdate, hinj]
  · intro name key value
    simp only [MockClient.DatasetSetUserProperty, hinj]
  · intro name newSize
    simp only [MockClient.DatasetExpand, hinj]
  · intro dataset name
    simp only [MockClient.SnapshotCreate, hinj]
  · intro snapshotID defer_ recursive
    simp only [MockClient.SnapshotDelete, hinj]
  · intro snapshotID
    simp only [MockClient.SnapshotGet, hinj]
  · intro snapshotID key value
    simp only [MockClient.SnapshotSetUserProperty, hinj]
  · intro snapshotID newDatasetName
    simp only [MockClient.SnapshotClone, hinj]
  · intro params
    simp only [MockClient.NFSShareCreate, hinj]

/-- C26 on the mock that holds `tank/a` and has the error `connection refused` injected: the
delete of `tank/a` returns that error and the dataset is still stored. -/
theorem C26_injected_error_returned_witness :
    failingMock.InjectError = some (.Errorf "connection refused") ∧
    failingMock.DatasetDelete "tank/a" true true =
      (some (.Errorf "connection refused"), failingMock) ∧
    failingMock.Datasets.get? "tank/a" =
      some { ID := "tank/a", Name := "tank/a", Type_ := "VOLUME",
             Volsize := { Parsed := 1073741824 } } :=
  ⟨rfl,
    (C26_injected_error_returned failingMock (.Errorf "connection refused") rfl).2.1
      "tank/a" true true,
    rfl⟩

end DebugApi
